import Mathlib

/-!
# Handshake / confirmed-delivery protocol: header codec and Internet checksum

Shallow embedding of `server.c` and `client.c`.

Conventions of the embedding:

* a C buffer (`char *`) is a `List Nat`; every cell holds the bit pattern of one
  byte, a number below 256 (`isBytes`);
* a pointer into a buffer is the buffer together with an offset;
* machine integers are natural numbers, reduced `% 2 ^ w` where the C type is
  `w` bits wide;
* the two properties of the compilation target the code depends on
  (signedness of plain `char`, byte order of a `uint16_t` load) are the two
  fields of `Target`.
-/

namespace Capstone

/-! ## Constants (`#define`s of server.c and client.c) -/

def SERVER_ISN : Nat := 2001
def CLIENT_ISN : Nat := 1001
def SHAKESIZE : Nat := 256
def BUFSIZE : Nat := 4096
def MAX_RETRANSM : Nat := 3
def DATASIZE : Nat := 1024

/-- Properties of the compilation target that the C code leaves open. -/
structure Target where
  /-- plain `char` is a signed type (x86) or an unsigned one (ARM) -/
  charSigned : Bool
  /-- a `uint16_t` load takes the byte at the lower address as the high byte -/
  bigEndian : Bool
deriving DecidableEq, Repr

/-- Typical x86 target: signed `char`, little-endian loads. -/
def x86 : Target := ⟨true, false⟩

/-- Every cell of the buffer holds a byte. -/
def isBytes (b : List Nat) : Prop := ∀ x ∈ b, x < 256

instance (b : List Nat) : Decidable (isBytes b) := by
  unfold isBytes; infer_instance

/-! ## Header record and codec -/

/-- The record `struct capshdr`. -/
structure capshdr where
  version : Nat   -- uint8_t
  ack : Nat       -- uint16_t
  syn : Nat       -- uint16_t
  seq : Nat       -- uint16_t
  bufsize : Nat   -- uint16_t
  checksum : Nat  -- uint16_t
  len : Nat       -- uint16_t
deriving DecidableEq, Repr

/-- The ranges of the C field types: `uint8_t` for `version`, `uint16_t` for the rest. -/
def capshdr.valid (h : capshdr) : Prop :=
  h.version < 256 ∧ h.ack < 65536 ∧ h.syn < 65536 ∧ h.seq < 65536 ∧
  h.bufsize < 65536 ∧ h.checksum < 65536 ∧ h.len < 65536

instance (h : capshdr) : Decidable h.valid := by
  unfold capshdr.valid; infer_instance

/-- `pack_uint16_t(&buffer[off], value)`:
`buffer[0] = value; buffer[1] = value >> 8;` (each store keeps the low 8 bits). -/
def pack_uint16_t (buffer : List Nat) (off : Nat) (value : Nat) : List Nat :=
  (buffer.set off (value % 256)).set (off + 1) ((value >>> 8) % 256)

/-- `unpack_uint16_t(&buffer[off])`:
`return (uint8_t)buffer[1] << 8 | (uint8_t)buffer[0];` converted to `uint16_t`. -/
def unpack_uint16_t (buffer : List Nat) (off : Nat) : Nat :=
  (((buffer.getD (off + 1) 0 % 256) <<< 8) ||| (buffer.getD off 0 % 256)) % 65536

/-- `pack_uint8_t(&buffer[off], value)`: `buffer[0] = value;`. -/
def pack_uint8_t (buffer : List Nat) (off : Nat) (value : Nat) : List Nat :=
  buffer.set off (value % 256)

/-- `unpack_uint8_t(&buffer[off])`: `return buffer[0];` with return type `uint16_t`.
The cell is a plain `char`: where `char` is signed, a bit pattern of 128 or more is a
negative number and its conversion to `uint16_t` adds 65536. -/
def unpack_uint8_t (t : Target) (buffer : List Nat) (off : Nat) : Nat :=
  let c := buffer.getD off 0 % 256
  if t.charSigned && decide (128 ≤ c) then (c + 65536 - 256) % 65536 else c

/-- `serialize_header(buffer, header)`. -/
def serialize_header (buffer : List Nat) (header : capshdr) : List Nat :=
  let buffer := pack_uint8_t buffer 0 header.version
  let buffer := pack_uint16_t buffer 1 header.ack
  let buffer := pack_uint16_t buffer 3 header.syn
  let buffer := pack_uint16_t buffer 5 header.seq
  let buffer := pack_uint16_t buffer 7 header.bufsize
  let buffer := pack_uint16_t buffer 9 header.checksum
  pack_uint16_t buffer 11 header.len

/-- `deserialize_header(buffer, &header)`; the store into the `uint8_t` field
`version` keeps the low 8 bits of the `uint16_t` that `unpack_uint8_t` returns. -/
def deserialize_header (t : Target) (buffer : List Nat) : capshdr :=
  { version := unpack_uint8_t t buffer 0 % 256
    ack := unpack_uint16_t buffer 1
    syn := unpack_uint16_t buffer 3
    seq := unpack_uint16_t buffer 5
    bufsize := unpack_uint16_t buffer 7
    checksum := unpack_uint16_t buffer 9
    len := unpack_uint16_t buffer 11 }

/-! ## Internet checksum -/

/-- The load `*ptr` of a `uint16_t *ptr` that points at offset `p` of `mem`:
the two bytes at `p` and `p + 1` in the byte order of the target. -/
def load16 (t : Target) (mem : List Nat) (p : Nat) : Nat :=
  if t.bigEndian then 256 * mem.getD p 0 + mem.getD (p + 1) 0
  else mem.getD p 0 + 256 * mem.getD (p + 1) 0

/-- The first loop of `ichecksum`:
`while (count > 1) { sum += *ptr++; count -= 2; }` on the `uint32_t sum`.
Returns the final `(ptr, count, sum)`; `ptr` is a byte offset. -/
def wordLoop (t : Target) (mem : List Nat) : Nat → Nat → Nat → Nat × Nat × Nat
  | ptr, count + 2, sum => wordLoop t mem (ptr + 2) count ((sum + load16 t mem ptr) % 2 ^ 32)
  | ptr, count, sum => (ptr, count, sum)

/-- The value of `sum` when the folding loop of `ichecksum` is reached: the word loop,
then `if (count > 0) sum = sum + *(uint8_t *) ptr;`. A negative `len` runs neither. -/
def accumulate (t : Target) (addr : List Nat) (len : Int) : Nat :=
  let (ptr, count, sum) := wordLoop t addr 0 len.toNat 0
  if count > 0 then (sum + addr.getD ptr 0) % 2 ^ 32 else sum

/-- The second loop of `ichecksum`,
`while (sum >> 16) sum = (sum & 0xffff) + (sum >> 16);`, run for at most `fuel`
iterations. -/
def foldIter : Nat → Nat → Nat
  | 0, sum => sum
  | fuel + 1, sum =>
    if sum >>> 16 ≠ 0 then foldIter fuel ((sum &&& 0xffff) + (sum >>> 16)) else sum

/-- The second loop of `ichecksum`. Every iteration makes `sum` smaller, so `sum`
iterations are always enough: the loop has ended when `foldIter` returns
(`foldLoop_exit`). -/
def foldLoop (sum : Nat) : Nat := foldIter sum sum

/-- `uint16_t ichecksum(uint16_t *addr, int len)`: `return ~sum;`, the complement of the
`uint32_t` converted to `uint16_t`. -/
def ichecksum (t : Target) (addr : List Nat) (len : Int) : Nat :=
  (2 ^ 32 - 1 - foldLoop (accumulate t addr len)) % 65536

/-! ## Reference definitions for the checksum -/

/-- End-around-carry fold of a sum into 16 bits, in closed form. -/
def foldSpec (S : Nat) : Nat := if S = 0 then 0 else (S - 1) % 65535 + 1

/-- The sum as the specification words it: the `⌊n/2⌋` consecutive 16-bit words of `b`
(each as the target loads it), plus, when `n` is odd, the last byte as an 8-bit value.
Unbounded arithmetic. -/
def specSum (t : Target) (b : List Nat) : Nat :=
  (∑ i ∈ Finset.range (b.length / 2), load16 t b (2 * i)) +
    (if b.length % 2 = 1 then b.getD (b.length - 1) 0 else 0)

/-- The same sum with the byte order written out: on a big-endian target the pair
`(b[2i], b[2i+1])` counts as `256 * b[2i] + b[2i+1]`, on a little-endian one as
`b[2i] + 256 * b[2i+1]`. -/
def hostOrderSum (t : Target) (b : List Nat) : Nat :=
  (∑ i ∈ Finset.range (b.length / 2),
      (if t.bigEndian then 256 * b.getD (2 * i) 0 + b.getD (2 * i + 1) 0
       else b.getD (2 * i) 0 + 256 * b.getD (2 * i + 1) 0)) +
    (if b.length % 2 = 1 then b.getD (b.length - 1) 0 else 0)

/-- Weight with which the byte at position `i` of an `n`-byte input enters the sum:
256 for the high byte of a word, 1 for the low byte and for the odd trailing byte. -/
def weight (t : Target) (n i : Nat) : Nat :=
  if i % 2 = 1 then (if t.bigEndian then 1 else 256)
  else if i + 1 < n then (if t.bigEndian then 256 else 1) else 1

/-- The sum as a weighted sum of the single bytes. -/
def weightedSum (t : Target) (b : List Nat) : Nat :=
  ∑ i ∈ Finset.range b.length, weight t b.length i * b.getD i 0

/-- The buffer with the bytes at positions `i` and `j` exchanged. -/
def swapBytes (b : List Nat) (i j : Nat) : List Nat :=
  (b.set i (b.getD j 0)).set j (b.getD i 0)

/-- The 13 header bytes as `serialize_header` lays them out. -/
def headerBytes (h : capshdr) : List Nat :=
  [h.version % 256, h.ack % 256, (h.ack >>> 8) % 256, h.syn % 256, (h.syn >>> 8) % 256,
   h.seq % 256, (h.seq >>> 8) % 256, h.bufsize % 256, (h.bufsize >>> 8) % 256,
   h.checksum % 256, (h.checksum >>> 8) % 256, h.len % 256, (h.len >>> 8) % 256]

/-! ## C library calls on buffers

An allocation is a list of cells. What a read finds beyond the end of an allocation is
not determined by the program: where the code reads on (a `strlen` over a block that
holds no zero), the memory that follows the block is a parameter (`after`). A scan that
finds no zero in the modelled memory is undefined (`none`). A write beyond the end of a
block is undefined in `cycleStart`, which describes the runs that stay inside their
blocks; `cycleHeader` and `cycleWrite` follow such a write into the memory behind the
block. -/

/-- `memset(buf, 0, n)`. -/
def memset0 (buf : List Nat) (n : Nat) : List Nat :=
  List.replicate n 0 ++ buf.drop n

/-- `memcpy(&dst[off], src, n)` on the memory at `dst`: the cells `off .. off+n-1` take
the first `n` cells of `src` (where they go past the end of the list, the list grows). -/
def memcpy (dst : List Nat) (off : Nat) (src : List Nat) (n : Nat) : List Nat :=
  dst.take off ++ src.take n ++ dst.drop (off + n)

/-- `strlen(s)`: the number of cells before the first zero cell of the memory at `s`. -/
def strlen : List Nat → Option Nat
  | [] => none
  | c :: rest => if c = 0 then some 0 else (strlen rest).map (· + 1)

/-- `read(fd, buf, n)` when the transport hands over `data`: the cells of `buf` that
receive a byte; the return value of the call is `(data.take n).length`. -/
def recvInto (buf : List Nat) (n : Nat) (data : List Nat) : List Nat :=
  data.take n ++ buf.drop (data.take n).length

/-- `isspace` of the C locale. -/
def isspace (c : Nat) : Bool := c == 32 || (decide (9 ≤ c) && decide (c ≤ 13))

/-- `isdigit`. -/
def isdigit (c : Nat) : Bool := decide (48 ≤ c) && decide (c ≤ 57)

/-- Value of a run of decimal digits. -/
def digitsValue (ds : List Nat) : Nat := ds.foldl (fun acc d => 10 * acc + (d - 48)) 0

/-- `sscanf(s, "%d", &x)`: skip white space, an optional sign, then at least one digit.
`none` is a matching failure (nothing is stored, `x` keeps its value); `some v` is the
number read. The number is kept exact; C defines the store only for `v` in the range of
`int`. -/
def sscanf_d (s : List Nat) : Option Int :=
  let s := s.dropWhile isspace
  let (neg, s) := match s with
    | 45 :: r => (true, r)
    | 43 :: r => (false, r)
    | r => (false, r)
  let ds := s.takeWhile isdigit
  if ds.isEmpty then none
  else some (if neg then -(digitsValue ds : Int) else (digitsValue ds : Int))

/-- The status variable after `sscanf(msg, "%d", &status)`. The value is that of the C
variable for every number in the range of `int`; outside that range C does not define what
is stored; the theorems whose result depends on the value go through `failureSignal`,
`successSignal` or slots without a number. -/
def scanStatus (msg : List Nat) (status : Int) : Int :=
  (sscanf_d msg).getD status

/-- `memset(msg, 0, SHAKESIZE); sprintf(msg, "%d", 1);` or `... 0`: the status slot. -/
def statusSlot (ok : Bool) : List Nat :=
  (if ok then 49 else 48) :: List.replicate (SHAKESIZE - 1) 0

/-- A slot that a sender reads as a failure: it carries a number other than 1
(within the range of `int`). -/
def failureSignal (slot : List Nat) : Bool :=
  match sscanf_d slot with
  | some v => decide (v ≠ 1) && decide (-2147483648 ≤ v) && decide (v ≤ 2147483647)
  | none => false

/-- A slot that a sender reads as success: it carries the number 1. -/
def successSignal (slot : List Nat) : Bool :=
  sscanf_d slot == some 1

/-! ## Messages on the wire

The transport is an ordered, lossless byte stream. Every `write` of the two programs
is matched by a `read` of the same size on the other side, so one `read` hands over
the bytes of one `write`. A process is modelled as a machine that is blocked in a
`read`: a step takes the bytes that the `read` returns and runs the code up to the
next `read`, collecting what is written on the way. -/

/-- The frame kinds of the protocol. -/
inductive Phase where
  | syn | synAck | ack | data
deriving DecidableEq, Repr

/-- One `write`: a frame (the `write` of `hbuffer` or `buffer`) or a status slot (the
`write` of `hmsg` or `pmsg`). The tag records which statement wrote the bytes; the
peer sees the bytes only. -/
inductive Out where
  | frame (p : Phase) (bytes : List Nat)
  | status (bytes : List Nat)
deriving DecidableEq, Repr

/-- The bytes that go on the wire. -/
def Out.bytes : Out → List Nat
  | .frame _ b => b
  | .status b => b

/-- The written frames of kind `p`. -/
def framesOf (p : Phase) (outs : List Out) : List (List Nat) :=
  outs.filterMap (fun o => match o with
    | .frame q b => if q = p then some b else none
    | .status _ => none)

/-- Run a machine over the results of its successive reads; the writes are collected. -/
def feed {σ : Type} (step : σ → List Nat → σ × List Out) : σ → List (List Nat) → σ × List Out
  | s, [] => (s, [])
  | s, d :: ds =>
    let (s1, o1) := step s d
    let (s2, o2) := feed step s1 ds
    (s2, o1 ++ o2)

/-! ## Client: three-way handshake (client.c, lines 129-299) -/

/-- The `read` in which the client is blocked. -/
inductive ClientPc where
  /-- line 152: first read of the SYN status -/
  | synStatus
  /-- line 169: read of the SYN status in the retry loop, `trials` and `syn_status` live -/
  | synStatusRetry (trials : Nat) (syn_status : Int)
  /-- line 195: first read of the SYN-ACK frame -/
  | synAck
  /-- line 219: read of a retransmitted SYN-ACK frame -/
  | synAckRetry
  /-- line 265: first read of the ACK status -/
  | ackStatus
  /-- line 281: read of the ACK status in the retry loop -/
  | ackStatusRetry (trials : Nat) (ack_status : Int)
  /-- line 301: the handshake is finished, data exchange follows -/
  | dataExchange
  /-- `close(sockfd); exit(0);` -/
  | closed
deriving DecidableEq, Repr

/-- The client during the handshake. -/
structure Client where
  pc : ClientPc
  chandshake : capshdr
  hmsg : List Nat
deriving DecidableEq, Repr

/-- `memset(hbuffer, 0, SHAKESIZE); serialize_header(hbuffer, h); write(sockfd, hbuffer, SHAKESIZE);` -/
def shakeFrame (h : capshdr) : List Nat :=
  serialize_header (List.replicate SHAKESIZE 0) h

/-- Lines 139-147: the SYN header and the first `write`. `hbuffer` and `hmsg` are the
blocks as `malloc` returned them, `cs` and `ln` the values of the two fields of
`chandshake` that the code does not set. -/
def clientStart (hbuffer hmsg : List Nat) (cs ln : Nat) : Client × List Out :=
  let chandshake : capshdr :=
    { version := 1, ack := 0, syn := 1, seq := CLIENT_ISN, bufsize := BUFSIZE,
      checksum := cs, len := ln }
  ({ pc := .synStatus, chandshake := chandshake, hmsg := hmsg },
   [.frame .syn (serialize_header hbuffer chandshake)])

/-- Lines 254-261: the ACK header and its first `write`, after an accepted SYN-ACK. -/
def clientAckPhase (c : Client) : Client × List Out :=
  let tack := c.chandshake.ack
  let chandshake := { c.chandshake with
    ack := (c.chandshake.seq + 1) % 65536, syn := 0, seq := tack }
  ({ c with pc := .ackStatus, chandshake := chandshake },
   [.frame .ack (shakeFrame chandshake)])

/-- Lines 196-201 and 227-231: the three fields taken from the SYN-ACK frame and the
test `ack == CLIENT_ISN + 1 && syn == 1`. -/
def clientCheckSynAck (c : Client) (hbuffer : List Nat) : Client × Bool :=
  let chandshake := { c.chandshake with
    ack := unpack_uint16_t hbuffer 1
    syn := unpack_uint16_t hbuffer 3
    seq := unpack_uint16_t hbuffer 5 }
  ({ c with chandshake := chandshake },
   decide (chandshake.ack = CLIENT_ISN + 1) && decide (chandshake.syn = 1))

/-- One step of the client handshake: `data` is what the pending `read` returns. -/
def clientStep (c : Client) (data : List Nat) : Client × List Out :=
  match c.pc with
  | .synStatus =>
    -- unsigned int syn_status = 1; memset(hmsg, 0, SHAKESIZE); read; sscanf
    let hmsg := recvInto (memset0 c.hmsg SHAKESIZE) SHAKESIZE data
    let syn_status := scanStatus hmsg 1
    if syn_status = 1 then ({ c with pc := .synAck, hmsg := hmsg }, [])
    else
      -- for (trials = 1; trials <= MAX_RETRANSM; ...): first retransmission
      ({ c with pc := .synStatusRetry 1 syn_status, hmsg := hmsg },
       [.frame .syn (shakeFrame c.chandshake)])
  | .synStatusRetry trials syn_status =>
    -- line 168 clears hbuffer, not hmsg
    let hmsg := recvInto c.hmsg SHAKESIZE data
    let syn_status := scanStatus hmsg syn_status
    if syn_status = 1 then ({ c with pc := .synAck, hmsg := hmsg }, [])
    else if trials + 1 ≤ MAX_RETRANSM then
      ({ c with pc := .synStatusRetry (trials + 1) syn_status, hmsg := hmsg },
       [.frame .syn (shakeFrame c.chandshake)])
    else ({ c with pc := .closed, hmsg := hmsg }, [])
  | .synAck =>
    let hbuffer := recvInto (List.replicate SHAKESIZE 0) SHAKESIZE data
    let (c1, ok) := clientCheckSynAck c hbuffer
    if ok then
      let (c2, o) := clientAckPhase { c1 with hmsg := statusSlot true }
      (c2, .status (statusSlot true) :: o)
    else ({ c1 with pc := .synAckRetry, hmsg := statusSlot false }, [.status (statusSlot false)])
  | .synAckRetry =>
    let hbuffer := recvInto (List.replicate SHAKESIZE 0) SHAKESIZE data
    -- if (read_bytes == 0) { close(sockfd); exit(0); }
    if (data.take SHAKESIZE).length = 0 then ({ c with pc := .closed }, [])
    else
      let (c1, ok) := clientCheckSynAck c hbuffer
      if ok then
        let (c2, o) := clientAckPhase { c1 with hmsg := statusSlot true }
        (c2, .status (statusSlot true) :: o)
      else ({ c1 with hmsg := statusSlot false }, [.status (statusSlot false)])
  | .ackStatus =>
    let hmsg := recvInto (memset0 c.hmsg SHAKESIZE) SHAKESIZE data
    let ack_status := scanStatus hmsg 1
    if ack_status = 1 then ({ c with pc := .dataExchange, hmsg := hmsg }, [])
    else
      ({ c with pc := .ackStatusRetry 1 ack_status, hmsg := hmsg },
       [.frame .ack (shakeFrame c.chandshake)])
  | .ackStatusRetry trials ack_status =>
    let hmsg := recvInto (memset0 c.hmsg SHAKESIZE) SHAKESIZE data
    let ack_status := scanStatus hmsg ack_status
    if ack_status = 1 then ({ c with pc := .dataExchange, hmsg := hmsg }, [])
    else if trials + 1 ≤ MAX_RETRANSM then
      ({ c with pc := .ackStatusRetry (trials + 1) ack_status, hmsg := hmsg },
       [.frame .ack (shakeFrame c.chandshake)])
    else ({ c with pc := .closed, hmsg := hmsg }, [])
  | .dataExchange => (c, [])
  | .closed => (c, [])

/-! ## Server: three-way handshake (server.c, lines 172-330) -/

/-- The descriptor that the server closes before `exit(0)`. -/
inductive Sock where
  | master | conn
deriving DecidableEq, Repr

/-- The `read` in which the server is blocked during a handshake. -/
inductive ServerPc where
  /-- line 173: first read of the SYN frame -/
  | syn
  /-- line 194: read of a retransmitted SYN frame -/
  | synRetry
  /-- line 238: first read of the SYN-ACK status -/
  | synAckStatus
  /-- line 255: read of the SYN-ACK status in the retry loop -/
  | synAckStatusRetry (trials : Nat) (synack_status : Int)
  /-- line 281: first read of the ACK frame -/
  | ack
  /-- line 304: read of a retransmitted ACK frame -/
  | ackRetry
  /-- line 344: the handshake is finished, the connection is put into a slot -/
  | handshakeDone
  /-- `close(fd); exit(0);`: the server process ends -/
  | exited (fd : Sock)
deriving DecidableEq, Repr

/-- The server during the handshake with one accepted connection. -/
structure ServerConn where
  pc : ServerPc
  shandshake : capshdr
  hbuffer : List Nat
deriving DecidableEq, Repr

/-- The server right after `accept`: blocked in the first read; `shandshake` and
`hbuffer` hold what the previous handshake (or `malloc`) left in them. -/
def serverStart (shandshake : capshdr) (hbuffer : List Nat) : ServerConn :=
  { pc := .syn, shandshake := shandshake, hbuffer := hbuffer }

/-- Lines 227-233: the SYN-ACK header and its first `write`. -/
def serverSynAckPhase (s : ServerConn) : ServerConn × List Out :=
  let shandshake := { s.shandshake with
    ack := (s.shandshake.seq + 1) % 65536, syn := 1, seq := SERVER_ISN }
  ({ pc := .synAckStatus, shandshake := shandshake, hbuffer := shakeFrame shandshake },
   [.frame .synAck (shakeFrame shandshake)])

/-- One step of the server handshake: `data` is what the pending `read` returns. -/
def serverStep (t : Target) (s : ServerConn) (data : List Nat) : ServerConn × List Out :=
  match s.pc with
  | .syn =>
    -- line 173: no memset before this read
    let hbuffer := recvInto s.hbuffer SHAKESIZE data
    let shandshake := deserialize_header t hbuffer
    if shandshake.syn = 1 then
      let (s1, o) := serverSynAckPhase { s with shandshake := shandshake, hbuffer := hbuffer }
      (s1, .status (statusSlot true) :: o)
    else
      ({ pc := .synRetry, shandshake := shandshake, hbuffer := hbuffer },
       [.status (statusSlot false)])
  | .synRetry =>
    let hbuffer := recvInto (memset0 s.hbuffer SHAKESIZE) SHAKESIZE data
    -- if (read_bytes == 0) { close(master_socket); exit(0); }
    if (data.take SHAKESIZE).length = 0 then ({ s with pc := .exited .master, hbuffer := hbuffer }, [])
    else
      let shandshake := deserialize_header t hbuffer
      if shandshake.syn = 1 then
        let (s1, o) := serverSynAckPhase { s with shandshake := shandshake, hbuffer := hbuffer }
        (s1, .status (statusSlot true) :: o)
      else
        ({ s with shandshake := shandshake, hbuffer := hbuffer }, [.status (statusSlot false)])
  | .synAckStatus =>
    let hmsg := recvInto (List.replicate SHAKESIZE 0) SHAKESIZE data
    let synack_status := scanStatus hmsg 1
    if synack_status = 1 then ({ s with pc := .ack }, [])
    else
      ({ s with pc := .synAckStatusRetry 1 synack_status, hbuffer := shakeFrame s.shandshake },
       [.frame .synAck (shakeFrame s.shandshake)])
  | .synAckStatusRetry trials synack_status =>
    let hmsg := recvInto (List.replicate SHAKESIZE 0) SHAKESIZE data
    let synack_status := scanStatus hmsg synack_status
    if synack_status = 1 then ({ s with pc := .ack }, [])
    else if trials + 1 ≤ MAX_RETRANSM then
      ({ s with pc := .synAckStatusRetry (trials + 1) synack_status },
       [.frame .synAck (shakeFrame s.shandshake)])
    else ({ s with pc := .exited .master }, [])
  | .ack =>
    let hbuffer := recvInto (memset0 s.hbuffer SHAKESIZE) SHAKESIZE data
    let shandshake := deserialize_header t hbuffer
    -- shandshake.ack -= 1;
    let shandshake := { shandshake with ack := (shandshake.ack + 65535) % 65536 }
    if shandshake.ack = SERVER_ISN + 1 then
      ({ pc := .handshakeDone, shandshake := shandshake, hbuffer := hbuffer },
       [.status (statusSlot true)])
    else
      ({ pc := .ackRetry, shandshake := shandshake, hbuffer := hbuffer },
       [.status (statusSlot false)])
  | .ackRetry =>
    let hbuffer := recvInto (memset0 s.hbuffer SHAKESIZE) SHAKESIZE data
    -- if (read_bytes == 0) { close(master_socket); exit(0); }
    if (data.take SHAKESIZE).length = 0 then ({ s with pc := .exited .master, hbuffer := hbuffer }, [])
    else
      let shandshake := deserialize_header t hbuffer
      if shandshake.ack = SERVER_ISN + 1 then
        ({ pc := .handshakeDone, shandshake := shandshake, hbuffer := hbuffer },
         [.status (statusSlot true)])
      else
        ({ s with shandshake := shandshake, hbuffer := hbuffer }, [.status (statusSlot false)])
  | .handshakeDone => (s, [])
  | .exited _ => (s, [])

/-! ## Server: one delivery cycle (server.c, lines 366-528) -/

/-- The `read` in which the server is blocked during a delivery cycle. -/
inductive CyclePc where
  /-- line 412: first read of the receipt status (Round 1) -/
  | receiptStatus
  /-- line 437: read of the receipt status in the retry loop -/
  | receiptRetry (trials : Nat) (payload_status : Int)
  /-- line 479: first read of the integrity status (Round 2) -/
  | integrityStatus
  /-- line 496: read of the integrity status in the retry loop -/
  | integrityRetry (trials : Nat) (payload_integrity : Int)
  /-- line 528: the cycle is over, the loop over the slots goes on -/
  | done
  /-- `close(fd); exit(0);`: the server process ends -/
  | exited (fd : Sock)
deriving DecidableEq, Repr

/-- The locals of one delivery cycle. -/
structure Cycle where
  pc : CyclePc
  bufsize : Nat
  buffer : List Nat
  payload : List Nat
  header : capshdr
deriving DecidableEq, Repr

/-- Lines 366-402 for a read that returns the non-empty `msg`: the echo frame and its
first `write`. `block` is the `malloc(bufsize)` block as allocated, `after` the memory
that follows it. Undefined (`none`) when `strcpy` finds no zero, when it writes more than
the `DATASIZE` cells of `payload`, or when header and payload do not fit into `buffer`. -/
def cycleStart (t : Target) (shandshake : capshdr) (block after msg : List Nat) :
    Option (Cycle × List Out) := do
  let bufsize := shandshake.bufsize
  let buffer := recvInto block bufsize msg
  -- char *payload = malloc(DATASIZE); strcpy(payload, buffer);
  let k ← strlen (buffer ++ after)
  if DATASIZE < k + 1 then none
  else
    let payload := (buffer ++ after).take (k + 1)
    let n ← strlen payload
    let header : capshdr :=
      { version := 1, ack := 0, syn := 0, seq := 0,
        checksum := ichecksum t payload (n : Int),
        len := n % 65536,
        bufsize := shandshake.bufsize }
    -- serialize_header(buffer, header); memcpy(&buffer[13], payload, header.len);
    if buffer.length < 13 + header.len then none
    else
      let buffer := memcpy (serialize_header buffer header) 13 payload header.len
      some ({ pc := .receiptStatus, bufsize := bufsize, buffer := buffer,
              payload := payload, header := header },
            [.frame .data (buffer.take bufsize)])

/-- Lines 422-425 and 490-493: the frame of a retransmission,
`memset(buffer, 0, bufsize); serialize_header(buffer, header);
memcpy(&buffer[13], payload, header.len);`. -/
def cycleFrame (c : Cycle) : List Nat :=
  memcpy (serialize_header (memset0 c.buffer c.bufsize) c.header) 13 c.payload c.header.len

/-- One step of a delivery cycle: `data` is what the pending `read` of `pmsg` returns. -/
def cycleStep (c : Cycle) (data : List Nat) : Cycle × List Out :=
  let pmsg := recvInto (List.replicate SHAKESIZE 0) SHAKESIZE data
  match c.pc with
  | .receiptStatus =>
    let payload_status := scanStatus pmsg 1
    if payload_status = 1 then ({ c with pc := .integrityStatus }, [])
    else
      ({ c with pc := .receiptRetry 1 payload_status, buffer := cycleFrame c },
       [.frame .data ((cycleFrame c).take c.bufsize)])
  | .receiptRetry trials payload_status =>
    let payload_status := scanStatus pmsg payload_status
    if payload_status = 1 then ({ c with pc := .integrityStatus }, [])
    else if trials + 1 ≤ MAX_RETRANSM then
      ({ c with pc := .receiptRetry (trials + 1) payload_status, buffer := cycleFrame c },
       [.frame .data ((cycleFrame c).take c.bufsize)])
    else ({ c with pc := .exited .conn }, [])
  | .integrityStatus =>
    let payload_integrity := scanStatus pmsg 1
    if payload_integrity = 1 then ({ c with pc := .done }, [])
    else
      ({ c with pc := .integrityRetry 1 payload_integrity, buffer := cycleFrame c },
       [.frame .data ((cycleFrame c).take c.bufsize)])
  | .integrityRetry trials payload_integrity =>
    let payload_integrity := scanStatus pmsg payload_integrity
    if payload_integrity = 1 then ({ c with pc := .done }, [])
    else if trials + 1 ≤ MAX_RETRANSM then
      ({ c with pc := .integrityRetry (trials + 1) payload_integrity, buffer := cycleFrame c },
       [.frame .data ((cycleFrame c).take c.bufsize)])
    else ({ c with pc := .exited .conn }, [])
  | .done => (c, [])
  | .exited _ => (c, [])

/-! ## Client: reception of a data frame (client.c, lines 332-428) -/

/-- Lines 332-349: `memset(buffer, 0, BUFSIZE); read(sockfd, buffer, BUFSIZE);`, the
header fields, `payload = malloc(header.len); memcpy(payload, &buffer[13], header.len);`.
`buffer0` is the client's buffer before the call, `after` the memory that follows the
`payload` block. Returns the header and the memory at `payload`: the block of
`header.len` cells, then `after`. -/
def clientUnpack (t : Target) (buffer0 data after : List Nat) : Option (capshdr × List Nat) :=
  let buffer := recvInto (memset0 buffer0 BUFSIZE) BUFSIZE data
  let header := deserialize_header t buffer
  if buffer.length < 13 + header.len then none
  else some (header, (buffer.drop 13).take header.len ++ after)

/-- Line 357: `unsigned int payload_status = strlen(payload) > 0;`. -/
def payload_status (payload : List Nat) : Option Bool :=
  (strlen payload).map (fun n => decide (0 < n))

/-- Line 422: `payload_integrity =
(header.checksum == ichecksum((uint16_t*)payload, strlen(payload)));`. -/
def payload_integrity (t : Target) (header : capshdr) (payload : List Nat) : Option Bool :=
  (strlen payload).map (fun n => decide (header.checksum = ichecksum t payload (n : Int)))

/-- The status slots the client writes for a frame up to its first integrity verdict:
the receipt status and, when that is 1, the integrity status of the same payload. -/
def clientFirstRound (t : Target) (buffer0 data after : List Nat) : Option (List Out) := do
  let (header, payload) ← clientUnpack t buffer0 data after
  let received ← payload_status payload
  if received then
    let integral ← payload_integrity t header payload
    some [.status (statusSlot true), .status (statusSlot integral)]
  else some [.status (statusSlot false)]

/-! ## Client and server connected by the transport -/

/-- Both processes and the two directions of the stream: the writes not yet read. -/
structure Sys where
  client : Client
  server : ServerConn
  toServer : List (List Nat)
  toClient : List (List Nat)
  clientOut : List Out
  serverOut : List Out
deriving DecidableEq, Repr

/-- The system after `connect`/`accept` and the client's first `write`. -/
def sysStart (chbuffer chmsg : List Nat) (cs ln : Nat) (shandshake : capshdr)
    (shbuffer : List Nat) : Sys :=
  let (c, o) := clientStart chbuffer chmsg cs ln
  { client := c, server := serverStart shandshake shbuffer,
    toServer := o.map Out.bytes, toClient := [], clientOut := o, serverOut := [] }

/-- The server takes the oldest unread write of the client, if there is one. -/
def serverTurn (t : Target) (s : Sys) : Option Sys :=
  match s.toServer with
  | [] => none
  | d :: rest =>
    let (sv, o) := serverStep t s.server d
    some { s with server := sv, toServer := rest, toClient := s.toClient ++ o.map Out.bytes,
                  serverOut := s.serverOut ++ o }

/-- The client takes the oldest unread write of the server, if there is one. -/
def clientTurn (s : Sys) : Option Sys :=
  match s.toClient with
  | [] => none
  | d :: rest =>
    let (cl, o) := clientStep s.client d
    some { s with client := cl, toClient := rest, toServer := s.toServer ++ o.map Out.bytes,
                  clientOut := s.clientOut ++ o }

/-- Run the system along a schedule: `true` lets the server take its turn, `false` the
client; a process whose `read` has nothing to return stays blocked. -/
def runSched (t : Target) : List Bool → Sys → Sys
  | [], s => s
  | true :: rest, s => runSched t rest ((serverTurn t s).getD s)
  | false :: rest, s => runSched t rest ((clientTurn s).getD s)

/-- Nothing is left to read: both directions of the stream are drained. -/
def Sys.quiet (s : Sys) : Prop := s.toServer = [] ∧ s.toClient = []

instance (s : Sys) : Decidable s.quiet := by
  unfold Sys.quiet; infer_instance

/-- A status slot that reports a failure: `SHAKESIZE` bytes that a sender reads as a
number other than 1. -/
def failureSlot (s : List Nat) : Prop := s.length = SHAKESIZE ∧ failureSignal s = true

/-- A status slot that reports success: `SHAKESIZE` bytes that a sender reads as 1. -/
def successSlot (s : List Nat) : Prop := s.length = SHAKESIZE ∧ successSignal s = true

/-! ## Server: header and first frame of a delivery, writes past a block included
(server.c, lines 366-402)

The code checks neither the length of the string it copies nor where it writes. A copy
that is longer than its block runs on into the memory behind the block; the parameter
`after` is the memory behind `buffer`. `cycleStart` above is the case in which every
write stays inside its block. -/

/-- Lines 366-402 for a read that returns the non-empty `msg`: the header, the cells at
`payload`, and the `bufsize` bytes that `write(acceptdf, buffer, bufsize)` sends.
`serialize_header` and `memcpy` write into the memory at `buffer`; what they write from
cell `bufsize` on lies behind the block and is not sent. -/
def cycleWrite (t : Target) (shandshake : capshdr) (block after msg : List Nat) :
    Option (capshdr × List Nat × List Nat) := do
  let bufsize := shandshake.bufsize
  let mem := recvInto block bufsize msg ++ after
  -- char *payload = malloc(DATASIZE); strcpy(payload, buffer);
  let k ← strlen mem
  let payload := mem.take (k + 1)
  let n ← strlen payload
  let header : capshdr :=
    { version := 1, ack := 0, syn := 0, seq := 0,
      checksum := ichecksum t payload (n : Int),
      len := n % 65536,
      bufsize := shandshake.bufsize }
  -- serialize_header(buffer, header); memcpy(&buffer[13], payload, header.len);
  let mem := memcpy (serialize_header mem header) 13 payload header.len
  some (header, payload, mem.take bufsize)

/-! ## Server: the multiplexer loop (server.c, lines 100-532) -/

/-- `int max_clients = 30;`. -/
def max_clients : Nat := 30

/-- The variables of `main` that live across the iterations of `while (true)`: the slot
table `client_socket` (0 marks a free slot) and the one `shandshake` and `hbuffer` that all
connections share. -/
structure Mux where
  client_socket : List Nat
  shandshake : capshdr
  hbuffer : List Nat
deriving DecidableEq, Repr

/-- Lines 100-122: every slot free; `shandshake` and `hbuffer` as allocated. -/
def muxStart (shandshake : capshdr) (hbuffer : List Nat) : Mux :=
  { client_socket := List.replicate max_clients 0, shandshake := shandshake,
    hbuffer := hbuffer }

/-- What the environment supplies while one ready connection is served: the bytes that
`read(acceptdf, buffer, bufsize)` returns, the `malloc(bufsize)` block as allocated and the
memory behind it, and the status slots that the connection delivers afterwards. -/
structure Service where
  data : List Nat
  block : List Nat
  after : List Nat
  statuses : List (List Nat)
deriving DecidableEq, Repr

/-- How a piece of the server loop ends. -/
inductive Served where
  /-- control goes on in the loop, with these variables -/
  | next (m : Mux) (outs : List Out)
  /-- `close(fd); exit(0);`: the server process has ended -/
  | exited (fd : Sock) (outs : List Out)
  /-- blocked for ever in a `read` for which nothing arrives -/
  | stuck (outs : List Out)
  /-- undefined behaviour (a write beyond a block) -/
  | undefined
deriving DecidableEq, Repr

/-- The variables with which the loop goes on, if it does. -/
def Served.mux? : Served → Option Mux
  | .next m _ => some m
  | _ => none

/-- The descriptor closed before `exit(0)`, if the process has ended. -/
def Served.exit? : Served → Option Sock
  | .exited fd _ => some fd
  | _ => none

/-- What was written. -/
def Served.outs : Served → List Out
  | .next _ o => o
  | .exited _ o => o
  | .stuck o => o
  | .undefined => []

/-- The same result after `o` was written first. -/
def Served.after (o : List Out) : Served → Served
  | .next m o2 => .next m (o ++ o2)
  | .exited fd o2 => .exited fd (o ++ o2)
  | .stuck o2 => .stuck (o ++ o2)
  | .undefined => .undefined

/-- Lines 362-529: the body of the loop over the slots for slot `i`, whose descriptor is
ready. A read of zero bytes frees the slot; any other read starts a delivery cycle, which
runs both rounds to the end before the loop goes on. -/
def serveSlot (t : Target) (m : Mux) (i : Nat) (sv : Service) : Served :=
  -- int valread = read(acceptdf, buffer, shandshake.bufsize);
  if (sv.data.take m.shandshake.bufsize).length = 0 then
    -- close(acceptdf); client_socket[i] = 0;
    .next { m with client_socket := m.client_socket.set i 0 } []
  else
    match cycleStart t m.shandshake sv.block sv.after sv.data with
    | none => .undefined
    | some (c, o0) =>
      match (feed cycleStep c sv.statuses).1.pc with
      | .done => .next m (o0 ++ (feed cycleStep c sv.statuses).2)
      | .exited fd => .exited fd (o0 ++ (feed cycleStep c sv.statuses).2)
      | _ => .stuck (o0 ++ (feed cycleStep c sv.statuses).2)

/-- Lines 361-530: `for (int i = 0; i < max_clients; i++)` from index `i` on, `n` slots to
go. `ready i` is `none` when the descriptor of slot `i` is not in the ready set (a free
slot never is), and otherwise what the environment supplies for it. -/
def servePass (t : Target) (ready : Nat → Option Service) : Nat → Nat → Mux → Served
  | 0, _, m => .next m []
  | n + 1, i, m =>
    match ready i with
    | none => servePass t ready n (i + 1) m
    | some sv =>
      match serveSlot t m i sv with
      | .next m2 o => (servePass t ready n (i + 1) m2).after o
      | r => r

/-- Lines 351-357: the new descriptor goes into the first free slot, if there is one. -/
def insertSlot : List Nat → Nat → List Nat
  | [], _ => []
  | s :: rest, acceptdf => if s = 0 then acceptdf :: rest else s :: insertSlot rest acceptdf

/-- Lines 155-358: an incoming connection. The handshake runs on the shared `shandshake`
and `hbuffer`, fed by what the new connection delivers (`reads`); when it is finished the
descriptor is put into the slot table. -/
def acceptConn (t : Target) (m : Mux) (acceptdf : Nat) (reads : List (List Nat)) : Served :=
  match (feed (serverStep t) (serverStart m.shandshake m.hbuffer) reads).1.pc with
  | .handshakeDone =>
    .next { client_socket := insertSlot m.client_socket acceptdf,
            shandshake := (feed (serverStep t) (serverStart m.shandshake m.hbuffer) reads).1.shandshake,
            hbuffer := (feed (serverStep t) (serverStart m.shandshake m.hbuffer) reads).1.hbuffer }
      (feed (serverStep t) (serverStart m.shandshake m.hbuffer) reads).2
  | .exited fd => .exited fd (feed (serverStep t) (serverStart m.shandshake m.hbuffer) reads).2
  | _ => .stuck (feed (serverStep t) (serverStart m.shandshake m.hbuffer) reads).2

/-- What `select` reports in one iteration of `while (true)`. -/
inductive Event where
  /-- the listening socket is ready: `accept` returns `acceptdf` -/
  | incoming (acceptdf : Nat) (reads : List (List Nat))
  /-- some connections are ready -/
  | activity (ready : Nat → Option Service)

/-- Lines 124-532: one iteration of `while (true)`. -/
def muxIter (t : Target) (m : Mux) : Event → Served
  | .incoming acceptdf reads => acceptConn t m acceptdf reads
  | .activity ready => servePass t ready max_clients 0 m

/-- The server loop over a sequence of events; it goes on only while the process lives. -/
def muxRun (t : Target) : Mux → List Event → Served
  | m, [] => .next m []
  | m, e :: es =>
    match muxIter t m e with
    | .next m2 o => (muxRun t m2 es).after o
    | r => r

/-! ## Named inputs -/

/-- The header of the echo frame for the payload `m` in a `bufsize`-cell buffer. -/
def echoHeader (t : Target) (bufsize : Nat) (m : List Nat) : capshdr :=
  ⟨1, 0, 0, 0, bufsize, ichecksum t m (m.length : Int), m.length⟩

/-- The bytes of "hello". -/
def hello : List Nat := [104, 101, 108, 108, 111]

/-- A message of 24 letters `a`. -/
def letters24 : List Nat := List.replicate 24 97

/-- The value of `shandshake` after a handshake with this client (the two fields the
client never sets taken as 0). -/
def shEstablished : capshdr := ⟨1, 2002, 0, 1002, 4096, 0, 0⟩

/-- The echo frame for "hello" in a zeroed block of 4096 cells. -/
def helloFrame : List Nat :=
  headerBytes ⟨1, 0, 0, 0, 4096, 11708, 5⟩ ++ hello ++ List.replicate 4078 0

/-- The delivery cycle for "hello" after its first `write`. -/
def helloCycle : Cycle :=
  ⟨.receiptStatus, 4096, helloFrame, hello ++ [0], ⟨1, 0, 0, 0, 4096, 11708, 5⟩⟩

/-- A ready set that holds the descriptor of slot `i` only. -/
def readyAt (i : Nat) (sv : Service) : Nat → Option Service :=
  fun j => if j = i then some sv else none

/-- The server loop with two established connections (descriptors 4 and 5), after a
handshake with this client. -/
def muxTwo : Mux :=
  { client_socket := 4 :: 5 :: List.replicate 28 0, shandshake := shEstablished,
    hbuffer := shakeFrame shEstablished }

/-- A connection delivers "hello" into a zeroed block of 4096 cells, and then the
status slots `statuses`. -/
def helloService (statuses : List (List Nat)) : Service :=
  { data := hello, block := List.replicate 4096 0, after := [], statuses := statuses }

/-- The SYN header of a client whose buffer size is `bufsize` (client.c has 4096). -/
def synHeader (bufsize : Nat) : capshdr := ⟨1, 0, 1, CLIENT_ISN, bufsize, 0, 0⟩

/-- The ACK header of a client whose buffer size is `bufsize`. -/
def ackHeader (bufsize : Nat) : capshdr := ⟨1, SERVER_ISN + 1, 0, CLIENT_ISN + 1, bufsize, 0, 0⟩

/-- What the connection of such a client delivers during a handshake: the SYN frame, the
status of the SYN-ACK, the ACK frame and, after the server's first answer, the ACK frame
again. -/
def handshakeReads (bufsize : Nat) : List (List Nat) :=
  [shakeFrame (synHeader bufsize), statusSlot true, shakeFrame (ackHeader bufsize),
   shakeFrame (ackHeader bufsize)]

/-! ## The run of the handshake -/

/-- The states that the handshake of this client with this server runs through, in
order; from the eighth on nothing changes. -/
def handshakeStage (chbuffer chmsg shbuffer : List Nat) (cs ln : Nat) (sh0 : capshdr) :
    Nat → Sys
  | 0 =>
    ⟨⟨.synStatus, ⟨1, 0, 1, 1001, 4096, cs, ln⟩, chmsg⟩, ⟨.syn, sh0, shbuffer⟩,
     [serialize_header chbuffer ⟨1, 0, 1, 1001, 4096, cs, ln⟩], [],
     [.frame .syn (serialize_header chbuffer ⟨1, 0, 1, 1001, 4096, cs, ln⟩)], []⟩
  | 1 =>
    ⟨⟨.synStatus, ⟨1, 0, 1, 1001, 4096, cs, ln⟩, chmsg⟩,
     ⟨.synAckStatus, ⟨1, 1002, 1, 2001, 4096, cs, ln⟩,
       shakeFrame ⟨1, 1002, 1, 2001, 4096, cs, ln⟩⟩,
     [], [statusSlot true, shakeFrame ⟨1, 1002, 1, 2001, 4096, cs, ln⟩],
     [.frame .syn (serialize_header chbuffer ⟨1, 0, 1, 1001, 4096, cs, ln⟩)],
     [.status (statusSlot true), .frame .synAck (shakeFrame ⟨1, 1002, 1, 2001, 4096, cs, ln⟩)]⟩
  | 2 =>
    ⟨⟨.synAck, ⟨1, 0, 1, 1001, 4096, cs, ln⟩, statusSlot true⟩,
     ⟨.synAckStatus, ⟨1, 1002, 1, 2001, 4096, cs, ln⟩,
       shakeFrame ⟨1, 1002, 1, 2001, 4096, cs, ln⟩⟩,
     [], [shakeFrame ⟨1, 1002, 1, 2001, 4096, cs, ln⟩],
     [.frame .syn (serialize_header chbuffer ⟨1, 0, 1, 1001, 4096, cs, ln⟩)],
     [.status (statusSlot true), .frame .synAck (shakeFrame ⟨1, 1002, 1, 2001, 4096, cs, ln⟩)]⟩
  | 3 =>
    ⟨⟨.ackStatus, ⟨1, 2002, 0, 1002, 4096, cs, ln⟩, statusSlot true⟩,
     ⟨.synAckStatus, ⟨1, 1002, 1, 2001, 4096, cs, ln⟩,
       shakeFrame ⟨1, 1002, 1, 2001, 4096, cs, ln⟩⟩,
     [statusSlot true, shakeFrame ⟨1, 2002, 0, 1002, 4096, cs, ln⟩], [],
     [.frame .syn (serialize_header chbuffer ⟨1, 0, 1, 1001, 4096, cs, ln⟩),
      .status (statusSlot true), .frame .ack (shakeFrame ⟨1, 2002, 0, 1002, 4096, cs, ln⟩)],
     [.status (statusSlot true), .frame .synAck (shakeFrame ⟨1, 1002, 1, 2001, 4096, cs, ln⟩)]⟩
  | 4 =>
    ⟨⟨.ackStatus, ⟨1, 2002, 0, 1002, 4096, cs, ln⟩, statusSlot true⟩,
     ⟨.ack, ⟨1, 1002, 1, 2001, 4096, cs, ln⟩, shakeFrame ⟨1, 1002, 1, 2001, 4096, cs, ln⟩⟩,
     [shakeFrame ⟨1, 2002, 0, 1002, 4096, cs, ln⟩], [],
     [.frame .syn (serialize_header chbuffer ⟨1, 0, 1, 1001, 4096, cs, ln⟩),
      .status (statusSlot true), .frame .ack (shakeFrame ⟨1, 2002, 0, 1002, 4096, cs, ln⟩)],
     [.status (statusSlot true), .frame .synAck (shakeFrame ⟨1, 1002, 1, 2001, 4096, cs, ln⟩)]⟩
  | 5 =>
    ⟨⟨.ackStatus, ⟨1, 2002, 0, 1002, 4096, cs, ln⟩, statusSlot true⟩,
     ⟨.ackRetry, ⟨1, 2001, 0, 1002, 4096, cs, ln⟩, shakeFrame ⟨1, 2002, 0, 1002, 4096, cs, ln⟩⟩,
     [], [statusSlot false],
     [.frame .syn (serialize_header chbuffer ⟨1, 0, 1, 1001, 4096, cs, ln⟩),
      .status (statusSlot true), .frame .ack (shakeFrame ⟨1, 2002, 0, 1002, 4096, cs, ln⟩)],
     [.status (statusSlot true), .frame .synAck (shakeFrame ⟨1, 1002, 1, 2001, 4096, cs, ln⟩),
      .status (statusSlot false)]⟩
  | 6 =>
    ⟨⟨.ackStatusRetry 1 0, ⟨1, 2002, 0, 1002, 4096, cs, ln⟩, statusSlot false⟩,
     ⟨.ackRetry, ⟨1, 2001, 0, 1002, 4096, cs, ln⟩, shakeFrame ⟨1, 2002, 0, 1002, 4096, cs, ln⟩⟩,
     [shakeFrame ⟨1, 2002, 0, 1002, 4096, cs, ln⟩], [],
     [.frame .syn (serialize_header chbuffer ⟨1, 0, 1, 1001, 4096, cs, ln⟩),
      .status (statusSlot true), .frame .ack (shakeFrame ⟨1, 2002, 0, 1002, 4096, cs, ln⟩),
      .frame .ack (shakeFrame ⟨1, 2002, 0, 1002, 4096, cs, ln⟩)],
     [.status (statusSlot true), .frame .synAck (shakeFrame ⟨1, 1002, 1, 2001, 4096, cs, ln⟩),
      .status (statusSlot false)]⟩
  | 7 =>
    ⟨⟨.ackStatusRetry 1 0, ⟨1, 2002, 0, 1002, 4096, cs, ln⟩, statusSlot false⟩,
     ⟨.handshakeDone, ⟨1, 2002, 0, 1002, 4096, cs, ln⟩,
       shakeFrame ⟨1, 2002, 0, 1002, 4096, cs, ln⟩⟩,
     [], [statusSlot true],
     [.frame .syn (serialize_header chbuffer ⟨1, 0, 1, 1001, 4096, cs, ln⟩),
      .status (statusSlot true), .frame .ack (shakeFrame ⟨1, 2002, 0, 1002, 4096, cs, ln⟩),
      .frame .ack (shakeFrame ⟨1, 2002, 0, 1002, 4096, cs, ln⟩)],
     [.status (statusSlot true), .frame .synAck (shakeFrame ⟨1, 1002, 1, 2001, 4096, cs, ln⟩),
      .status (statusSlot false), .status (statusSlot true)]⟩
  | _ =>
    ⟨⟨.dataExchange, ⟨1, 2002, 0, 1002, 4096, cs, ln⟩, statusSlot true⟩,
     ⟨.handshakeDone, ⟨1, 2002, 0, 1002, 4096, cs, ln⟩,
       shakeFrame ⟨1, 2002, 0, 1002, 4096, cs, ln⟩⟩,
     [], [],
     [.frame .syn (serialize_header chbuffer ⟨1, 0, 1, 1001, 4096, cs, ln⟩),
      .status (statusSlot true), .frame .ack (shakeFrame ⟨1, 2002, 0, 1002, 4096, cs, ln⟩),
      .frame .ack (shakeFrame ⟨1, 2002, 0, 1002, 4096, cs, ln⟩)],
     [.status (statusSlot true), .frame .synAck (shakeFrame ⟨1, 1002, 1, 2001, 4096, cs, ln⟩),
      .status (statusSlot false), .status (statusSlot true)]⟩

/-- The side that moves at each stage of the handshake: `true` for the server. -/
def handshakeTurns : List Bool := [true, false, false, true, true, false, true, false]

/-! # Theorems -/

/-! ## Header codec -/

theorem serialize_header_eq (buffer : List Nat) (h : capshdr) (hlen : 13 ≤ buffer.length) :
    serialize_header buffer h = headerBytes h ++ buffer.drop 13 := by
  match buffer, hlen with
  | b0 :: b1 :: b2 :: b3 :: b4 :: b5 :: b6 :: b7 :: b8 :: b9 :: b10 :: b11 :: b12 :: rest, _ =>
    simp [serialize_header, pack_uint16_t, pack_uint8_t, headerBytes]

theorem shift_or_eq (a b : Nat) (hb : b < 256) : (a <<< 8 ||| b) = 256 * a + b := by
  rw [Nat.shiftLeft_eq, Nat.mul_comm]
  exact (@Nat.mul_add_lt_is_or 8 b hb a).symm

theorem word_of_bytes (v : Nat) (hv : v < 65536) :
    ((((v >>> 8) % 256) % 256) <<< 8 ||| (v % 256 % 256)) % 65536 = v := by
  have h1 : v >>> 8 = v / 256 := Nat.shiftRight_eq_div_pow v 8
  rw [h1, Nat.mod_mod, Nat.mod_mod, shift_or_eq _ _ (Nat.mod_lt _ (by decide))]
  omega

theorem deserialize_headerBytes (t : Target) (h : capshdr) (rest : List Nat) (hv : h.valid) :
    deserialize_header t (headerBytes h ++ rest) = h := by
  obtain ⟨h0, h1, h2, h3, h4, h5, h6⟩ := hv
  cases h with
  | mk version ack syn seq bufsize checksum len =>
  simp only [deserialize_header, headerBytes, unpack_uint16_t, unpack_uint8_t, List.cons_append,
    List.getD_cons_zero, List.getD_cons_succ, List.nil_append] at *
  simp only [capshdr.mk.injEq]
  refine ⟨?_, ?_, ?_, ?_, ?_, ?_, ?_⟩
  · simp only [Nat.mod_mod]
    split <;> omega
  all_goals exact word_of_bytes _ (by assumption)

/-- C1: for every header whose fields are in the ranges of their C types (`version` in
0..255, the six others in 0..65535), `deserialize_header` applied to the bytes written by
`serialize_header` gives back the header, equal in all seven fields; this holds on every
target and for every buffer of at least 13 cells. -/
theorem deserialize_serialize_header (t : Target) (buffer : List Nat) (h : capshdr)
    (hlen : 13 ≤ buffer.length) (hv : h.valid) :
    deserialize_header t (serialize_header buffer h) = h := by
  rw [serialize_header_eq buffer h hlen]
  exact deserialize_headerBytes t h _ hv

/-- Witness for C1: a header with a `version` above 127 and extreme field values on a
target with signed `char`. -/
theorem deserialize_serialize_header_witness :
    13 ≤ (List.replicate 13 7).length ∧
    (⟨200, 65535, 1, 1001, 4096, 11708, 0⟩ : capshdr).valid ∧
    deserialize_header x86 (serialize_header (List.replicate 13 7)
      ⟨200, 65535, 1, 1001, 4096, 11708, 0⟩) = ⟨200, 65535, 1, 1001, 4096, 11708, 0⟩ :=
  ⟨by decide, by decide,
   deserialize_serialize_header x86 (List.replicate 13 7) ⟨200, 65535, 1, 1001, 4096, 11708, 0⟩
     (by decide) (by decide)⟩

/-- C2: `serialize_header` writes `version` at offset 0 and `ack`, `syn`, `seq`,
`bufsize`, `checksum`, `len` at offsets 1, 3, 5, 7, 9, 11, each as two bytes in
little-endian order (the byte at the offset is the value mod 256, the next byte the value
div 256); the cells from offset 13 on are left as they were. -/
theorem serialize_header_layout (buffer : List Nat) (h : capshdr)
    (hlen : 13 ≤ buffer.length) (hv : h.valid) :
    (serialize_header buffer h).getD 0 0 = h.version ∧
    (serialize_header buffer h).getD 1 0 = h.ack % 256 ∧
    (serialize_header buffer h).getD 2 0 = h.ack / 256 ∧
    (serialize_header buffer h).getD 3 0 = h.syn % 256 ∧
    (serialize_header buffer h).getD 4 0 = h.syn / 256 ∧
    (serialize_header buffer h).getD 5 0 = h.seq % 256 ∧
    (serialize_header buffer h).getD 6 0 = h.seq / 256 ∧
    (serialize_header buffer h).getD 7 0 = h.bufsize % 256 ∧
    (serialize_header buffer h).getD 8 0 = h.bufsize / 256 ∧
    (serialize_header buffer h).getD 9 0 = h.checksum % 256 ∧
    (serialize_header buffer h).getD 10 0 = h.checksum / 256 ∧
    (serialize_header buffer h).getD 11 0 = h.len % 256 ∧
    (serialize_header buffer h).getD 12 0 = h.len / 256 ∧
    (serialize_header buffer h).drop 13 = buffer.drop 13 ∧
    (serialize_header buffer h).length = buffer.length := by
  obtain ⟨h0, h1, h2, h3, h4, h5, h6⟩ := hv
  have sh : ∀ v : Nat, v < 65536 → (v >>> 8) % 256 = v / 256 := by
    intro v hv
    rw [Nat.shiftRight_eq_div_pow v 8]
    omega
  rw [serialize_header_eq buffer h hlen]
  simp only [headerBytes, List.cons_append, List.nil_append, List.getD_cons_zero,
    List.getD_cons_succ, sh _ h1, sh _ h2, sh _ h3, sh _ h4, sh _ h5, sh _ h6,
    Nat.mod_eq_of_lt h0, List.drop_succ_cons, List.drop_zero, List.length_cons,
    List.length_drop, true_and]
  omega

/-- Witness for C2: the SYN-ACK header of the server written into a 16-cell buffer. -/
theorem serialize_header_layout_witness :
    13 ≤ (List.replicate 16 9).length ∧
    (⟨1, 1002, 1, 2001, 4096, 0, 0⟩ : capshdr).valid ∧
    (serialize_header (List.replicate 16 9) ⟨1, 1002, 1, 2001, 4096, 0, 0⟩).getD 1 0
      = 1002 % 256 ∧
    (serialize_header (List.replicate 16 9) ⟨1, 1002, 1, 2001, 4096, 0, 0⟩).getD 2 0
      = 1002 / 256 :=
  have h := serialize_header_layout (List.replicate 16 9) ⟨1, 1002, 1, 2001, 4096, 0, 0⟩
    (by decide) (by decide)
  ⟨by decide, by decide, h.2.1, h.2.2.1⟩

/-! ## Internet checksum -/

theorem foldIter_eq (fuel : Nat) : ∀ sum, sum ≤ fuel → foldIter fuel sum = foldSpec sum := by
  induction fuel with
  | zero =>
    intro sum h
    have h0 : sum = 0 := by omega
    subst h0
    rfl
  | succ fuel ih =>
    intro sum hle
    have h1 : sum &&& 0xffff = sum % 65536 := Nat.and_pow_two_sub_one_eq_mod sum 16
    have h2 : sum >>> 16 = sum / 65536 := Nat.shiftRight_eq_div_pow sum 16
    rw [foldIter]
    split
    · rename_i h
      rw [h1, h2]
      rw [h2] at h
      rw [ih _ (by omega)]
      unfold foldSpec
      split <;> split <;> omega
    · rename_i h
      rw [h2] at h
      unfold foldSpec
      split <;> omega

theorem foldLoop_eq (sum : Nat) : foldLoop sum = foldSpec sum :=
  foldIter_eq sum sum (Nat.le_refl sum)

/-- The folding loop has ended when `foldLoop` returns: the exit condition
`sum >> 16 == 0` holds for its result. -/
theorem foldLoop_exit (sum : Nat) : foldLoop sum >>> 16 = 0 := by
  rw [foldLoop_eq, Nat.shiftRight_eq_div_pow]
  unfold foldSpec
  split <;> omega

theorem wordLoop_eq (t : Target) (mem : List Nat) (k : Nat) :
    ∀ (r ptr sum : Nat), r < 2 → sum < 2 ^ 32 →
      wordLoop t mem ptr (2 * k + r) sum =
        (ptr + 2 * k, r, (sum + ∑ i ∈ Finset.range k, load16 t mem (ptr + 2 * i)) % 2 ^ 32) := by
  induction k with
  | zero =>
    intro r ptr sum hr hs
    have hr2 : r = 0 ∨ r = 1 := by omega
    have hs2 : sum % 4294967296 = sum := Nat.mod_eq_of_lt hs
    rcases hr2 with rfl | rfl <;> simp [wordLoop, hs2]
  | succ k ih =>
    intro r ptr sum hr hs
    have e : 2 * (k + 1) + r = (2 * k + r) + 2 := by ring
    rw [e, wordLoop, ih r (ptr + 2) _ hr (Nat.mod_lt _ (by decide))]
    rw [Finset.sum_range_succ']
    simp only [Nat.mul_zero, Nat.add_zero, Prod.mk.injEq]
    refine ⟨by ring, trivial, ?_⟩
    rw [Nat.add_mod, Nat.mod_mod, ← Nat.add_mod]
    congr 1
    have e2 : ∀ i, ptr + 2 + 2 * i = ptr + 2 * (i + 1) := by intro i; ring
    simp only [e2]
    ring

theorem accumulate_eq (t : Target) (b : List Nat) :
    accumulate t b (b.length : Int) = specSum t b % 2 ^ 32 := by
  have hdiv := Nat.div_add_mod b.length 2
  have hr : b.length % 2 < 2 := Nat.mod_lt _ (by decide)
  unfold accumulate specSum
  rw [Int.toNat_ofNat]
  conv_lhs => rw [← hdiv]
  rw [wordLoop_eq t b (b.length / 2) (b.length % 2) 0 0 hr (by decide)]
  simp only [Nat.zero_add]
  have hc : b.length % 2 = 0 ∨ b.length % 2 = 1 := by omega
  rcases hc with h | h
  · simp [h]
  · have e : 2 * (b.length / 2) = b.length - 1 := by omega
    simp [h, e]

theorem getD_lt (b : List Nat) (hb : isBytes b) (q : Nat) : b.getD q 0 < 256 := by
  rw [List.getD_eq_getElem?_getD]
  cases h : b[q]? with
  | none => simp
  | some x => simpa using hb x (List.getElem?_mem h)

theorem load16_le (t : Target) (b : List Nat) (hb : isBytes b) (p : Nat) :
    load16 t b p ≤ 65535 := by
  have h1 := getD_lt b hb p
  have h2 := getD_lt b hb (p + 1)
  unfold load16
  split <;> omega

theorem specSum_lt (t : Target) (b : List Nat) (hb : isBytes b) (hn : b.length ≤ 65535) :
    specSum t b < 2 ^ 32 := by
  unfold specSum
  have h1 : ∑ i ∈ Finset.range (b.length / 2), load16 t b (2 * i)
      ≤ ∑ _i ∈ Finset.range (b.length / 2), 65535 :=
    Finset.sum_le_sum (fun i _ => load16_le t b hb _)
  simp only [Finset.sum_const, Finset.card_range, smul_eq_mul] at h1
  have h2 := getD_lt b hb (b.length - 1)
  have h3 : b.length / 2 ≤ 32767 := by omega
  have h4 : b.length / 2 * 65535 ≤ 32767 * 65535 := Nat.mul_le_mul_right _ h3
  split <;> omega

theorem sum_pairs (f : ℕ → ℕ) (k : ℕ) :
    ∑ j ∈ Finset.range (2 * k), f j = ∑ i ∈ Finset.range k, (f (2 * i) + f (2 * i + 1)) := by
  induction k with
  | zero => simp
  | succ k ih =>
    have e : 2 * (k + 1) = 2 * k + 1 + 1 := by ring
    rw [e, Finset.sum_range_succ, Finset.sum_range_succ, ih, Finset.sum_range_succ]
    ring

theorem load16_weight (t : Target) (b : List Nat) (i : Nat) (h : 2 * i + 1 < b.length) :
    weight t b.length (2 * i) * b.getD (2 * i) 0 +
      weight t b.length (2 * i + 1) * b.getD (2 * i + 1) 0 = load16 t b (2 * i) := by
  have h1 : (2 * i) % 2 ≠ 1 := by omega
  have h2 : (2 * i + 1) % 2 = 1 := by omega
  unfold weight load16
  rw [if_neg h1, if_pos h2, if_pos h]
  cases t.bigEndian <;> simp

theorem specSum_eq_weightedSum (t : Target) (b : List Nat) : specSum t b = weightedSum t b := by
  unfold specSum weightedSum
  have hcases : b.length % 2 = 0 ∨ b.length % 2 = 1 := by omega
  have hw : ∑ j ∈ Finset.range (2 * (b.length / 2)), weight t b.length j * b.getD j 0
      = ∑ i ∈ Finset.range (b.length / 2), load16 t b (2 * i) := by
    rw [sum_pairs]
    apply Finset.sum_congr rfl
    intro i hi
    rw [Finset.mem_range] at hi
    exact load16_weight t b i (by omega)
  rcases hcases with h | h
  · have e : 2 * (b.length / 2) = b.length := by omega
    rw [if_neg (by omega), Nat.add_zero, ← hw, e]
  · have e : 2 * (b.length / 2) + 1 = b.length := by omega
    have e2 : 2 * (b.length / 2) = b.length - 1 := by omega
    have hwt : weight t b.length (b.length - 1) = 1 := by
      unfold weight
      rw [if_neg (by omega), if_neg (by omega)]
    rw [if_pos h, ← hw]
    conv_rhs => rw [← e, Finset.sum_range_succ]
    rw [e, e2, hwt, Nat.one_mul]

theorem getD_set_self (b : List Nat) (i v : Nat) (hi : i < b.length) :
    (b.set i v).getD i 0 = v := by
  simp [List.getD_eq_getElem?_getD, List.getElem?_set, hi]

theorem getD_set_other (b : List Nat) (i j v : Nat) (hij : i ≠ j) :
    (b.set i v).getD j 0 = b.getD j 0 := by
  simp [List.getD_eq_getElem?_getD, List.getElem?_set, hij]

theorem isBytes_set (b : List Nat) (i v : Nat) (hb : isBytes b) (hv : v < 256) :
    isBytes (b.set i v) := by
  intro x hx
  rcases List.mem_or_eq_of_mem_set hx with h | h
  · exact hb x h
  · exact h ▸ hv

theorem weightedSum_set (t : Target) (b : List Nat) (i v : Nat) (hi : i < b.length) :
    weightedSum t (b.set i v) + weight t b.length i * b.getD i 0 =
      weightedSum t b + weight t b.length i * v := by
  unfold weightedSum
  rw [List.length_set]
  have hmem : i ∈ Finset.range b.length := Finset.mem_range.mpr hi
  rw [← Finset.add_sum_erase _ _ hmem, ← Finset.add_sum_erase (Finset.range b.length) _ hmem]
  have hrest : ∑ x ∈ (Finset.range b.length).erase i, weight t b.length x * (b.set i v).getD x 0
      = ∑ x ∈ (Finset.range b.length).erase i, weight t b.length x * b.getD x 0 := by
    apply Finset.sum_congr rfl
    intro x hx
    rw [getD_set_other b i x v (Finset.ne_of_mem_erase hx).symm]
  rw [hrest, getD_set_self b i v hi]
  ring

theorem weight_cases (t : Target) (n i : Nat) : weight t n i = 1 ∨ weight t n i = 256 := by
  unfold weight
  cases t.bigEndian <;> simp only [Bool.false_eq_true, if_true, if_false] <;>
    split <;> (try split) <;> simp

theorem ichecksum_eq (t : Target) (b : List Nat) (hb : isBytes b) (hn : b.length ≤ 65535) :
    ichecksum t b (b.length : Int) = 65535 - foldSpec (weightedSum t b) := by
  unfold ichecksum
  rw [accumulate_eq, Nat.mod_eq_of_lt (specSum_lt t b hb hn), foldLoop_eq,
    specSum_eq_weightedSum]
  unfold foldSpec
  split <;> omega

theorem foldSpec_ne (S S2 : Nat) (hne : S ≠ S2) (h1 : S < S2 + 65535) (h2 : S2 < S + 65535) :
    65535 - foldSpec S ≠ 65535 - foldSpec S2 := by
  unfold foldSpec
  split <;> split <;> omega

/-- C3: for every byte sequence `b` of length `n ≤ 65535`, `ichecksum(b, n)` is
`0xFFFF - F`, where `S` is the sum of the `⌊n/2⌋` consecutive 16-bit words of `b` (as the
target loads them) plus, for odd `n`, the last byte as an 8-bit value, and `F` is the
end-around-carry fold of `S` (0 for `S = 0`, else `((S - 1) mod 65535) + 1`); the 32-bit
accumulator does not overflow: its value before folding is the exact sum `S`, which is
below `2 ^ 32`. -/
theorem ichecksum_spec (t : Target) (b : List Nat) (hb : isBytes b) (hn : b.length ≤ 65535) :
    ichecksum t b (b.length : Int) = 0xFFFF - foldSpec (specSum t b) ∧
    accumulate t b (b.length : Int) = specSum t b ∧
    specSum t b < 2 ^ 32 := by
  have hlt := specSum_lt t b hb hn
  refine ⟨?_, ?_, hlt⟩
  · rw [ichecksum_eq t b hb hn, specSum_eq_weightedSum]
  · rw [accumulate_eq, Nat.mod_eq_of_lt hlt]

/-- Witness for C3: the five bytes of "hello" on a little-endian target. -/
theorem ichecksum_spec_witness :
    isBytes [104, 101, 108, 108, 111] ∧ [104, 101, 108, 108, 111].length ≤ 65535 ∧
    ichecksum x86 [104, 101, 108, 108, 111] 5
      = 0xFFFF - foldSpec (specSum x86 [104, 101, 108, 108, 111]) :=
  ⟨by decide, by decide, (ichecksum_spec x86 [104, 101, 108, 108, 111] (by decide) (by decide)).1⟩

/-- Counterexample to C4 as stated: on a little-endian target (x86) the pair
`(b[0], b[1]) = (1, 2)` enters the sum as `1 + 256 * 2 = 513`, not as the big-endian word
`256 * 1 + 2 = 258`, and the checksum is not the one of the big-endian word. -/
theorem ichecksum_pairing_counterexample :
    load16 x86 [1, 2] 0 = 1 + 256 * 2 ∧
    accumulate x86 [1, 2] 2 ≠ 256 * 1 + 2 ∧
    ichecksum x86 [1, 2] 2 ≠ 0xFFFF - (256 * 1 + 2) := by
  decide

/-- C4, amended: every pair of consecutive bytes `(b[2i], b[2i+1])` enters the sum as the
16-bit word in the byte order of the target, `b[2i] + 256 * b[2i+1]` on a little-endian
target and `256 * b[2i] + b[2i+1]` on a big-endian one: for `n ≤ 65535` the accumulator
before folding is the sum of these words, plus the last byte for odd `n`. -/
theorem accumulate_host_order (t : Target) (b : List Nat) (hb : isBytes b)
    (hn : b.length ≤ 65535) :
    accumulate t b (b.length : Int) = hostOrderSum t b := by
  rw [accumulate_eq, Nat.mod_eq_of_lt (specSum_lt t b hb hn)]
  rfl

/-- Witness for the amended C4: four bytes on a little-endian target. -/
theorem accumulate_host_order_witness :
    isBytes [1, 2, 3, 4] ∧ [1, 2, 3, 4].length ≤ 65535 ∧
    accumulate x86 [1, 2, 3, 4] 4 = hostOrderSum x86 [1, 2, 3, 4] :=
  ⟨by decide, by decide, accumulate_host_order x86 [1, 2, 3, 4] (by decide) (by decide)⟩

/-- Counterexample to C5 as stated: `[3, 4, 1, 2]` is a reordering of `[1, 2, 3, 4]`,
different from it, with the same checksum (on either byte order); and exchanging the
unequal bytes at positions 0 and 2 of `[1, 0, 2, 0]` leaves the checksum unchanged. -/
theorem ichecksum_reorder_counterexample :
    List.Perm [3, 4, 1, 2] [1, 2, 3, 4] ∧ ([3, 4, 1, 2] : List Nat) ≠ [1, 2, 3, 4] ∧
    ichecksum x86 [3, 4, 1, 2] 4 = ichecksum x86 [1, 2, 3, 4] 4 ∧
    ichecksum ⟨false, true⟩ [3, 4, 1, 2] 4 = ichecksum ⟨false, true⟩ [1, 2, 3, 4] 4 ∧
    swapBytes [1, 0, 2, 0] 0 2 = [2, 0, 1, 0] ∧
    ichecksum x86 [2, 0, 1, 0] 4 = ichecksum x86 [1, 0, 2, 0] 4 := by
  decide

/-- C5, amended: `ichecksum` is sensitive to the order of the bytes only through the
weight of their positions. For `n ≤ 65535`, exchanging two unequal bytes changes the
result if and only if the two positions enter the sum with different weights (one as the
low byte and one as the high byte of a 16-bit word, as the two bytes of one word do);
an exchange between positions of equal weight is not detected. -/
theorem ichecksum_transposition (t : Target) (b : List Nat) (i j : Nat)
    (hb : isBytes b) (hn : b.length ≤ 65535) (hi : i < b.length) (hj : j < b.length)
    (hne : b.getD i 0 ≠ b.getD j 0) :
    ichecksum t (swapBytes b i j) (b.length : Int) ≠ ichecksum t b (b.length : Int) ↔
      weight t b.length i ≠ weight t b.length j := by
  have hij : i ≠ j := fun h => hne (h ▸ rfl)
  have hbi := getD_lt b hb i
  have hbj := getD_lt b hb j
  have hb1 : isBytes (b.set i (b.getD j 0)) := isBytes_set b i _ hb hbj
  have hb2 : isBytes (swapBytes b i j) := isBytes_set _ j _ hb1 hbi
  have hl1 : (b.set i (b.getD j 0)).length = b.length := List.length_set ..
  have hl : (swapBytes b i j).length = b.length := by
    unfold swapBytes; rw [List.length_set, List.length_set]
  have e1 := ichecksum_eq t (swapBytes b i j) hb2 (by rw [hl]; exact hn)
  rw [hl] at e1
  rw [e1, ichecksum_eq t b hb hn]
  have hs1 := weightedSum_set t b i (b.getD j 0) hi
  have hs2 := weightedSum_set t (b.set i (b.getD j 0)) j (b.getD i 0) (by rw [hl1]; exact hj)
  rw [hl1, getD_set_other b i j _ hij] at hs2
  change weightedSum t (swapBytes b i j) + _ = _ at hs2
  constructor
  · intro h hw
    apply h
    rw [hw] at hs1
    have hsame : weightedSum t (swapBytes b i j) = weightedSum t b := by omega
    rw [hsame]
  · intro hw
    apply foldSpec_ne
    all_goals
      rcases weight_cases t b.length i with hwi | hwi <;>
      rcases weight_cases t b.length j with hwj | hwj <;>
      rw [hwi, hwj] at hw <;> rw [hwi] at hs1 <;> rw [hwj] at hs2 <;> omega

/-- Witness for the amended C5: the two bytes of the first word of `[1, 2, 3]`. -/
theorem ichecksum_transposition_witness :
    isBytes [1, 2, 3] ∧ [1, 2, 3].length ≤ 65535 ∧ 0 < [1, 2, 3].length ∧
    1 < [1, 2, 3].length ∧ [1, 2, 3].getD 0 0 ≠ [1, 2, 3].getD 1 0 ∧
    (ichecksum x86 (swapBytes [1, 2, 3] 0 1) 3 ≠ ichecksum x86 [1, 2, 3] 3 ↔
      weight x86 3 0 ≠ weight x86 3 1) :=
  ⟨by decide, by decide, by decide, by decide, by decide,
   ichecksum_transposition x86 [1, 2, 3] 0 1 (by decide) (by decide) (by decide) (by decide)
     (by decide)⟩

/-- C6: for every byte sequence `b` of length `n ≤ 65535` and every position `i < n`,
replacing the byte at position `i` by any different byte value changes the result of
`ichecksum(b, n)`. -/
theorem ichecksum_detects_byte_change (t : Target) (b : List Nat) (i v : Nat)
    (hb : isBytes b) (hn : b.length ≤ 65535) (hi : i < b.length) (hv : v < 256)
    (hne : v ≠ b.getD i 0) :
    ichecksum t (b.set i v) (b.length : Int) ≠ ichecksum t b (b.length : Int) := by
  have hb2 : isBytes (b.set i v) := isBytes_set b i v hb hv
  have hl : (b.set i v).length = b.length := List.length_set ..
  have e1 := ichecksum_eq t (b.set i v) hb2 (by rw [hl]; exact hn)
  rw [hl] at e1
  rw [e1, ichecksum_eq t b hb hn]
  have hs := weightedSum_set t b i v hi
  have hbi := getD_lt b hb i
  apply foldSpec_ne
  all_goals rcases weight_cases t b.length i with hw | hw <;> rw [hw] at hs <;> omega

/-- Witness for C6: the last byte of "hello" replaced by 0. -/
theorem ichecksum_detects_byte_change_witness :
    isBytes [104, 101, 108, 108, 111] ∧ [104, 101, 108, 108, 111].length ≤ 65535 ∧
    4 < [104, 101, 108, 108, 111].length ∧ 0 < 256 ∧
    0 ≠ [104, 101, 108, 108, 111].getD 4 0 ∧
    ichecksum x86 ([104, 101, 108, 108, 111].set 4 0) 5
      ≠ ichecksum x86 [104, 101, 108, 108, 111] 5 :=
  ⟨by decide, by decide, by decide, by decide, by decide,
   ichecksum_detects_byte_change x86 [104, 101, 108, 108, 111] 4 0 (by decide) (by decide)
     (by decide) (by decide) (by decide)⟩

/-! ## Delivery of one message -/

theorem accumulate_nat (t : Target) (mem : List Nat) (n : Nat) :
    accumulate t mem (n : Int) =
      ((∑ i ∈ Finset.range (n / 2), load16 t mem (2 * i)) +
        (if n % 2 = 1 then mem.getD (n - 1) 0 else 0)) % 2 ^ 32 := by
  have hdiv := Nat.div_add_mod n 2
  have hr : n % 2 < 2 := Nat.mod_lt _ (by decide)
  unfold accumulate
  rw [Int.toNat_ofNat]
  conv_lhs => rw [← hdiv]
  rw [wordLoop_eq t mem (n / 2) (n % 2) 0 0 hr (by decide)]
  simp only [Nat.zero_add]
  have hc : n % 2 = 0 ∨ n % 2 = 1 := by omega
  rcases hc with h | h
  · simp [h]
  · have e : 2 * (n / 2) = n - 1 := by omega
    simp [h, e]

theorem getD_append_left (b r : List Nat) (i : Nat) (hi : i < b.length) :
    (b ++ r).getD i 0 = b.getD i 0 := by
  simp [List.getD_eq_getElem?_getD, List.getElem?_append_left hi]

theorem accumulate_append (t : Target) (b r : List Nat) :
    accumulate t (b ++ r) (b.length : Int) = accumulate t b (b.length : Int) := by
  rw [accumulate_nat, accumulate_nat]
  congr 1
  congr 1
  · apply Finset.sum_congr rfl
    intro i hi
    rw [Finset.mem_range] at hi
    unfold load16
    rw [getD_append_left b r (2 * i) (by omega), getD_append_left b r (2 * i + 1) (by omega)]
  · split
    · rw [getD_append_left b r _ (by omega)]
    · rfl

theorem ichecksum_append (t : Target) (b r : List Nat) :
    ichecksum t (b ++ r) (b.length : Int) = ichecksum t b (b.length : Int) := by
  unfold ichecksum
  rw [accumulate_append]

theorem strlen_append_zero (m r : List Nat) (hnz : ∀ x ∈ m, x ≠ 0) :
    strlen (m ++ 0 :: r) = some m.length := by
  induction m with
  | nil => simp [strlen]
  | cons a m ih =>
    have ha : a ≠ 0 := hnz a (List.mem_cons_self a m)
    have hm : ∀ x ∈ m, x ≠ 0 := fun x hx => hnz x (List.mem_cons_of_mem a hx)
    simp [strlen, ha, ih hm]

theorem drop_eq_zero_cons (block : List Nat) (n : Nat) (hz : block.getD n 1 = 0) :
    block.drop n = 0 :: block.drop (n + 1) := by
  have hn : n < block.length := by
    by_contra h
    rw [List.getD_eq_getElem?_getD, List.getElem?_eq_none (by omega)] at hz
    simp at hz
  rw [List.drop_eq_getElem_cons hn]
  congr 1
  rw [List.getD_eq_getElem?_getD, List.getElem?_eq_getElem hn] at hz
  simpa using hz

theorem take_append_length (m r : List Nat) : (m ++ r).take m.length = m := by
  simp

theorem headerBytes_length (h : capshdr) : (headerBytes h).length = 13 := rfl

theorem memcpy_serialize (buf payload : List Nat) (h : capshdr) (n : Nat)
    (hbuf : 13 ≤ buf.length) :
    memcpy (serialize_header buf h) 13 payload n
      = headerBytes h ++ payload.take n ++ buf.drop (13 + n) := by
  rw [serialize_header_eq buf h hbuf]
  unfold memcpy
  have h13 : (headerBytes h ++ buf.drop 13).take 13 = headerBytes h := by
    rw [← headerBytes_length h, take_append_length]
  have hd : (headerBytes h ++ buf.drop 13).drop (13 + n) = buf.drop (13 + n) := by
    rw [← List.drop_drop, ← headerBytes_length h, List.drop_left, headerBytes_length,
      List.drop_drop]
  rw [h13, hd]

theorem cycleStart_eq (t : Target) (sh : capshdr) (block after msg : List Nat)
    (hblock : block.length = sh.bufsize) (hnz : ∀ x ∈ msg, x ≠ 0)
    (hfit : 13 + msg.length ≤ sh.bufsize) (hdata : msg.length < DATASIZE)
    (hz : block.getD msg.length 1 = 0) :
    cycleStart t sh block after msg =
      some (⟨.receiptStatus, sh.bufsize,
              headerBytes (echoHeader t sh.bufsize msg) ++ msg ++ block.drop (13 + msg.length),
              msg ++ [0], echoHeader t sh.bufsize msg⟩,
            [.frame .data
              (headerBytes (echoHeader t sh.bufsize msg) ++ msg ++ block.drop (13 + msg.length))]) := by
  have hD : DATASIZE = 1024 := rfl
  rw [hD] at hdata
  have hrecv : recvInto block sh.bufsize msg = msg ++ block.drop msg.length := by
    unfold recvInto
    rw [List.take_of_length_le (by omega)]
  have hdrop := drop_eq_zero_cons block msg.length hz
  have hmem : recvInto block sh.bufsize msg ++ after
      = msg ++ 0 :: (block.drop (msg.length + 1) ++ after) := by
    rw [hrecv, hdrop]; simp
  have hstr : strlen (recvInto block sh.bufsize msg ++ after) = some msg.length := by
    rw [hmem]; exact strlen_append_zero msg _ hnz
  have hpay : (recvInto block sh.bufsize msg ++ after).take (msg.length + 1) = msg ++ [0] := by
    rw [hmem]
    have : msg ++ 0 :: (block.drop (msg.length + 1) ++ after)
        = (msg ++ [0]) ++ (block.drop (msg.length + 1) ++ after) := by simp
    rw [this]
    have hl : (msg ++ [0]).length = msg.length + 1 := by simp
    rw [← hl, take_append_length]
  have hstr2 : strlen (msg ++ [0]) = some msg.length := strlen_append_zero msg [] hnz
  have hcs : ichecksum t (msg ++ [0]) (msg.length : Int) = ichecksum t msg (msg.length : Int) :=
    ichecksum_append t msg [0]
  have hmod : msg.length % 65536 = msg.length := Nat.mod_eq_of_lt (by omega)
  have hlenbuf : (recvInto block sh.bufsize msg).length = sh.bufsize := by
    rw [hrecv]; simp; omega
  unfold cycleStart
  simp only [hstr, hpay, hstr2, hcs, hmod, hD, Option.bind_eq_bind, Option.some_bind,
    Option.pure_def, Option.bind_some]
  rw [if_neg (by omega), if_neg (by rw [hlenbuf]; omega)]
  have hframe : memcpy (serialize_header (recvInto block sh.bufsize msg)
      ⟨1, 0, 0, 0, sh.bufsize, ichecksum t msg (msg.length : Int), msg.length⟩) 13 (msg ++ [0])
        msg.length
      = headerBytes (echoHeader t sh.bufsize msg) ++ msg ++ block.drop (13 + msg.length) := by
    rw [memcpy_serialize _ _ _ _ (by rw [hlenbuf]; omega), take_append_length, hrecv]
    unfold echoHeader
    congr 1
    rw [List.drop_append_eq_append_drop, List.drop_of_length_le (by omega), List.drop_drop]
    simp
    congr 1
    omega
  have htake : (headerBytes (echoHeader t sh.bufsize msg) ++ msg ++ block.drop (13 + msg.length)).take
      sh.bufsize = headerBytes (echoHeader t sh.bufsize msg) ++ msg ++ block.drop (13 + msg.length) := by
    apply List.take_of_length_le
    simp [headerBytes_length]
    omega
  rw [hframe, htake]
  rfl

theorem clientUnpack_frame (t : Target) (buffer0 after payload rest : List Nat) (h : capshdr)
    (hv : h.valid) (hlen : h.len = payload.length)
    (hsize : (headerBytes h ++ payload ++ rest).length ≤ BUFSIZE) :
    clientUnpack t buffer0 (headerBytes h ++ payload ++ rest) after
      = some (h, payload ++ after) := by
  have hrecv : recvInto (memset0 buffer0 BUFSIZE) BUFSIZE (headerBytes h ++ payload ++ rest)
      = headerBytes h ++ (payload ++ (rest ++
          (memset0 buffer0 BUFSIZE).drop (headerBytes h ++ payload ++ rest).length)) := by
    unfold recvInto
    rw [List.take_of_length_le hsize]
    simp
  unfold clientUnpack
  simp only [hrecv, deserialize_headerBytes t h _ hv]
  rw [if_neg (by simp [headerBytes_length, hlen])]
  have hd : (headerBytes h ++ (payload ++ (rest ++
      (memset0 buffer0 BUFSIZE).drop (headerBytes h ++ payload ++ rest).length))).drop 13
      = payload ++ (rest ++
          (memset0 buffer0 BUFSIZE).drop (headerBytes h ++ payload ++ rest).length) := by
    rw [← headerBytes_length h, List.drop_left]
  rw [hd, hlen, take_append_length]

theorem getD_replicate_lt (n i a d : Nat) (h : i < n) : (List.replicate n a).getD i d = a := by
  rw [List.getD_eq_getElem?_getD, List.getElem?_replicate, if_pos h]
  rfl

/-- With a zero cell right after the client's copy of the payload, the frame that the
server builds for a non-empty message without zero byte (shorter than `DATASIZE`, read into
a buffer that holds a zero after it) passes both first checks of the client: the claim of
C7 under the condition that the code does not establish. -/
theorem clientFirstRound_terminated (t : Target) (sh : capshdr) (block after msg : List Nat)
    (buffer0 following : List Nat) (c : Cycle) (frame : List Nat)
    (hblock : block.length = sh.bufsize) (hbuf : sh.bufsize ≤ BUFSIZE)
    (hne : msg ≠ []) (hnz : ∀ x ∈ msg, x ≠ 0)
    (hfit : 13 + msg.length ≤ sh.bufsize) (hdata : msg.length < DATASIZE)
    (hz : block.getD msg.length 1 = 0) (hsh : sh.bufsize < 65536)
    (hstart : cycleStart t sh block after msg = some (c, [.frame .data frame])) :
    clientFirstRound t buffer0 frame (0 :: following)
      = some [.status (statusSlot true), .status (statusSlot true)] := by
  rw [cycleStart_eq t sh block after msg hblock hnz hfit hdata hz] at hstart
  simp only [Option.some.injEq, Prod.mk.injEq, List.cons.injEq, Out.frame.injEq, and_true,
    true_and] at hstart
  obtain ⟨-, hf⟩ := hstart
  have hD : DATASIZE = 1024 := rfl
  have hB : BUFSIZE = 4096 := rfl
  have hcs : ichecksum t msg (msg.length : Int) < 65536 := by
    unfold ichecksum; exact Nat.mod_lt _ (by decide)
  have hv : (echoHeader t sh.bufsize msg).valid := by
    unfold echoHeader capshdr.valid
    simp only
    omega
  have hpos : 0 < msg.length := List.length_pos.mpr hne
  unfold clientFirstRound
  rw [← hf, clientUnpack_frame t buffer0 (0 :: following) msg _ _ hv rfl
    (by simp [headerBytes_length]; omega)]
  have hstr : strlen (msg ++ 0 :: following) = some msg.length :=
    strlen_append_zero msg following hnz
  have h1 : payload_status (msg ++ 0 :: following) = some true := by
    unfold payload_status; rw [hstr]; simp [hpos]
  have h2 : payload_integrity t (echoHeader t sh.bufsize msg) (msg ++ 0 :: following)
      = some true := by
    unfold payload_integrity
    rw [hstr]
    simp [echoHeader, ichecksum_append]
  simp only [Option.bind_eq_bind, Option.some_bind, h1, h2, if_true]

theorem cycleStart_hello :
    cycleStart x86 shEstablished (List.replicate 4096 0) [] hello =
      some (⟨.receiptStatus, 4096,
              headerBytes ⟨1, 0, 0, 0, 4096, 11708, 5⟩ ++ hello ++ List.replicate 4078 0,
              hello ++ [0], ⟨1, 0, 0, 0, 4096, 11708, 5⟩⟩,
            [.frame .data
              (headerBytes ⟨1, 0, 0, 0, 4096, 11708, 5⟩ ++ hello ++ List.replicate 4078 0)]) := by
  have h := cycleStart_eq x86 shEstablished (List.replicate 4096 0) [] hello
    (List.length_replicate 4096 0) (by decide) (by decide) (by decide)
    (getD_replicate_lt 4096 5 0 1 (by decide))
  have e : echoHeader x86 shEstablished.bufsize hello = ⟨1, 0, 0, 0, 4096, 11708, 5⟩ := by
    decide
  have hd : (List.replicate 4096 0).drop (13 + hello.length) = List.replicate 4078 0 := by
    rw [List.drop_replicate]
    rfl
  have hb : shEstablished.bufsize = 4096 := rfl
  rw [e, hd, hb] at h
  exact h

/-- C7 (code bug), evaluation at the failing inputs. For "hello" with `bufsize` 4096 the
server builds the frame the claim describes (checksum 11708 of the 5 bytes, `len` 5, the
message at offset 13, zero after it). The client copies `len` bytes into a block of `len`
cells and measures it with `strlen`: with a non-zero cell after the block it checksums
6 bytes, answers the receipt check with 1 and the integrity check with 0. The same for a
message of 24 letters followed by the cells 17, 1, 0. -/
theorem clientFirstRound_unterminated :
    cycleStart x86 shEstablished (List.replicate 4096 0) [] hello =
      some (⟨.receiptStatus, 4096,
              headerBytes ⟨1, 0, 0, 0, 4096, 11708, 5⟩ ++ hello ++ List.replicate 4078 0,
              hello ++ [0], ⟨1, 0, 0, 0, 4096, 11708, 5⟩⟩,
            [.frame .data
              (headerBytes ⟨1, 0, 0, 0, 4096, 11708, 5⟩ ++ hello ++ List.replicate 4078 0)]) ∧
    ichecksum x86 hello 5 = 11708 ∧
    clientFirstRound x86 (List.replicate 32776 0)
        (headerBytes ⟨1, 0, 0, 0, 4096, 11708, 5⟩ ++ hello ++ List.replicate 4078 0) [1, 0]
      = some [.status (statusSlot true), .status (statusSlot false)] ∧
    clientFirstRound x86 (List.replicate 32776 0)
        (headerBytes (echoHeader x86 4096 letters24) ++ letters24 ++ List.replicate 4059 0)
        [17, 1, 0]
      = some [.status (statusSlot true), .status (statusSlot false)] := by
  refine ⟨cycleStart_hello, by decide, ?_, ?_⟩
  · unfold clientFirstRound
    rw [clientUnpack_frame x86 _ [1, 0] hello _ ⟨1, 0, 0, 0, 4096, 11708, 5⟩ (by decide) rfl
      (by rw [List.length_append, List.length_append, List.length_replicate]; decide)]
    have h1 : payload_status (hello ++ [1, 0]) = some true := by decide
    have h2 : payload_integrity x86 ⟨1, 0, 0, 0, 4096, 11708, 5⟩ (hello ++ [1, 0])
        = some false := by
      decide
    simp only [Option.bind_eq_bind, Option.some_bind, h1, h2, if_true]
  · unfold clientFirstRound
    have hv : (echoHeader x86 4096 letters24).valid := by decide
    rw [clientUnpack_frame x86 _ [17, 1, 0] letters24 _ (echoHeader x86 4096 letters24)
      hv rfl
      (by rw [List.length_append, List.length_append, List.length_replicate]; decide)]
    have h1 : payload_status (letters24 ++ [17, 1, 0]) = some true := by decide
    have h2 : payload_integrity x86 (echoHeader x86 4096 letters24) (letters24 ++ [17, 1, 0])
        = some false := by
      decide
    simp only [Option.bind_eq_bind, Option.some_bind, h1, h2, if_true]

/-! ## Retry loops -/

theorem recvInto_full (buf data : List Nat) (n : Nat) (hd : data.length = n)
    (hb : buf.length ≤ n) : recvInto buf n data = data := by
  unfold recvInto
  rw [List.take_of_length_le (by omega), List.drop_of_length_le (by omega), List.append_nil]

theorem memset0_length (buf : List Nat) (n : Nat) (hb : buf.length ≤ n) :
    (memset0 buf n).length = n := by
  unfold memset0
  simp
  omega

theorem recv_cleared (buf data : List Nat) (hd : data.length = SHAKESIZE)
    (hb : buf.length ≤ SHAKESIZE) :
    recvInto (memset0 buf SHAKESIZE) SHAKESIZE data = data :=
  recvInto_full _ _ _ hd (by rw [memset0_length buf _ hb])

theorem recv_zeros (data : List Nat) (hd : data.length = SHAKESIZE) :
    recvInto (List.replicate SHAKESIZE 0) SHAKESIZE data = data :=
  recvInto_full _ _ _ hd (by simp)

theorem scan_failure (slot : List Nat) (st : Int) (h : failureSignal slot = true) :
    scanStatus slot st ≠ 1 := by
  unfold failureSignal at h
  unfold scanStatus
  cases hs : sscanf_d slot with
  | none => rw [hs] at h; simp at h
  | some v =>
    rw [hs] at h
    simp at h
    simpa using h.1.1

theorem scan_success (slot : List Nat) (st : Int) (h : successSignal slot = true) :
    scanStatus slot st = 1 := by
  unfold successSignal at h
  unfold scanStatus
  have : sscanf_d slot = some 1 := by simpa using h
  rw [this]
  rfl

theorem feed_cons {σ : Type} (step : σ → List Nat → σ × List Out) (s : σ) (d : List Nat)
    (ds : List (List Nat)) :
    feed step s (d :: ds) =
      ((feed step (step s d).1 ds).1, (step s d).2 ++ (feed step (step s d).1 ds).2) := rfl

theorem feed_nil {σ : Type} (step : σ → List Nat → σ × List Out) (s : σ) :
    feed step s [] = (s, []) := rfl

theorem feed_fixed {σ : Type} (step : σ → List Nat → σ × List Out) (s : σ)
    (hfix : ∀ d, step s d = (s, [])) (ds : List (List Nat)) : feed step s ds = (s, []) := by
  induction ds with
  | nil => rfl
  | cons d ds ih => rw [feed_cons, hfix d, ih]; rfl

/-! ### Client SYN loop -/

theorem client_synStatus_fail (ch : capshdr) (hmsg d : List Nat) (hm : hmsg.length ≤ SHAKESIZE)
    (hd : failureSlot d) :
    clientStep ⟨.synStatus, ch, hmsg⟩ d =
      (⟨.synStatusRetry 1 (scanStatus d 1), ch, d⟩, [.frame .syn (shakeFrame ch)]) := by
  simp [clientStep, recv_cleared hmsg d hd.1 hm, scan_failure d 1 hd.2]

theorem client_synRetry_fail (ch : capshdr) (hmsg d : List Nat) (trials : Nat) (st : Int)
    (hm : hmsg.length ≤ SHAKESIZE) (hd : failureSlot d) (ht : trials + 1 ≤ MAX_RETRANSM) :
    clientStep ⟨.synStatusRetry trials st, ch, hmsg⟩ d =
      (⟨.synStatusRetry (trials + 1) (scanStatus d st), ch, d⟩,
        [.frame .syn (shakeFrame ch)]) := by
  simp [clientStep, recvInto_full hmsg d _ hd.1 hm, scan_failure d st hd.2, ht]

theorem client_synRetry_last (ch : capshdr) (hmsg d : List Nat) (trials : Nat) (st : Int)
    (hm : hmsg.length ≤ SHAKESIZE) (hd : failureSlot d) (ht : ¬ trials + 1 ≤ MAX_RETRANSM) :
    clientStep ⟨.synStatusRetry trials st, ch, hmsg⟩ d = (⟨.closed, ch, d⟩, []) := by
  simp [clientStep, recvInto_full hmsg d _ hd.1 hm, scan_failure d st hd.2, ht]

theorem client_closed (ch : capshdr) (hmsg d : List Nat) :
    clientStep ⟨.closed, ch, hmsg⟩ d = (⟨.closed, ch, hmsg⟩, []) := rfl

/-! ### Client ACK loop -/

theorem client_ackStatus_fail (ch : capshdr) (hmsg d : List Nat) (hm : hmsg.length ≤ SHAKESIZE)
    (hd : failureSlot d) :
    clientStep ⟨.ackStatus, ch, hmsg⟩ d =
      (⟨.ackStatusRetry 1 (scanStatus d 1), ch, d⟩, [.frame .ack (shakeFrame ch)]) := by
  simp [clientStep, recv_cleared hmsg d hd.1 hm, scan_failure d 1 hd.2]

theorem client_ackRetry_fail (ch : capshdr) (hmsg d : List Nat) (trials : Nat) (st : Int)
    (hm : hmsg.length ≤ SHAKESIZE) (hd : failureSlot d) (ht : trials + 1 ≤ MAX_RETRANSM) :
    clientStep ⟨.ackStatusRetry trials st, ch, hmsg⟩ d =
      (⟨.ackStatusRetry (trials + 1) (scanStatus d st), ch, d⟩,
        [.frame .ack (shakeFrame ch)]) := by
  simp [clientStep, recv_cleared hmsg d hd.1 hm, scan_failure d st hd.2, ht]

theorem client_ackRetry_last (ch : capshdr) (hmsg d : List Nat) (trials : Nat) (st : Int)
    (hm : hmsg.length ≤ SHAKESIZE) (hd : failureSlot d) (ht : ¬ trials + 1 ≤ MAX_RETRANSM) :
    clientStep ⟨.ackStatusRetry trials st, ch, hmsg⟩ d = (⟨.closed, ch, d⟩, []) := by
  simp [clientStep, recv_cleared hmsg d hd.1 hm, scan_failure d st hd.2, ht]

/-! ### Server SYN-ACK loop -/

theorem server_synAckStatus_fail (t : Target) (sh : capshdr) (hb d : List Nat)
    (hd : failureSlot d) :
    serverStep t ⟨.synAckStatus, sh, hb⟩ d =
      (⟨.synAckStatusRetry 1 (scanStatus d 1), sh, shakeFrame sh⟩,
        [.frame .synAck (shakeFrame sh)]) := by
  simp [serverStep, recv_zeros d hd.1, scan_failure d 1 hd.2]

theorem server_synAckRetry_fail (t : Target) (sh : capshdr) (hb d : List Nat) (trials : Nat)
    (st : Int) (hd : failureSlot d) (ht : trials + 1 ≤ MAX_RETRANSM) :
    serverStep t ⟨.synAckStatusRetry trials st, sh, hb⟩ d =
      (⟨.synAckStatusRetry (trials + 1) (scanStatus d st), sh, hb⟩,
        [.frame .synAck (shakeFrame sh)]) := by
  simp [serverStep, recv_zeros d hd.1, scan_failure d st hd.2, ht]

theorem server_synAckRetry_last (t : Target) (sh : capshdr) (hb d : List Nat) (trials : Nat)
    (st : Int) (hd : failureSlot d) (ht : ¬ trials + 1 ≤ MAX_RETRANSM) :
    serverStep t ⟨.synAckStatusRetry trials st, sh, hb⟩ d = (⟨.exited .master, sh, hb⟩, []) := by
  simp [serverStep, recv_zeros d hd.1, scan_failure d st hd.2, ht]

theorem server_exited (t : Target) (fd : Sock) (sh : capshdr) (hb d : List Nat) :
    serverStep t ⟨.exited fd, sh, hb⟩ d = (⟨.exited fd, sh, hb⟩, []) := rfl

/-! ### Server delivery rounds -/

theorem cycle_receipt_fail (n : Nat) (buf p : List Nat) (h : capshdr) (d : List Nat)
    (hd : failureSlot d) :
    cycleStep ⟨.receiptStatus, n, buf, p, h⟩ d =
      (⟨.receiptRetry 1 (scanStatus d 1), n, cycleFrame ⟨.receiptStatus, n, buf, p, h⟩, p, h⟩,
        [.frame .data ((cycleFrame ⟨.receiptStatus, n, buf, p, h⟩).take n)]) := by
  simp [cycleStep, recv_zeros d hd.1, scan_failure d 1 hd.2]

theorem cycle_receipt_ok (n : Nat) (buf p : List Nat) (h : capshdr) (d : List Nat)
    (hd : successSlot d) :
    cycleStep ⟨.receiptStatus, n, buf, p, h⟩ d = (⟨.integrityStatus, n, buf, p, h⟩, []) := by
  simp [cycleStep, recv_zeros d hd.1, scan_success d 1 hd.2]

theorem cycle_receiptRetry_fail (n : Nat) (buf p : List Nat) (h : capshdr) (d : List Nat)
    (trials : Nat) (st : Int) (hd : failureSlot d) (ht : trials + 1 ≤ MAX_RETRANSM) :
    cycleStep ⟨.receiptRetry trials st, n, buf, p, h⟩ d =
      (⟨.receiptRetry (trials + 1) (scanStatus d st), n,
          cycleFrame ⟨.receiptRetry trials st, n, buf, p, h⟩, p, h⟩,
        [.frame .data ((cycleFrame ⟨.receiptRetry trials st, n, buf, p, h⟩).take n)]) := by
  simp [cycleStep, recv_zeros d hd.1, scan_failure d st hd.2, ht]

theorem cycle_receiptRetry_last (n : Nat) (buf p : List Nat) (h : capshdr) (d : List Nat)
    (trials : Nat) (st : Int) (hd : failureSlot d) (ht : ¬ trials + 1 ≤ MAX_RETRANSM) :
    cycleStep ⟨.receiptRetry trials st, n, buf, p, h⟩ d = (⟨.exited .conn, n, buf, p, h⟩, []) := by
  simp [cycleStep, recv_zeros d hd.1, scan_failure d st hd.2, ht]

theorem cycle_integrity_fail (n : Nat) (buf p : List Nat) (h : capshdr) (d : List Nat)
    (hd : failureSlot d) :
    cycleStep ⟨.integrityStatus, n, buf, p, h⟩ d =
      (⟨.integrityRetry 1 (scanStatus d 1), n, cycleFrame ⟨.integrityStatus, n, buf, p, h⟩, p, h⟩,
        [.frame .data ((cycleFrame ⟨.integrityStatus, n, buf, p, h⟩).take n)]) := by
  simp [cycleStep, recv_zeros d hd.1, scan_failure d 1 hd.2]

theorem cycle_integrityRetry_fail (n : Nat) (buf p : List Nat) (h : capshdr) (d : List Nat)
    (trials : Nat) (st : Int) (hd : failureSlot d) (ht : trials + 1 ≤ MAX_RETRANSM) :
    cycleStep ⟨.integrityRetry trials st, n, buf, p, h⟩ d =
      (⟨.integrityRetry (trials + 1) (scanStatus d st), n,
          cycleFrame ⟨.integrityRetry trials st, n, buf, p, h⟩, p, h⟩,
        [.frame .data ((cycleFrame ⟨.integrityRetry trials st, n, buf, p, h⟩).take n)]) := by
  simp [cycleStep, recv_zeros d hd.1, scan_failure d st hd.2, ht]

theorem cycle_integrityRetry_last (n : Nat) (buf p : List Nat) (h : capshdr) (d : List Nat)
    (trials : Nat) (st : Int) (hd : failureSlot d) (ht : ¬ trials + 1 ≤ MAX_RETRANSM) :
    cycleStep ⟨.integrityRetry trials st, n, buf, p, h⟩ d = (⟨.exited .conn, n, buf, p, h⟩, []) := by
  simp [cycleStep, recv_zeros d hd.1, scan_failure d st hd.2, ht]

theorem cycle_exited (fd : Sock) (n : Nat) (buf p : List Nat) (h : capshdr) (d : List Nat) :
    cycleStep ⟨.exited fd, n, buf, p, h⟩ d = (⟨.exited fd, n, buf, p, h⟩, []) := rfl

theorem cycleStart_some (t : Target) (sh : capshdr) (block after msg : List Nat) (c : Cycle)
    (o : List Out) (h : cycleStart t sh block after msg = some (c, o)) :
    c.pc = .receiptStatus ∧ ∃ f, o = [.frame .data f] := by
  unfold cycleStart at h
  simp only [Option.bind_eq_bind] at h
  cases h1 : strlen (recvInto block sh.bufsize msg ++ after) with
  | none => rw [h1] at h; simp at h
  | some k =>
    rw [h1] at h
    simp only [Option.some_bind] at h
    split at h
    · simp at h
    · cases h2 : strlen (List.take (k + 1) (recvInto block sh.bufsize msg ++ after)) with
      | none => rw [h2] at h; simp at h
      | some n =>
        rw [h2] at h
        simp only [Option.some_bind] at h
        split at h
        · simp at h
        · simp only [Option.some.injEq, Prod.mk.injEq] at h
          obtain ⟨hc, ho⟩ := h
          subst hc
          exact ⟨rfl, _, ho.symm⟩

theorem client_syn_exhaust (chbuffer chmsg : List Nat) (cs ln : Nat) (s1 s2 s3 s4 : List Nat)
    (rest : List (List Nat)) (hm : chmsg.length = SHAKESIZE)
    (h1 : failureSlot s1) (h2 : failureSlot s2) (h3 : failureSlot s3) (h4 : failureSlot s4) :
    feed clientStep (clientStart chbuffer chmsg cs ln).1 (s1 :: s2 :: s3 :: s4 :: rest) =
      (⟨.closed, (clientStart chbuffer chmsg cs ln).1.chandshake, s4⟩,
       List.replicate 3 (.frame .syn (shakeFrame (clientStart chbuffer chmsg cs ln).1.chandshake))) := by
  have e : (clientStart chbuffer chmsg cs ln).1
      = ⟨.synStatus, ⟨1, 0, 1, CLIENT_ISN, BUFSIZE, cs, ln⟩, chmsg⟩ := rfl
  rw [e]
  simp only [feed_cons, client_synStatus_fail _ _ _ (le_of_eq hm) h1,
    client_synRetry_fail _ _ _ 1 _ (le_of_eq h1.1) h2 (by decide),
    client_synRetry_fail _ _ _ 2 _ (le_of_eq h2.1) h3 (by decide),
    client_synRetry_last _ _ _ 3 _ (le_of_eq h3.1) h4 (by decide),
    feed_fixed clientStep _ (client_closed _ _) rest, Nat.reduceAdd]
  rfl

theorem client_ack_exhaust (cl : Client) (s1 s2 s3 s4 : List Nat)
    (rest : List (List Nat)) (hm : cl.hmsg.length = SHAKESIZE)
    (h1 : failureSlot s1) (h2 : failureSlot s2) (h3 : failureSlot s3) (h4 : failureSlot s4) :
    feed clientStep (clientAckPhase cl).1 (s1 :: s2 :: s3 :: s4 :: rest) =
      (⟨.closed, (clientAckPhase cl).1.chandshake, s4⟩,
       List.replicate 3 (.frame .ack (shakeFrame (clientAckPhase cl).1.chandshake))) := by
  have e : (clientAckPhase cl).1
      = ⟨.ackStatus, (clientAckPhase cl).1.chandshake, cl.hmsg⟩ := rfl
  rw [e]
  simp only [feed_cons, client_ackStatus_fail _ _ _ (le_of_eq hm) h1,
    client_ackRetry_fail _ _ _ 1 _ (le_of_eq h1.1) h2 (by decide),
    client_ackRetry_fail _ _ _ 2 _ (le_of_eq h2.1) h3 (by decide),
    client_ackRetry_last _ _ _ 3 _ (le_of_eq h3.1) h4 (by decide),
    feed_fixed clientStep _ (client_closed _ _) rest, Nat.reduceAdd]
  rfl

theorem server_synAck_exhaust (t : Target) (sv : ServerConn) (s1 s2 s3 s4 : List Nat)
    (rest : List (List Nat))
    (h1 : failureSlot s1) (h2 : failureSlot s2) (h3 : failureSlot s3) (h4 : failureSlot s4) :
    feed (serverStep t) (serverSynAckPhase sv).1 (s1 :: s2 :: s3 :: s4 :: rest) =
      (⟨.exited .master, (serverSynAckPhase sv).1.shandshake,
          shakeFrame (serverSynAckPhase sv).1.shandshake⟩,
       List.replicate 3 (.frame .synAck (shakeFrame (serverSynAckPhase sv).1.shandshake))) := by
  have e : (serverSynAckPhase sv).1
      = ⟨.synAckStatus, (serverSynAckPhase sv).1.shandshake,
          shakeFrame (serverSynAckPhase sv).1.shandshake⟩ := rfl
  rw [e]
  simp only [feed_cons, server_synAckStatus_fail t _ _ _ h1,
    server_synAckRetry_fail t _ _ _ 1 _ h2 (by decide),
    server_synAckRetry_fail t _ _ _ 2 _ h3 (by decide),
    server_synAckRetry_last t _ _ _ 3 _ h4 (by decide),
    feed_fixed (serverStep t) _ (server_exited t _ _ _) rest, Nat.reduceAdd]
  rfl

theorem round1_exhaust (cy : Cycle) (hpc : cy.pc = .receiptStatus) (s1 s2 s3 s4 : List Nat)
    (rest : List (List Nat))
    (h1 : failureSlot s1) (h2 : failureSlot s2) (h3 : failureSlot s3) (h4 : failureSlot s4) :
    (feed cycleStep cy (s1 :: s2 :: s3 :: s4 :: rest)).1.pc = .exited .conn ∧
    (feed cycleStep cy (s1 :: s2 :: s3 :: s4 :: rest)).2.length = 3 ∧
    (framesOf .data (feed cycleStep cy (s1 :: s2 :: s3 :: s4 :: rest)).2).length = 3 := by
  obtain ⟨pc, n, buf, p, h⟩ := cy
  simp only at hpc
  subst hpc
  simp only [feed_cons, cycle_receipt_fail _ _ _ _ _ h1,
    cycle_receiptRetry_fail _ _ _ _ _ 1 _ h2 (by decide),
    cycle_receiptRetry_fail _ _ _ _ _ 2 _ h3 (by decide),
    cycle_receiptRetry_last _ _ _ _ _ 3 _ h4 (by decide),
    feed_fixed cycleStep _ (cycle_exited _ _ _ _ _) rest, Nat.reduceAdd]
  simp [framesOf]

theorem round2_exhaust (cy : Cycle) (hpc : cy.pc = .integrityStatus) (s1 s2 s3 s4 : List Nat)
    (rest : List (List Nat))
    (h1 : failureSlot s1) (h2 : failureSlot s2) (h3 : failureSlot s3) (h4 : failureSlot s4) :
    (feed cycleStep cy (s1 :: s2 :: s3 :: s4 :: rest)).1.pc = .exited .conn ∧
    (feed cycleStep cy (s1 :: s2 :: s3 :: s4 :: rest)).2.length = 3 ∧
    (framesOf .data (feed cycleStep cy (s1 :: s2 :: s3 :: s4 :: rest)).2).length = 3 := by
  obtain ⟨pc, n, buf, p, h⟩ := cy
  simp only at hpc
  subst hpc
  simp only [feed_cons, cycle_integrity_fail _ _ _ _ _ h1,
    cycle_integrityRetry_fail _ _ _ _ _ 1 _ h2 (by decide),
    cycle_integrityRetry_fail _ _ _ _ _ 2 _ h3 (by decide),
    cycle_integrityRetry_last _ _ _ _ _ 3 _ h4 (by decide),
    feed_fixed cycleStep _ (cycle_exited _ _ _ _ _) rest, Nat.reduceAdd]
  simp [framesOf]


theorem statusSlot_length (ok : Bool) : (statusSlot ok).length = SHAKESIZE := by
  unfold statusSlot
  rw [List.length_cons, List.length_replicate]
  rfl

theorem failureSlot_statusSlot : failureSlot (statusSlot false) :=
  ⟨statusSlot_length false, by decide⟩

theorem successSlot_statusSlot : successSlot (statusSlot true) :=
  ⟨statusSlot_length true, by decide⟩

/-- C9: in each of the five sender-side retry loops (client SYN, server SYN-ACK, client
ACK, server Round 1, server Round 2), when every status slot the sender reads is a
failure, the sender writes the frame again exactly `MAX_RETRANSM = 3` times, which makes
`1 + MAX_RETRANSM = 4` transmissions in all, and then ends the connection: the client by
`close(sockfd); exit(0)`, the server by `exit(0)` after closing a descriptor. Nothing is
written after that, whatever further slots (`rest`) are waiting. -/
theorem retry_exhaustion (t : Target) (s1 s2 s3 s4 : List Nat) (rest : List (List Nat))
    (h1 : failureSlot s1) (h2 : failureSlot s2) (h3 : failureSlot s3) (h4 : failureSlot s4)
    (chbuffer chmsg : List Nat) (cs ln : Nat) (hm : chmsg.length = SHAKESIZE)
    (sv : ServerConn) (cl : Client) (hcl : cl.hmsg.length = SHAKESIZE)
    (sh : capshdr) (block after msg : List Nat) (cy : Cycle) (o0 : List Out)
    (hstart : cycleStart t sh block after msg = some (cy, o0))
    (ok : List Nat) (hok : successSlot ok) :
    ((feed clientStep (clientStart chbuffer chmsg cs ln).1 (s1 :: s2 :: s3 :: s4 :: rest)).1.pc
        = .closed ∧
     (feed clientStep (clientStart chbuffer chmsg cs ln).1 (s1 :: s2 :: s3 :: s4 :: rest)).2
        = List.replicate MAX_RETRANSM
            (.frame .syn (shakeFrame (clientStart chbuffer chmsg cs ln).1.chandshake)) ∧
     (framesOf .syn ((clientStart chbuffer chmsg cs ln).2 ++
        (feed clientStep (clientStart chbuffer chmsg cs ln).1
          (s1 :: s2 :: s3 :: s4 :: rest)).2)).length = 1 + MAX_RETRANSM) ∧
    ((feed (serverStep t) (serverSynAckPhase sv).1 (s1 :: s2 :: s3 :: s4 :: rest)).1.pc
        = .exited .master ∧
     (feed (serverStep t) (serverSynAckPhase sv).1 (s1 :: s2 :: s3 :: s4 :: rest)).2
        = List.replicate MAX_RETRANSM
            (.frame .synAck (shakeFrame (serverSynAckPhase sv).1.shandshake)) ∧
     (framesOf .synAck ((serverSynAckPhase sv).2 ++
        (feed (serverStep t) (serverSynAckPhase sv).1
          (s1 :: s2 :: s3 :: s4 :: rest)).2)).length = 1 + MAX_RETRANSM) ∧
    ((feed clientStep (clientAckPhase cl).1 (s1 :: s2 :: s3 :: s4 :: rest)).1.pc = .closed ∧
     (feed clientStep (clientAckPhase cl).1 (s1 :: s2 :: s3 :: s4 :: rest)).2
        = List.replicate MAX_RETRANSM
            (.frame .ack (shakeFrame (clientAckPhase cl).1.chandshake)) ∧
     (framesOf .ack ((clientAckPhase cl).2 ++
        (feed clientStep (clientAckPhase cl).1
          (s1 :: s2 :: s3 :: s4 :: rest)).2)).length = 1 + MAX_RETRANSM) ∧
    ((feed cycleStep cy (s1 :: s2 :: s3 :: s4 :: rest)).1.pc = .exited .conn ∧
     (feed cycleStep cy (s1 :: s2 :: s3 :: s4 :: rest)).2.length = MAX_RETRANSM ∧
     (framesOf .data (o0 ++ (feed cycleStep cy (s1 :: s2 :: s3 :: s4 :: rest)).2)).length
        = 1 + MAX_RETRANSM) ∧
    ((feed cycleStep cy (ok :: s1 :: s2 :: s3 :: s4 :: rest)).1.pc = .exited .conn ∧
     (feed cycleStep cy (ok :: s1 :: s2 :: s3 :: s4 :: rest)).2.length = MAX_RETRANSM ∧
     (framesOf .data (o0 ++ (feed cycleStep cy (ok :: s1 :: s2 :: s3 :: s4 :: rest)).2)).length
        = 1 + MAX_RETRANSM) := by
  have hM : MAX_RETRANSM = 3 := rfl
  obtain ⟨hpc, f0, ho⟩ := cycleStart_some t sh block after msg cy o0 hstart
  refine ⟨?_, ?_, ?_, ?_, ?_⟩
  · rw [client_syn_exhaust chbuffer chmsg cs ln s1 s2 s3 s4 rest hm h1 h2 h3 h4, hM]
    exact ⟨rfl, rfl, by simp [clientStart, framesOf]⟩
  · rw [server_synAck_exhaust t sv s1 s2 s3 s4 rest h1 h2 h3 h4, hM]
    exact ⟨rfl, rfl, by simp [serverSynAckPhase, framesOf]⟩
  · rw [client_ack_exhaust cl s1 s2 s3 s4 rest hcl h1 h2 h3 h4, hM]
    exact ⟨rfl, rfl, by simp [clientAckPhase, framesOf]⟩
  · obtain ⟨r1, r2, r3⟩ := round1_exhaust cy hpc s1 s2 s3 s4 rest h1 h2 h3 h4
    refine ⟨r1, by rw [r2, hM], ?_⟩
    rw [ho, hM]
    have e : framesOf .data ([Out.frame .data f0] ++
        (feed cycleStep cy (s1 :: s2 :: s3 :: s4 :: rest)).2)
        = f0 :: framesOf .data (feed cycleStep cy (s1 :: s2 :: s3 :: s4 :: rest)).2 := by
      simp [framesOf]
    rw [e, List.length_cons, r3]
  · obtain ⟨pc, n, buf, p, h⟩ := cy
    simp only at hpc
    subst hpc
    rw [feed_cons, cycle_receipt_ok _ _ _ _ _ hok]
    obtain ⟨r1, r2, r3⟩ := round2_exhaust ⟨.integrityStatus, n, buf, p, h⟩ rfl s1 s2 s3 s4 rest
      h1 h2 h3 h4
    refine ⟨r1, by simp only [List.nil_append]; rw [r2, hM], ?_⟩
    rw [ho, hM]
    have e : framesOf .data ([Out.frame .data f0] ++ ([] ++
        (feed cycleStep ⟨.integrityStatus, n, buf, p, h⟩ (s1 :: s2 :: s3 :: s4 :: rest)).2))
        = f0 :: framesOf .data
            (feed cycleStep ⟨.integrityStatus, n, buf, p, h⟩ (s1 :: s2 :: s3 :: s4 :: rest)).2 := by
      simp [framesOf]
    rw [e, List.length_cons, r3]

/-- Witness for C9: the failure slot that the peers write (`"0"`), five times over, against
the client's SYN loop, the server's SYN-ACK loop and the delivery of "hello". -/
theorem retry_exhaustion_witness :
    failureSlot (statusSlot false) ∧
    (feed clientStep (clientStart (List.replicate 256 0) (List.replicate 256 0) 0 0).1
      [statusSlot false, statusSlot false, statusSlot false, statusSlot false,
       statusSlot false]).1.pc = .closed ∧
    (feed (serverStep x86) (serverSynAckPhase (serverStart shEstablished [])).1
      [statusSlot false, statusSlot false, statusSlot false, statusSlot false,
       statusSlot false]).1.pc = .exited .master :=
  have h := retry_exhaustion x86 (statusSlot false) (statusSlot false) (statusSlot false)
    (statusSlot false) [statusSlot false] failureSlot_statusSlot failureSlot_statusSlot
    failureSlot_statusSlot failureSlot_statusSlot (List.replicate 256 0) (List.replicate 256 0)
    0 0 (List.length_replicate 256 0) (serverStart shEstablished [])
    (clientStart (List.replicate 256 0) (List.replicate 256 0) 0 0).1
    (List.length_replicate 256 0) shEstablished (List.replicate 4096 0) [] hello _ _
    cycleStart_hello (statusSlot true) successSlot_statusSlot
  ⟨failureSlot_statusSlot, h.1.1, h.2.1.1⟩

theorem serialize_header_length (buffer : List Nat) (h : capshdr) (hlen : 13 ≤ buffer.length) :
    (serialize_header buffer h).length = buffer.length := by
  rw [serialize_header_eq buffer h hlen, List.length_append, headerBytes_length,
    List.length_drop]
  omega

theorem shakeFrame_length (h : capshdr) : (shakeFrame h).length = SHAKESIZE := by
  unfold shakeFrame
  rw [serialize_header_length _ _ (by rw [List.length_replicate]; decide),
    List.length_replicate]

theorem deserialize_shakeFrame (t : Target) (h : capshdr) (hv : h.valid) :
    deserialize_header t (shakeFrame h) = h := by
  unfold shakeFrame
  rw [serialize_header_eq _ _ (by rw [List.length_replicate]; decide)]
  exact deserialize_headerBytes t h _ hv

theorem scan_one (st : Int) : scanStatus (statusSlot true) st = 1 :=
  scan_success _ st successSlot_statusSlot.2

theorem scan_zero (st : Int) : scanStatus (statusSlot false) st = 0 := by
  have h : sscanf_d (statusSlot false) = some 0 := by decide
  unfold scanStatus
  rw [h]
  rfl

theorem valid_of_garbage (a b c d e cs ln : Nat) (ha : a < 256) (hb : b < 65536)
    (hc : c < 65536) (hd : d < 65536) (he : e < 65536) (hcs : cs < 65536) (hln : ln < 65536) :
    (⟨a, b, c, d, e, cs, ln⟩ : capshdr).valid := ⟨ha, hb, hc, hd, he, hcs, hln⟩


/-! ### Single steps of the handshake on an arbitrary slot -/

theorem server_syn_accept (t : Target) (sh : capshdr) (hb data : List Nat)
    (hd : data.length = SHAKESIZE) (hbl : hb.length ≤ SHAKESIZE)
    (hsyn : (deserialize_header t data).syn = 1) :
    serverStep t ⟨.syn, sh, hb⟩ data =
      ((serverSynAckPhase ⟨.syn, deserialize_header t data, data⟩).1,
       .status (statusSlot true) ::
         (serverSynAckPhase ⟨.syn, deserialize_header t data, data⟩).2) := by
  simp only [serverStep, recvInto_full hb data _ hd hbl, hsyn, if_true]

theorem client_status_ok (ch : capshdr) (hmsg data : List Nat) (hd : successSlot data)
    (hm : hmsg.length ≤ SHAKESIZE) :
    clientStep ⟨.synStatus, ch, hmsg⟩ data = (⟨.synAck, ch, data⟩, []) := by
  simp only [clientStep, recv_cleared hmsg data hd.1 hm, scan_success data 1 hd.2, if_true]

theorem client_synAck_accept (ch : capshdr) (hmsg data : List Nat)
    (hd : data.length = SHAKESIZE) (h1 : unpack_uint16_t data 1 = CLIENT_ISN + 1)
    (h3 : unpack_uint16_t data 3 = 1) :
    clientStep ⟨.synAck, ch, hmsg⟩ data =
      (⟨.ackStatus,
         ⟨ch.version, (unpack_uint16_t data 5 + 1) % 65536, 0, CLIENT_ISN + 1, ch.bufsize,
          ch.checksum, ch.len⟩, statusSlot true⟩,
       [.status (statusSlot true),
        .frame .ack (shakeFrame
          ⟨ch.version, (unpack_uint16_t data 5 + 1) % 65536, 0, CLIENT_ISN + 1, ch.bufsize,
           ch.checksum, ch.len⟩)]) := by
  simp only [clientStep, clientCheckSynAck, recv_zeros data hd, h1, h3, clientAckPhase,
    decide_True, Bool.and_self, if_true]

theorem server_synAckStatus_ok (t : Target) (sh : capshdr) (hb data : List Nat)
    (hd : successSlot data) :
    serverStep t ⟨.synAckStatus, sh, hb⟩ data = (⟨.ack, sh, hb⟩, []) := by
  simp only [serverStep, recv_zeros data hd.1, scan_success data 1 hd.2, if_true]

theorem server_ack_first_reject (t : Target) (sh : capshdr) (hb data : List Nat)
    (hd : data.length = SHAKESIZE) (hbl : hb.length ≤ SHAKESIZE)
    (hack : ((deserialize_header t data).ack + 65535) % 65536 ≠ SERVER_ISN + 1) :
    serverStep t ⟨.ack, sh, hb⟩ data =
      (⟨.ackRetry,
         { deserialize_header t data with
           ack := ((deserialize_header t data).ack + 65535) % 65536 }, data⟩,
       [.status (statusSlot false)]) := by
  simp only [serverStep, recv_cleared hb data hd hbl, hack, if_false]

theorem client_ackStatus_zero (ch : capshdr) (hmsg : List Nat) (hm : hmsg.length ≤ SHAKESIZE) :
    clientStep ⟨.ackStatus, ch, hmsg⟩ (statusSlot false) =
      (⟨.ackStatusRetry 1 0, ch, statusSlot false⟩, [.frame .ack (shakeFrame ch)]) := by
  rw [client_ackStatus_fail ch hmsg _ hm failureSlot_statusSlot, scan_zero]

theorem server_ackRetry_accept (t : Target) (sh : capshdr) (hb data : List Nat)
    (hd : data.length = SHAKESIZE) (hbl : hb.length ≤ SHAKESIZE)
    (hack : (deserialize_header t data).ack = SERVER_ISN + 1) :
    serverStep t ⟨.ackRetry, sh, hb⟩ data =
      (⟨.handshakeDone, deserialize_header t data, data⟩, [.status (statusSlot true)]) := by
  have hne : (data.take SHAKESIZE).length ≠ 0 := by
    rw [List.length_take, hd]; decide
  simp only [serverStep, recv_cleared hb data hd hbl, hack, if_true, if_neg hne]

theorem client_ackRetry_ok (ch : capshdr) (hmsg data : List Nat) (trials : Nat) (st : Int)
    (hd : successSlot data) (hm : hmsg.length ≤ SHAKESIZE) :
    clientStep ⟨.ackStatusRetry trials st, ch, hmsg⟩ data = (⟨.dataExchange, ch, data⟩, []) := by
  simp only [clientStep, recv_cleared hmsg data hd.1 hm, scan_success data st hd.2, if_true]

theorem serverTurn_cons (t : Target) (c : Client) (sv sv2 : ServerConn) (d : List Nat)
    (rest toC : List (List Nat)) (cO sO o : List Out) (h : serverStep t sv d = (sv2, o)) :
    serverTurn t ⟨c, sv, d :: rest, toC, cO, sO⟩
      = some ⟨c, sv2, rest, toC ++ o.map Out.bytes, cO, sO ++ o⟩ := by
  simp only [serverTurn, h]

theorem clientTurn_cons (c c2 : Client) (sv : ServerConn) (d : List Nat)
    (rest toS : List (List Nat)) (cO sO o : List Out) (h : clientStep c d = (c2, o)) :
    clientTurn ⟨c, sv, toS, d :: rest, cO, sO⟩
      = some ⟨c2, sv, toS ++ o.map Out.bytes, rest, cO ++ o, sO⟩ := by
  simp only [clientTurn, h]

theorem unpack_shakeFrame (h : capshdr) (hv : h.valid) :
    unpack_uint16_t (shakeFrame h) 1 = h.ack ∧ unpack_uint16_t (shakeFrame h) 3 = h.syn ∧
    unpack_uint16_t (shakeFrame h) 5 = h.seq := by
  have e := deserialize_shakeFrame x86 h hv
  exact ⟨congrArg capshdr.ack e, congrArg capshdr.syn e, congrArg capshdr.seq e⟩

theorem stage_step0 (t : Target) (chbuffer chmsg shbuffer : List Nat) (cs ln : Nat)
    (sh0 : capshdr) (hcb : chbuffer.length = SHAKESIZE) (hsb : shbuffer.length = SHAKESIZE)
    (hcs : cs < 65536) (hln : ln < 65536) :
    serverTurn t (handshakeStage chbuffer chmsg shbuffer cs ln sh0 0)
      = some (handshakeStage chbuffer chmsg shbuffer cs ln sh0 1) := by
  have hS : SHAKESIZE = 256 := rfl
  have hv : (⟨1, 0, 1, 1001, 4096, cs, ln⟩ : capshdr).valid :=
    valid_of_garbage _ _ _ _ _ _ _ (by decide) (by decide) (by decide) (by decide) (by decide)
      hcs hln
  have hl : (serialize_header chbuffer ⟨1, 0, 1, 1001, 4096, cs, ln⟩).length = SHAKESIZE := by
    rw [serialize_header_length _ _ (by omega), hcb]
  have hd : deserialize_header t (serialize_header chbuffer ⟨1, 0, 1, 1001, 4096, cs, ln⟩)
      = ⟨1, 0, 1, 1001, 4096, cs, ln⟩ := by
    rw [serialize_header_eq _ _ (by omega)]
    exact deserialize_headerBytes t _ _ hv
  have hstep := server_syn_accept t sh0 shbuffer _ hl (le_of_eq hsb) (by rw [hd])
  rw [hd] at hstep
  simp only [handshakeStage]
  rw [serverTurn_cons t _ _ _ _ _ _ _ _ _ hstep]
  rfl

theorem stage_step1 (chbuffer chmsg shbuffer : List Nat) (cs ln : Nat)
    (sh0 : capshdr) (hcm : chmsg.length = SHAKESIZE) :
    clientTurn (handshakeStage chbuffer chmsg shbuffer cs ln sh0 1)
      = some (handshakeStage chbuffer chmsg shbuffer cs ln sh0 2) := by
  simp only [handshakeStage]
  rw [clientTurn_cons _ _ _ _ _ _ _ _ _
    (client_status_ok _ chmsg _ successSlot_statusSlot (le_of_eq hcm))]
  rfl

theorem stage_step2 (chbuffer chmsg shbuffer : List Nat) (cs ln : Nat)
    (sh0 : capshdr) (hcs : cs < 65536) (hln : ln < 65536) :
    clientTurn (handshakeStage chbuffer chmsg shbuffer cs ln sh0 2)
      = some (handshakeStage chbuffer chmsg shbuffer cs ln sh0 3) := by
  have hv : (⟨1, 1002, 1, 2001, 4096, cs, ln⟩ : capshdr).valid :=
    valid_of_garbage _ _ _ _ _ _ _ (by decide) (by decide) (by decide) (by decide) (by decide)
      hcs hln
  have hu := unpack_shakeFrame _ hv
  have hstep := client_synAck_accept ⟨1, 0, 1, 1001, 4096, cs, ln⟩ (statusSlot true) _
    (shakeFrame_length ⟨1, 1002, 1, 2001, 4096, cs, ln⟩) hu.1 hu.2.1
  rw [hu.2.2] at hstep
  simp only [handshakeStage]
  rw [clientTurn_cons _ _ _ _ _ _ _ _ _ hstep]
  rfl

theorem stage_step3 (t : Target) (chbuffer chmsg shbuffer : List Nat) (cs ln : Nat)
    (sh0 : capshdr) :
    serverTurn t (handshakeStage chbuffer chmsg shbuffer cs ln sh0 3)
      = some (handshakeStage chbuffer chmsg shbuffer cs ln sh0 4) := by
  simp only [handshakeStage]
  rw [serverTurn_cons t _ _ _ _ _ _ _ _ _
    (server_synAckStatus_ok t _ _ _ successSlot_statusSlot)]
  rfl

theorem stage_step4 (t : Target) (chbuffer chmsg shbuffer : List Nat) (cs ln : Nat)
    (sh0 : capshdr) (hcs : cs < 65536) (hln : ln < 65536) :
    serverTurn t (handshakeStage chbuffer chmsg shbuffer cs ln sh0 4)
      = some (handshakeStage chbuffer chmsg shbuffer cs ln sh0 5) := by
  have hv : (⟨1, 2002, 0, 1002, 4096, cs, ln⟩ : capshdr).valid :=
    valid_of_garbage _ _ _ _ _ _ _ (by decide) (by decide) (by decide) (by decide) (by decide)
      hcs hln
  have hd := deserialize_shakeFrame t _ hv
  have hstep := server_ack_first_reject t ⟨1, 1002, 1, 2001, 4096, cs, ln⟩
    (shakeFrame ⟨1, 1002, 1, 2001, 4096, cs, ln⟩) _ (shakeFrame_length _)
    (le_of_eq (shakeFrame_length _))
    (by rw [hd]; show (2002 + 65535) % 65536 ≠ 2001 + 1; decide)
  rw [hd] at hstep
  simp only [handshakeStage]
  rw [serverTurn_cons t _ _ _ _ _ _ _ _ _ hstep]
  simp only [List.map, Out.bytes, List.nil_append, List.cons_append, List.append_nil]

theorem stage_step5 (chbuffer chmsg shbuffer : List Nat) (cs ln : Nat) (sh0 : capshdr) :
    clientTurn (handshakeStage chbuffer chmsg shbuffer cs ln sh0 5)
      = some (handshakeStage chbuffer chmsg shbuffer cs ln sh0 6) := by
  simp only [handshakeStage]
  rw [clientTurn_cons _ _ _ _ _ _ _ _ _
    (client_ackStatus_zero _ _ (le_of_eq (statusSlot_length true)))]
  rfl

theorem stage_step6 (t : Target) (chbuffer chmsg shbuffer : List Nat) (cs ln : Nat)
    (sh0 : capshdr) (hcs : cs < 65536) (hln : ln < 65536) :
    serverTurn t (handshakeStage chbuffer chmsg shbuffer cs ln sh0 6)
      = some (handshakeStage chbuffer chmsg shbuffer cs ln sh0 7) := by
  have hv : (⟨1, 2002, 0, 1002, 4096, cs, ln⟩ : capshdr).valid :=
    valid_of_garbage _ _ _ _ _ _ _ (by decide) (by decide) (by decide) (by decide) (by decide)
      hcs hln
  have hd := deserialize_shakeFrame t _ hv
  have hstep := server_ackRetry_accept t ⟨1, 2001, 0, 1002, 4096, cs, ln⟩
    (shakeFrame ⟨1, 2002, 0, 1002, 4096, cs, ln⟩) _ (shakeFrame_length _)
    (le_of_eq (shakeFrame_length _)) (by rw [hd]; rfl)
  rw [hd] at hstep
  simp only [handshakeStage]
  rw [serverTurn_cons t _ _ _ _ _ _ _ _ _ hstep]
  rfl

theorem stage_step7 (chbuffer chmsg shbuffer : List Nat) (cs ln : Nat) (sh0 : capshdr) :
    clientTurn (handshakeStage chbuffer chmsg shbuffer cs ln sh0 7)
      = some (handshakeStage chbuffer chmsg shbuffer cs ln sh0 8) := by
  simp only [handshakeStage]
  rw [clientTurn_cons _ _ _ _ _ _ _ _ _
    (client_ackRetry_ok _ _ _ 1 0 successSlot_statusSlot (le_of_eq (statusSlot_length false)))]
  rfl

theorem sysStart_eq_stage (chbuffer chmsg shbuffer : List Nat) (cs ln : Nat) (sh0 : capshdr) :
    sysStart chbuffer chmsg cs ln sh0 shbuffer
      = handshakeStage chbuffer chmsg shbuffer cs ln sh0 0 := rfl

theorem stage_sched_step (t : Target) (chbuffer chmsg shbuffer : List Nat) (cs ln : Nat)
    (sh0 : capshdr) (hcb : chbuffer.length = SHAKESIZE) (hcm : chmsg.length = SHAKESIZE)
    (hsb : shbuffer.length = SHAKESIZE) (hcs : cs < 65536) (hln : ln < 65536)
    (b : Bool) (i : Nat) (hi : i ≤ 8) :
    ∃ j, i ≤ j ∧ j ≤ 8 ∧
      runSched t [b] (handshakeStage chbuffer chmsg shbuffer cs ln sh0 i)
        = handshakeStage chbuffer chmsg shbuffer cs ln sh0 j := by
  have stay : ∀ k, k ≤ 8 → ∀ s, s = handshakeStage chbuffer chmsg shbuffer cs ln sh0 k →
      ∃ j, k ≤ j ∧ j ≤ 8 ∧ s = handshakeStage chbuffer chmsg shbuffer cs ln sh0 j :=
    fun k hk s hs => ⟨k, Nat.le_refl k, hk, hs⟩
  interval_cases i <;> cases b
  · exact stay 0 (by decide) _ rfl
  · exact ⟨1, by decide, by decide, by
      simp only [runSched, stage_step0 t chbuffer chmsg shbuffer cs ln sh0 hcb hsb hcs hln,
        Option.getD_some]⟩
  · exact ⟨2, by decide, by decide, by
      simp only [runSched, stage_step1 chbuffer chmsg shbuffer cs ln sh0 hcm, Option.getD_some]⟩
  · exact stay 1 (by decide) _ rfl
  · exact ⟨3, by decide, by decide, by
      simp only [runSched, stage_step2 chbuffer chmsg shbuffer cs ln sh0 hcs hln,
        Option.getD_some]⟩
  · exact stay 2 (by decide) _ rfl
  · exact stay 3 (by decide) _ rfl
  · exact ⟨4, by decide, by decide, by
      simp only [runSched, stage_step3 t chbuffer chmsg shbuffer cs ln sh0, Option.getD_some]⟩
  · exact stay 4 (by decide) _ rfl
  · exact ⟨5, by decide, by decide, by
      simp only [runSched, stage_step4 t chbuffer chmsg shbuffer cs ln sh0 hcs hln,
        Option.getD_some]⟩
  · exact ⟨6, by decide, by decide, by
      simp only [runSched, stage_step5 chbuffer chmsg shbuffer cs ln sh0, Option.getD_some]⟩
  · exact stay 5 (by decide) _ rfl
  · exact stay 6 (by decide) _ rfl
  · exact ⟨7, by decide, by decide, by
      simp only [runSched, stage_step6 t chbuffer chmsg shbuffer cs ln sh0 hcs hln,
        Option.getD_some]⟩
  · exact ⟨8, by decide, by decide, by
      simp only [runSched, stage_step7 chbuffer chmsg shbuffer cs ln sh0, Option.getD_some]⟩
  · exact stay 7 (by decide) _ rfl
  · exact stay 8 (by decide) _ rfl
  · exact stay 8 (by decide) _ rfl

theorem runSched_cons (t : Target) (b : Bool) (rest : List Bool) (s : Sys) :
    runSched t (b :: rest) s = runSched t rest (runSched t [b] s) := by
  cases b <;> rfl

theorem stage_sched (t : Target) (chbuffer chmsg shbuffer : List Nat) (cs ln : Nat)
    (sh0 : capshdr) (hcb : chbuffer.length = SHAKESIZE) (hcm : chmsg.length = SHAKESIZE)
    (hsb : shbuffer.length = SHAKESIZE) (hcs : cs < 65536) (hln : ln < 65536)
    (sched : List Bool) :
    ∀ i, i ≤ 8 → ∃ j, i ≤ j ∧ j ≤ 8 ∧
      runSched t sched (handshakeStage chbuffer chmsg shbuffer cs ln sh0 i)
        = handshakeStage chbuffer chmsg shbuffer cs ln sh0 j := by
  induction sched with
  | nil => exact fun i hi => ⟨i, Nat.le_refl i, hi, rfl⟩
  | cons b rest ih =>
    intro i hi
    obtain ⟨j, hij, hj, e⟩ :=
      stage_sched_step t chbuffer chmsg shbuffer cs ln sh0 hcb hcm hsb hcs hln b i hi
    obtain ⟨k, hjk, hk, e2⟩ := ih j hj
    exact ⟨k, Nat.le_trans hij hjk, hk, by rw [runSched_cons, e, e2]⟩

theorem stage_facts (chbuffer chmsg shbuffer : List Nat) (cs ln : Nat) (sh0 : capshdr)
    (j : Nat) (hj : j ≤ 8) :
    (handshakeStage chbuffer chmsg shbuffer cs ln sh0 j).client.pc ≠ .closed ∧
    (∀ fd, (handshakeStage chbuffer chmsg shbuffer cs ln sh0 j).server.pc ≠ .exited fd) ∧
    (framesOf .syn (handshakeStage chbuffer chmsg shbuffer cs ln sh0 j).clientOut).length
      ≤ 1 + MAX_RETRANSM ∧
    (framesOf .synAck (handshakeStage chbuffer chmsg shbuffer cs ln sh0 j).serverOut).length
      ≤ 1 + MAX_RETRANSM ∧
    (framesOf .ack (handshakeStage chbuffer chmsg shbuffer cs ln sh0 j).clientOut).length
      ≤ 1 + MAX_RETRANSM ∧
    ((handshakeStage chbuffer chmsg shbuffer cs ln sh0 j).quiet →
      (handshakeStage chbuffer chmsg shbuffer cs ln sh0 j).client.pc = .dataExchange ∧
      (handshakeStage chbuffer chmsg shbuffer cs ln sh0 j).server.pc = .handshakeDone) := by
  interval_cases j <;>
    simp [handshakeStage, framesOf, Sys.quiet, MAX_RETRANSM]

theorem runSched_append (t : Target) (a b : List Bool) (s : Sys) :
    runSched t (a ++ b) s = runSched t b (runSched t a s) := by
  induction a generalizing s with
  | nil => rfl
  | cons x a ih => rw [List.cons_append, runSched_cons, ih, runSched_cons t x a s]

theorem run_server (t : Target) (rest : List Bool) (s s2 : Sys)
    (h : serverTurn t s = some s2) : runSched t (true :: rest) s = runSched t rest s2 := by
  rw [runSched, h, Option.getD_some]

theorem run_client (t : Target) (rest : List Bool) (s s2 : Sys)
    (h : clientTurn s = some s2) : runSched t (false :: rest) s = runSched t rest s2 := by
  rw [runSched, h, Option.getD_some]


theorem stage_completes (t : Target) (chbuffer chmsg shbuffer : List Nat) (cs ln : Nat)
    (sh0 : capshdr) (hcb : chbuffer.length = SHAKESIZE) (hcm : chmsg.length = SHAKESIZE)
    (hsb : shbuffer.length = SHAKESIZE) (hcs : cs < 65536) (hln : ln < 65536)
    (j : Nat) (hj : j ≤ 8) :
    runSched t (handshakeTurns.drop j) (handshakeStage chbuffer chmsg shbuffer cs ln sh0 j)
      = handshakeStage chbuffer chmsg shbuffer cs ln sh0 8 := by
  have c8 : runSched t [] (handshakeStage chbuffer chmsg shbuffer cs ln sh0 8)
      = handshakeStage chbuffer chmsg shbuffer cs ln sh0 8 := rfl
  have c7 : runSched t [false] (handshakeStage chbuffer chmsg shbuffer cs ln sh0 7)
      = handshakeStage chbuffer chmsg shbuffer cs ln sh0 8 := by
    rw [run_client t _ _ _ (stage_step7 chbuffer chmsg shbuffer cs ln sh0)]; exact c8
  have c6 : runSched t [true, false] (handshakeStage chbuffer chmsg shbuffer cs ln sh0 6)
      = handshakeStage chbuffer chmsg shbuffer cs ln sh0 8 := by
    rw [run_server t _ _ _ (stage_step6 t chbuffer chmsg shbuffer cs ln sh0 hcs hln)]; exact c7
  have c5 : runSched t [false, true, false]
      (handshakeStage chbuffer chmsg shbuffer cs ln sh0 5)
      = handshakeStage chbuffer chmsg shbuffer cs ln sh0 8 := by
    rw [run_client t _ _ _ (stage_step5 chbuffer chmsg shbuffer cs ln sh0)]; exact c6
  have c4 : runSched t [true, false, true, false]
      (handshakeStage chbuffer chmsg shbuffer cs ln sh0 4)
      = handshakeStage chbuffer chmsg shbuffer cs ln sh0 8 := by
    rw [run_server t _ _ _ (stage_step4 t chbuffer chmsg shbuffer cs ln sh0 hcs hln)]; exact c5
  have c3 : runSched t [true, true, false, true, false]
      (handshakeStage chbuffer chmsg shbuffer cs ln sh0 3)
      = handshakeStage chbuffer chmsg shbuffer cs ln sh0 8 := by
    rw [run_server t _ _ _ (stage_step3 t chbuffer chmsg shbuffer cs ln sh0)]; exact c4
  have c2 : runSched t [false, true, true, false, true, false]
      (handshakeStage chbuffer chmsg shbuffer cs ln sh0 2)
      = handshakeStage chbuffer chmsg shbuffer cs ln sh0 8 := by
    rw [run_client t _ _ _ (stage_step2 chbuffer chmsg shbuffer cs ln sh0 hcs hln)]; exact c3
  have c1 : runSched t [false, false, true, true, false, true, false]
      (handshakeStage chbuffer chmsg shbuffer cs ln sh0 1)
      = handshakeStage chbuffer chmsg shbuffer cs ln sh0 8 := by
    rw [run_client t _ _ _ (stage_step1 chbuffer chmsg shbuffer cs ln sh0 hcm)]; exact c2
  have c0 : runSched t [true, false, false, true, true, false, true, false]
      (handshakeStage chbuffer chmsg shbuffer cs ln sh0 0)
      = handshakeStage chbuffer chmsg shbuffer cs ln sh0 8 := by
    rw [run_server t _ _ _ (stage_step0 t chbuffer chmsg shbuffer cs ln sh0 hcb hsb hcs hln)]
    exact c1
  interval_cases j
  · exact c0
  · exact c1
  · exact c2
  · exact c3
  · exact c4
  · exact c5
  · exact c6
  · exact c7
  · exact c8

/-- C8: when this client and this server run the three-phase handshake against each
other over a lossless in-order transport, both sides reach the established state: along the
schedule `handshakeTurns` the client gets to the data exchange and the server to the point
where it registers the connection, with nothing left unread. Whatever the schedule, no side
closes or exits, no frame (SYN, SYN-ACK, ACK) is transmitted more than
`1 + MAX_RETRANSM = 4` times, a state in which both sides are blocked with nothing to read
is the established one, and the run can always be completed to it. The values that the C
code leaves undetermined (the fresh buffers, the two unset header fields) are arbitrary. -/
theorem handshake_establishes (t : Target) (chbuffer chmsg shbuffer : List Nat) (cs ln : Nat)
    (sh0 : capshdr) (hcb : chbuffer.length = SHAKESIZE) (hcm : chmsg.length = SHAKESIZE)
    (hsb : shbuffer.length = SHAKESIZE) (hcs : cs < 65536) (hln : ln < 65536) :
    ((runSched t handshakeTurns (sysStart chbuffer chmsg cs ln sh0 shbuffer)).client.pc
        = .dataExchange ∧
     (runSched t handshakeTurns (sysStart chbuffer chmsg cs ln sh0 shbuffer)).server.pc
        = .handshakeDone ∧
     (runSched t handshakeTurns (sysStart chbuffer chmsg cs ln sh0 shbuffer)).quiet) ∧
    ∀ sched s, s = runSched t sched (sysStart chbuffer chmsg cs ln sh0 shbuffer) →
      s.client.pc ≠ .closed ∧ (∀ fd, s.server.pc ≠ .exited fd) ∧
      (framesOf .syn s.clientOut).length ≤ 1 + MAX_RETRANSM ∧
      (framesOf .synAck s.serverOut).length ≤ 1 + MAX_RETRANSM ∧
      (framesOf .ack s.clientOut).length ≤ 1 + MAX_RETRANSM ∧
      (s.quiet → s.client.pc = .dataExchange ∧ s.server.pc = .handshakeDone) ∧
      ∃ more, (runSched t more s).client.pc = .dataExchange ∧
        (runSched t more s).server.pc = .handshakeDone ∧ (runSched t more s).quiet := by
  have hfin : ∀ s, s = handshakeStage chbuffer chmsg shbuffer cs ln sh0 8 →
      s.client.pc = .dataExchange ∧ s.server.pc = .handshakeDone ∧ s.quiet := by
    intro s hs
    subst hs
    exact ⟨rfl, rfl, rfl, rfl⟩
  constructor
  · apply hfin
    rw [sysStart_eq_stage]
    exact stage_completes t chbuffer chmsg shbuffer cs ln sh0 hcb hcm hsb hcs hln 0 (by decide)
  · intro sched s hs
    rw [sysStart_eq_stage] at hs
    obtain ⟨j, -, hj, e⟩ :=
      stage_sched t chbuffer chmsg shbuffer cs ln sh0 hcb hcm hsb hcs hln sched 0 (by decide)
    rw [e] at hs
    subst hs
    obtain ⟨f1, f2, f3, f4, f5, f6⟩ := stage_facts chbuffer chmsg shbuffer cs ln sh0 j hj
    exact ⟨f1, f2, f3, f4, f5, f6, handshakeTurns.drop j,
      hfin _ (stage_completes t chbuffer chmsg shbuffer cs ln sh0 hcb hcm hsb hcs hln j hj)⟩


/-- Witness for C8: buffers filled with junk and junk in the two unset header fields. -/
theorem handshake_establishes_witness :
    (runSched x86 handshakeTurns
      (sysStart (List.replicate 256 170) (List.replicate 256 170) 12345 54321
        ⟨0, 0, 0, 0, 0, 0, 0⟩ (List.replicate 256 85))).client.pc = .dataExchange ∧
    (runSched x86 handshakeTurns
      (sysStart (List.replicate 256 170) (List.replicate 256 170) 12345 54321
        ⟨0, 0, 0, 0, 0, 0, 0⟩ (List.replicate 256 85))).server.pc = .handshakeDone :=
  have h := handshake_establishes x86 (List.replicate 256 170) (List.replicate 256 170)
    (List.replicate 256 85) 12345 54321 ⟨0, 0, 0, 0, 0, 0, 0⟩ (List.length_replicate 256 170)
    (List.length_replicate 256 170) (List.length_replicate 256 85) (by decide) (by decide)
  ⟨h.1.1, h.1.2.1⟩

/-! ## The data frame of a delivery cycle -/

theorem strlen_some (l : List Nat) (k : Nat) (h : strlen l = some k) :
    ∃ pre rest, l = pre ++ 0 :: rest ∧ pre.length = k ∧ ∀ x ∈ pre, x ≠ 0 := by
  induction l generalizing k with
  | nil => simp [strlen] at h
  | cons a l ih =>
    rw [strlen] at h
    by_cases ha : a = 0
    · rw [if_pos ha] at h
      refine ⟨[], l, by simp [ha], ?_, by simp⟩
      have hk : 0 = k := by simpa using h
      rw [← hk]; rfl
    · rw [if_neg ha] at h
      cases hs : strlen l with
      | none => rw [hs] at h; simp at h
      | some j =>
        rw [hs] at h
        have hk : j + 1 = k := by simpa using h
        obtain ⟨pre, rest, e, hl, hnz⟩ := ih j hs
        refine ⟨a :: pre, rest, by rw [e]; rfl, by simp [hl, hk], ?_⟩
        intro x hx
        rcases List.mem_cons.mp hx with hxa | hxp
        · rw [hxa]; exact ha
        · exact hnz x hxp

/-- The value of `cycleStart` when the memory at `buffer` reads `pre`, a zero, `rest`. -/
theorem cycleStart_mem (t : Target) (sh : capshdr) (block after msg pre rest : List Nat)
    (hmem : recvInto block sh.bufsize msg ++ after = pre ++ 0 :: rest)
    (hnz : ∀ x ∈ pre, x ≠ 0) :
    cycleStart t sh block after msg =
      if DATASIZE < pre.length + 1 then none
      else if (recvInto block sh.bufsize msg).length < 13 + pre.length then none
      else
        some (⟨.receiptStatus, sh.bufsize,
                headerBytes (echoHeader t sh.bufsize pre) ++ pre ++
                  (recvInto block sh.bufsize msg).drop (13 + pre.length),
                pre ++ [0], echoHeader t sh.bufsize pre⟩,
              [.frame .data
                ((headerBytes (echoHeader t sh.bufsize pre) ++ pre ++
                  (recvInto block sh.bufsize msg).drop (13 + pre.length)).take sh.bufsize)]) := by
  have hD : DATASIZE = 1024 := rfl
  have hstr : strlen (recvInto block sh.bufsize msg ++ after) = some pre.length := by
    rw [hmem]; exact strlen_append_zero pre _ hnz
  have hpay : (recvInto block sh.bufsize msg ++ after).take (pre.length + 1) = pre ++ [0] := by
    rw [hmem]
    have e : pre ++ 0 :: rest = (pre ++ [0]) ++ rest := by simp
    rw [e]
    have hl : (pre ++ [0]).length = pre.length + 1 := by simp
    rw [← hl, take_append_length]
  have hstr2 : strlen (pre ++ [0]) = some pre.length := strlen_append_zero pre [] hnz
  have hcs : ichecksum t (pre ++ [0]) (pre.length : Int) = ichecksum t pre (pre.length : Int) :=
    ichecksum_append t pre [0]
  unfold cycleStart
  simp only [hstr, hpay, hstr2, hcs, Option.bind_eq_bind, Option.some_bind]
  by_cases hbig : DATASIZE < pre.length + 1
  · rw [if_pos hbig, if_pos hbig]
  · rw [if_neg hbig, if_neg hbig]
    have hmod : pre.length % 65536 = pre.length := Nat.mod_eq_of_lt (by omega)
    simp only [hmod]
    by_cases hfit : (recvInto block sh.bufsize msg).length < 13 + pre.length
    · rw [if_pos hfit, if_pos hfit]
    · rw [if_neg hfit, if_neg hfit]
      have hframe : memcpy (serialize_header (recvInto block sh.bufsize msg)
          ⟨1, 0, 0, 0, sh.bufsize, ichecksum t pre (pre.length : Int), pre.length⟩) 13
            (pre ++ [0]) pre.length
          = headerBytes (echoHeader t sh.bufsize pre) ++ pre ++
              (recvInto block sh.bufsize msg).drop (13 + pre.length) := by
        rw [memcpy_serialize _ _ _ _ (by omega), take_append_length]
        rfl
      rw [hframe]
      rfl

theorem cycleStart_none_of_strlen (t : Target) (sh : capshdr) (block after msg : List Nat)
    (h : strlen (recvInto block sh.bufsize msg ++ after) = none) :
    cycleStart t sh block after msg = none := by
  unfold cycleStart
  simp only [h, Option.bind_eq_bind, Option.none_bind]

/-- Every defined `cycleStart` has this shape. -/
theorem cycleStart_inv (t : Target) (sh : capshdr) (block after msg : List Nat) (c : Cycle)
    (o : List Out) (h : cycleStart t sh block after msg = some (c, o)) :
    ∃ pre rest, recvInto block sh.bufsize msg ++ after = pre ++ 0 :: rest ∧
      (∀ x ∈ pre, x ≠ 0) ∧ pre.length < DATASIZE ∧
      13 + pre.length ≤ (recvInto block sh.bufsize msg).length ∧
      c = ⟨.receiptStatus, sh.bufsize,
            headerBytes (echoHeader t sh.bufsize pre) ++ pre ++
              (recvInto block sh.bufsize msg).drop (13 + pre.length),
            pre ++ [0], echoHeader t sh.bufsize pre⟩ ∧
      o = [.frame .data
            ((headerBytes (echoHeader t sh.bufsize pre) ++ pre ++
              (recvInto block sh.bufsize msg).drop (13 + pre.length)).take sh.bufsize)] := by
  cases hs : strlen (recvInto block sh.bufsize msg ++ after) with
  | none => rw [cycleStart_none_of_strlen t sh block after msg hs] at h; simp at h
  | some k =>
    obtain ⟨pre, rest, hmem, -, hnz⟩ := strlen_some _ k hs
    rw [cycleStart_mem t sh block after msg pre rest hmem hnz] at h
    by_cases hbig : DATASIZE < pre.length + 1
    · rw [if_pos hbig] at h; simp at h
    · rw [if_neg hbig] at h
      by_cases hfit : (recvInto block sh.bufsize msg).length < 13 + pre.length
      · rw [if_pos hfit] at h; simp at h
      · rw [if_neg hfit] at h
        simp only [Option.some.injEq, Prod.mk.injEq] at h
        exact ⟨pre, rest, hmem, hnz, by omega, by omega, h.1.symm, h.2.symm⟩

theorem recvInto_length (block msg : List Nat) (n : Nat) (hb : block.length = n) :
    (recvInto block n msg).length = n := by
  unfold recvInto
  rw [List.length_append, List.length_drop, List.length_take]
  omega

theorem frame_parts (h : capshdr) (pre tail : List Nat) (n : Nat)
    (hn : 13 + pre.length ≤ n) :
    ((headerBytes h ++ pre ++ tail).take n).take 13 = headerBytes h ∧
    (((headerBytes h ++ pre ++ tail).take n).drop 13).take pre.length = pre := by
  have h13 : (headerBytes h).length = 13 := headerBytes_length h
  constructor
  · rw [List.take_take, Nat.min_eq_left (by omega), List.append_assoc, ← h13,
      take_append_length]
  · rw [List.drop_take, List.take_take, Nat.min_eq_left (by omega), List.append_assoc,
      ← h13, List.drop_left, take_append_length]

/-! ## Retransmitted data frames -/

theorem cycleStep_keeps (c : Cycle) (d : List Nat) :
    (cycleStep c d).1.bufsize = c.bufsize ∧ (cycleStep c d).1.payload = c.payload ∧
    (cycleStep c d).1.header = c.header ∧
    (((cycleStep c d).1.buffer = c.buffer ∧ (cycleStep c d).2 = []) ∨
     ((cycleStep c d).1.buffer = cycleFrame c ∧
      (cycleStep c d).2 = [.frame .data ((cycleFrame c).take c.bufsize)])) := by
  unfold cycleStep
  cases c.pc <;> dsimp only <;> (try split_ifs) <;> simp

theorem cycleFrame_parts (c : Cycle) (hbuf : c.buffer.length ≤ c.bufsize)
    (hfit : 13 + c.header.len ≤ c.bufsize) (hpay : c.header.len ≤ c.payload.length) :
    ((cycleFrame c).take c.bufsize).take 13 = headerBytes c.header ∧
    (((cycleFrame c).take c.bufsize).drop 13).take c.header.len
      = c.payload.take c.header.len ∧
    (cycleFrame c).length ≤ c.bufsize := by
  have hm : (memset0 c.buffer c.bufsize).length = c.bufsize := memset0_length _ _ hbuf
  have hl : (c.payload.take c.header.len).length = c.header.len := by
    rw [List.length_take]; omega
  have hf : cycleFrame c = headerBytes c.header ++ c.payload.take c.header.len ++
      (memset0 c.buffer c.bufsize).drop (13 + c.header.len) := by
    unfold cycleFrame
    exact memcpy_serialize _ _ _ _ (by omega)
  have hp := frame_parts c.header (c.payload.take c.header.len)
    ((memset0 c.buffer c.bufsize).drop (13 + c.header.len)) c.bufsize (by omega)
  rw [hl] at hp
  rw [hf]
  refine ⟨hp.1, hp.2, ?_⟩
  rw [List.length_append, List.length_append, headerBytes_length, hl, List.length_drop, hm]
  omega

theorem feed_cycle_frames (slots : List (List Nat)) :
    ∀ c : Cycle, c.buffer.length ≤ c.bufsize → 13 + c.header.len ≤ c.bufsize →
      c.header.len ≤ c.payload.length →
      (feed cycleStep c slots).1.bufsize = c.bufsize ∧
      (feed cycleStep c slots).1.payload = c.payload ∧
      (feed cycleStep c slots).1.header = c.header ∧
      ∀ x ∈ (feed cycleStep c slots).2, ∃ f, x = .frame .data f ∧
        f.take 13 = headerBytes c.header ∧
        (f.drop 13).take c.header.len = c.payload.take c.header.len := by
  induction slots with
  | nil =>
    intro c _ _ _
    rw [feed_nil]
    exact ⟨rfl, rfl, rfl, fun x hx => by simp at hx⟩
  | cons d ds ih =>
    intro c hbuf hfit hpay
    have hk := cycleStep_keeps c d
    have hp := cycleFrame_parts c hbuf hfit hpay
    have hbuf1 : (cycleStep c d).1.buffer.length ≤ (cycleStep c d).1.bufsize := by
      rw [hk.1]
      rcases hk.2.2.2 with h | h
      · rw [h.1]; exact hbuf
      · rw [h.1]; exact hp.2.2
    have hi := ih (cycleStep c d).1 hbuf1 (by rw [hk.1, hk.2.2.1]; exact hfit)
      (by rw [hk.2.1, hk.2.2.1]; exact hpay)
    rw [hk.1, hk.2.1, hk.2.2.1] at hi
    rw [feed_cons]
    refine ⟨hi.1, hi.2.1, hi.2.2.1, ?_⟩
    intro x hx
    rcases List.mem_append.mp hx with h1 | h2
    · rcases hk.2.2.2 with h | h
      · rw [h.2] at h1; simp at h1
      · rw [h.2] at h1
        rw [List.mem_singleton] at h1
        exact ⟨_, h1, hp.1, hp.2.1⟩
    · exact hi.2.2.2 x h2

/-- C19: the frames the server writes in the Round 1 and Round 2 retry loops of one
message, whatever the status slots it reads, all carry the 13 header bytes and the `len`
payload bytes at offset 13 of the frame first transmitted for that message; the header
and the payload are the same after the loops as before. -/
theorem retransmissions_identical (t : Target) (sh : capshdr) (block after msg : List Nat)
    (c : Cycle) (f0 : List Nat) (slots : List (List Nat))
    (hblock : block.length = sh.bufsize)
    (h : cycleStart t sh block after msg = some (c, [.frame .data f0])) :
    (feed cycleStep c slots).1.header = c.header ∧
    (feed cycleStep c slots).1.payload = c.payload ∧
    f0.take 13 = headerBytes c.header ∧
    (f0.drop 13).take c.header.len = c.payload.take c.header.len ∧
    ∀ x ∈ (feed cycleStep c slots).2, ∃ f, x = .frame .data f ∧
      f.take 13 = f0.take 13 ∧
      (f.drop 13).take c.header.len = (f0.drop 13).take c.header.len := by
  obtain ⟨pre, rest, -, -, -, hfit, hc, ho⟩ := cycleStart_inv t sh block after msg c _ h
  have hr := recvInto_length block msg sh.bufsize hblock
  rw [hr] at hfit
  have hparts := frame_parts (echoHeader t sh.bufsize pre) pre
    ((recvInto block sh.bufsize msg).drop (13 + pre.length)) sh.bufsize hfit
  simp only [List.cons.injEq, Out.frame.injEq, and_true, true_and] at ho
  have hlenb : c.buffer.length ≤ c.bufsize := by
    rw [hc]
    dsimp only
    rw [List.length_append, List.length_append, headerBytes_length, List.length_drop, hr]
    omega
  have hfit2 : 13 + c.header.len ≤ c.bufsize := by
    rw [hc]; exact hfit
  have hpay : c.header.len ≤ c.payload.length := by
    rw [hc]; dsimp only [echoHeader]; simp
  have hfeed := feed_cycle_frames slots c hlenb hfit2 hpay
  have h0a : f0.take 13 = headerBytes c.header := by
    rw [ho, hc]; exact hparts.1
  have h0b : (f0.drop 13).take c.header.len = c.payload.take c.header.len := by
    rw [ho, hc]
    dsimp only [echoHeader]
    rw [take_append_length]
    exact hparts.2
  refine ⟨hfeed.2.2.1, hfeed.2.1, h0a, h0b, ?_⟩
  intro x hx
  obtain ⟨f, hxf, hf1, hf2⟩ := hfeed.2.2.2 x hx
  exact ⟨f, hxf, by rw [hf1, h0a], by rw [hf2, h0b]⟩

/-- Witness for C19: the three frames retransmitted for "hello" in Round 1. -/
theorem retransmissions_identical_witness :
    (feed cycleStep helloCycle
      [statusSlot false, statusSlot false, statusSlot false, statusSlot false]).2.length = 3 ∧
    ∀ x ∈ (feed cycleStep helloCycle
      [statusSlot false, statusSlot false, statusSlot false, statusSlot false]).2,
      ∃ f, x = .frame .data f ∧ f.take 13 = helloFrame.take 13 ∧
        (f.drop 13).take 5 = (helloFrame.drop 13).take 5 :=
  ⟨(round1_exhaust helloCycle rfl _ _ _ _ [] failureSlot_statusSlot failureSlot_statusSlot
      failureSlot_statusSlot failureSlot_statusSlot).2.1,
   (retransmissions_identical x86 shEstablished (List.replicate 4096 0) [] hello helloCycle
      helloFrame _ (List.length_replicate 4096 0) cycleStart_hello).2.2.2.2⟩

/-! ## The server loop -/

theorem Served.after_nil (r : Served) : r.after [] = r := by
  cases r <;> rfl

theorem servePass_zero (t : Target) (ready : Nat → Option Service) (i : Nat) (m : Mux) :
    servePass t ready 0 i m = .next m [] := rfl

theorem servePass_skip (t : Target) (ready : Nat → Option Service) (n i : Nat) (m : Mux)
    (h : ready i = none) :
    servePass t ready (n + 1) i m = servePass t ready n (i + 1) m := by
  simp only [servePass, h]

theorem servePass_next (t : Target) (ready : Nat → Option Service) (n i : Nat) (m m2 : Mux)
    (sv : Service) (o : List Out) (h : ready i = some sv)
    (hs : serveSlot t m i sv = .next m2 o) :
    servePass t ready (n + 1) i m = (servePass t ready n (i + 1) m2).after o := by
  simp only [servePass, h, hs]

theorem servePass_exited (t : Target) (ready : Nat → Option Service) (n i : Nat) (m : Mux)
    (sv : Service) (fd : Sock) (o : List Out) (h : ready i = some sv)
    (hs : serveSlot t m i sv = .exited fd o) :
    servePass t ready (n + 1) i m = .exited fd o := by
  simp only [servePass, h, hs]

theorem servePass_idle (t : Target) (ready : Nat → Option Service) (n : Nat) :
    ∀ (i : Nat) (m : Mux), (∀ j, i ≤ j → ready j = none) →
      servePass t ready n i m = .next m [] := by
  induction n with
  | zero => intro i m _; rfl
  | succ n ih =>
    intro i m h
    rw [servePass_skip t ready n i m (h i (Nat.le_refl i))]
    exact ih (i + 1) m (fun j hj => h j (by omega))

theorem readyAt_self (i : Nat) (sv : Service) : readyAt i sv i = some sv := by
  simp [readyAt]

theorem readyAt_other (i j : Nat) (sv : Service) (h : j ≠ i) : readyAt i sv j = none := by
  simp [readyAt, h]

/-- A pass in which only slot `i` is ready is the service of slot `i`. -/
theorem servePass_readyAt (t : Target) (i : Nat) (sv : Service) (n : Nat) :
    ∀ (k : Nat) (m : Mux), k ≤ i → i < k + n →
      servePass t (readyAt i sv) n k m = (serveSlot t m i sv).after [] := by
  induction n with
  | zero => intro k m h1 h2; omega
  | succ n ih =>
    intro k m h1 h2
    by_cases hk : k = i
    · subst hk
      cases hs : serveSlot t m k sv with
      | next m2 o =>
        rw [servePass_next t _ n k m m2 sv o (readyAt_self k sv) hs,
          servePass_idle t _ n (k + 1) m2 (fun j hj => readyAt_other k j sv (by omega))]
        simp [Served.after]
      | exited fd o =>
        simp only [servePass, readyAt_self, hs]
        simp [Served.after]
      | stuck o =>
        simp only [servePass, readyAt_self, hs]
        simp [Served.after]
      | undefined =>
        simp only [servePass, readyAt_self, hs]
        simp [Served.after]
    · rw [servePass_skip t _ n k m (readyAt_other i k sv hk)]
      exact ih (k + 1) m (by omega) (by omega)

theorem muxRun_cons_next (t : Target) (m m2 : Mux) (e : Event) (es : List Event)
    (o : List Out) (h : muxIter t m e = .next m2 o) :
    muxRun t m (e :: es) = (muxRun t m2 es).after o := by
  simp only [muxRun, h]

theorem muxRun_cons_exited (t : Target) (m : Mux) (e : Event) (es : List Event) (fd : Sock)
    (o : List Out) (h : muxIter t m e = .exited fd o) :
    muxRun t m (e :: es) = .exited fd o := by
  simp only [muxRun, h]

theorem serveSlot_disconnect (t : Target) (m : Mux) (i : Nat) (sv : Service)
    (h : (sv.data.take m.shandshake.bufsize).length = 0) :
    serveSlot t m i sv = .next { m with client_socket := m.client_socket.set i 0 } [] := by
  simp only [serveSlot, h, if_true]

/-- C18: when the read on the connection of slot `i` returns zero bytes, the server sets
slot `i` to 0 (free) and leaves every other slot, `shandshake` and `hbuffer` as they are;
it runs no delivery cycle (nothing is written) and does not end: the loop over the slots
goes on with slot `i + 1`, and when no other descriptor is ready the server loop goes on
with the next event. -/
theorem disconnect_frees_slot (t : Target) (m : Mux) (i : Nat) (sv : Service)
    (hi : i < m.client_socket.length)
    (h : (sv.data.take m.shandshake.bufsize).length = 0) :
    serveSlot t m i sv = .next { m with client_socket := m.client_socket.set i 0 } [] ∧
    (m.client_socket.set i 0)[i]? = some 0 ∧
    (∀ j, j ≠ i → (m.client_socket.set i 0)[j]? = m.client_socket[j]?) ∧
    (m.client_socket.set i 0).length = m.client_socket.length ∧
    (∀ (ready : Nat → Option Service) (n : Nat), ready i = some sv →
      servePass t ready (n + 1) i m
        = servePass t ready n (i + 1) { m with client_socket := m.client_socket.set i 0 }) ∧
    (i < max_clients → ∀ es : List Event,
      muxRun t m (.activity (readyAt i sv) :: es)
        = muxRun t { m with client_socket := m.client_socket.set i 0 } es) := by
  have hs := serveSlot_disconnect t m i sv h
  refine ⟨hs, ?_, ?_, ?_, ?_, ?_⟩
  · simp [hi]
  · intro j hj
    exact List.getElem?_set_ne (Ne.symm hj)
  · simp
  · intro ready n hr
    rw [servePass_next t ready n i m _ sv [] hr hs, Served.after_nil]
  · intro hmax es
    have hp : muxIter t m (.activity (readyAt i sv))
        = .next { m with client_socket := m.client_socket.set i 0 } [] := by
      show servePass t (readyAt i sv) max_clients 0 m = _
      rw [servePass_readyAt t i sv max_clients 0 m (Nat.zero_le i) (by omega), hs]
      rfl
    rw [muxRun_cons_next t m _ _ es [] hp, Served.after_nil]

/-- Witness for C18: the connection of slot 0 is closed by its peer. -/
theorem disconnect_frees_slot_witness :
    serveSlot x86 muxTwo 0 ⟨[], [], [], []⟩
      = .next { muxTwo with client_socket := 0 :: 5 :: List.replicate 28 0 } [] ∧
    muxRun x86 muxTwo [.activity (readyAt 0 ⟨[], [], [], []⟩)]
      = .next { muxTwo with client_socket := 0 :: 5 :: List.replicate 28 0 } [] :=
  have h := disconnect_frees_slot x86 muxTwo 0 ⟨[], [], [], []⟩ (by decide) rfl
  ⟨h.1, h.2.2.2.2.2 (by decide) []⟩

/-! ## Exhausted retransmissions in the server loop -/

theorem serveSlot_exited (t : Target) (m : Mux) (i : Nat) (sv : Service) (c : Cycle)
    (o0 : List Out) (fd : Sock)
    (hne : (sv.data.take m.shandshake.bufsize).length ≠ 0)
    (hstart : cycleStart t m.shandshake sv.block sv.after sv.data = some (c, o0))
    (hpc : (feed cycleStep c sv.statuses).1.pc = .exited fd) :
    serveSlot t m i sv = .exited fd (o0 ++ (feed cycleStep c sv.statuses).2) := by
  simp only [serveSlot, if_neg hne, hstart, hpc]

theorem acceptConn_exited (t : Target) (m : Mux) (acceptdf : Nat) (reads : List (List Nat))
    (fd : Sock)
    (h : (feed (serverStep t) (serverStart m.shandshake m.hbuffer) reads).1.pc = .exited fd) :
    acceptConn t m acceptdf reads
      = .exited fd (feed (serverStep t) (serverStart m.shandshake m.hbuffer) reads).2 := by
  simp only [acceptConn, h]

theorem acceptConn_done (t : Target) (m : Mux) (acceptdf : Nat) (reads : List (List Nat))
    (h : (feed (serverStep t) (serverStart m.shandshake m.hbuffer) reads).1.pc
      = .handshakeDone) :
    acceptConn t m acceptdf reads
      = .next
          { client_socket := insertSlot m.client_socket acceptdf,
            shandshake :=
              (feed (serverStep t) (serverStart m.shandshake m.hbuffer) reads).1.shandshake,
            hbuffer :=
              (feed (serverStep t) (serverStart m.shandshake m.hbuffer) reads).1.hbuffer }
          (feed (serverStep t) (serverStart m.shandshake m.hbuffer) reads).2 := by
  simp only [acceptConn, h]

/-- Round 1 or Round 2 used up while slot `i` is served: the process ends, whatever the
other slots hold and whatever events were still to come. -/
theorem muxRun_round_exhaust (t : Target) (m : Mux) (i : Nat) (sv : Service) (c : Cycle)
    (o0 : List Out) (es : List Event) (hi : i < max_clients)
    (hne : (sv.data.take m.shandshake.bufsize).length ≠ 0)
    (hstart : cycleStart t m.shandshake sv.block sv.after sv.data = some (c, o0))
    (hpc : (feed cycleStep c sv.statuses).1.pc = .exited .conn) :
    (muxRun t m (.activity (readyAt i sv) :: es)).exit? = some .conn := by
  have hs := serveSlot_exited t m i sv c o0 .conn hne hstart hpc
  have hp : muxIter t m (.activity (readyAt i sv))
      = .exited .conn (o0 ++ (feed cycleStep c sv.statuses).2) := by
    show servePass t (readyAt i sv) max_clients 0 m = _
    rw [servePass_readyAt t i sv max_clients 0 m (Nat.zero_le i) (by omega), hs,
      Served.after_nil]
  rw [muxRun_cons_exited t m _ es _ _ hp]
  rfl

/-- The SYN-ACK retransmissions used up during the handshake of a new connection: the
process ends. -/
theorem muxRun_synAck_exhaust (t : Target) (m : Mux) (acceptdf : Nat)
    (d s1 s2 s3 s4 : List Nat) (rest : List (List Nat)) (es : List Event)
    (hd : d.length = SHAKESIZE) (hbl : m.hbuffer.length ≤ SHAKESIZE)
    (hsyn : (deserialize_header t d).syn = 1)
    (h1 : failureSlot s1) (h2 : failureSlot s2) (h3 : failureSlot s3) (h4 : failureSlot s4) :
    (muxRun t m (.incoming acceptdf (d :: s1 :: s2 :: s3 :: s4 :: rest) :: es)).exit?
      = some .master := by
  have hpc : (feed (serverStep t) (serverStart m.shandshake m.hbuffer)
      (d :: s1 :: s2 :: s3 :: s4 :: rest)).1.pc = .exited .master := by
    have e : serverStart m.shandshake m.hbuffer = ⟨.syn, m.shandshake, m.hbuffer⟩ := rfl
    rw [e, feed_cons, server_syn_accept t _ _ d hd hbl hsyn]
    dsimp only
    rw [server_synAck_exhaust t _ s1 s2 s3 s4 rest h1 h2 h3 h4]
  have hp : muxIter t m (.incoming acceptdf (d :: s1 :: s2 :: s3 :: s4 :: rest))
      = .exited .master (feed (serverStep t) (serverStart m.shandshake m.hbuffer)
          (d :: s1 :: s2 :: s3 :: s4 :: rest)).2 :=
    acceptConn_exited t m acceptdf _ .master hpc
  rw [muxRun_cons_exited t m _ es _ _ hp]
  rfl

theorem hello_read_nonempty : (hello.take shEstablished.bufsize).length ≠ 0 := by decide

theorem helloCycle_start :
    cycleStart x86 shEstablished (List.replicate 4096 0) [] hello
      = some (helloCycle, [.frame .data helloFrame]) := cycleStart_hello

/-- C11 (code bug), evaluation at the failing inputs. The server holds two established
connections (slots 0 and 1). When the connection of slot 0 answers every transmission
of "hello" with the failure status, in Round 1 or (after one success) in Round 2, the
server process ends with `close(acceptdf); exit(0)`; when a new connection answers every
SYN-ACK with the failure status, it ends with `close(master_socket); exit(0)`. In each
case no event after that (`es`) is handled, so the connection of slot 1 is never served
again. -/
theorem exhaustion_ends_server (es : List Event) :
    (muxRun x86 muxTwo (.activity (readyAt 0 (helloService
        [statusSlot false, statusSlot false, statusSlot false, statusSlot false])) :: es)).exit?
      = some .conn ∧
    (muxRun x86 muxTwo (.activity (readyAt 0 (helloService
        [statusSlot true, statusSlot false, statusSlot false, statusSlot false,
         statusSlot false])) :: es)).exit?
      = some .conn ∧
    (muxRun x86 muxTwo (.incoming 6
        [shakeFrame (synHeader 4096), statusSlot false, statusSlot false, statusSlot false,
         statusSlot false] :: es)).exit?
      = some .master ∧
    (muxRun x86 muxTwo (.activity (readyAt 0 (helloService
        [statusSlot false, statusSlot false, statusSlot false, statusSlot false])) :: es)).mux?
      = none := by
  have hf := failureSlot_statusSlot
  have r1 := muxRun_round_exhaust x86 muxTwo 0
    (helloService [statusSlot false, statusSlot false, statusSlot false, statusSlot false])
    helloCycle [.frame .data helloFrame] es (by decide) hello_read_nonempty helloCycle_start
    (round1_exhaust helloCycle rfl _ _ _ _ [] hf hf hf hf).1
  have hpc2 : (feed cycleStep helloCycle [statusSlot true, statusSlot false, statusSlot false,
      statusSlot false, statusSlot false]).1.pc = .exited .conn := by
    have e : helloCycle = ⟨.receiptStatus, 4096, helloFrame, hello ++ [0],
        ⟨1, 0, 0, 0, 4096, 11708, 5⟩⟩ := rfl
    rw [e, feed_cons, cycle_receipt_ok _ _ _ _ _ successSlot_statusSlot]
    exact (round2_exhaust ⟨.integrityStatus, 4096, helloFrame, hello ++ [0],
      ⟨1, 0, 0, 0, 4096, 11708, 5⟩⟩ rfl _ _ _ _ [] hf hf hf hf).1
  have r2 := muxRun_round_exhaust x86 muxTwo 0
    (helloService [statusSlot true, statusSlot false, statusSlot false, statusSlot false,
      statusSlot false])
    helloCycle [.frame .data helloFrame] es (by decide) hello_read_nonempty helloCycle_start
    hpc2
  have hsyn : (deserialize_header x86 (shakeFrame (synHeader 4096))).syn = 1 := by
    rw [deserialize_shakeFrame x86 (synHeader 4096) (by decide)]
    rfl
  have r3 := muxRun_synAck_exhaust x86 muxTwo 6 (shakeFrame (synHeader 4096)) _ _ _ _ [] es
    (shakeFrame_length _) (Nat.le_of_eq (shakeFrame_length _)) hsyn hf hf hf hf
  refine ⟨r1, r2, r3, ?_⟩
  cases hr : muxRun x86 muxTwo (.activity (readyAt 0 (helloService
      [statusSlot false, statusSlot false, statusSlot false, statusSlot false])) :: es) with
  | next m o => rw [hr] at r1; simp [Served.exit?] at r1
  | exited fd o => rfl
  | stuck o => rfl
  | undefined => rfl

/-! ## The buffer size in the server loop -/

theorem cycle_integrity_ok (n : Nat) (buf p : List Nat) (h : capshdr) (d : List Nat)
    (hd : successSlot d) :
    cycleStep ⟨.integrityStatus, n, buf, p, h⟩ d = (⟨.done, n, buf, p, h⟩, []) := by
  simp [cycleStep, recv_zeros d hd.1, scan_success d 1 hd.2]

theorem feed_fst_step {σ : Type} (step : σ → List Nat → σ × List Out) (s s2 : σ)
    (d : List Nat) (ds : List (List Nat)) (h : (step s d).1 = s2) :
    (feed step s (d :: ds)).1 = (feed step s2 ds).1 := by
  rw [feed_cons, h]

/-- The handshake of the server with a client that sends the SYN header `hsyn` and the
ACK header `hack`: the ACK frame is refused once and accepted when it comes again, and
`shandshake` and `hbuffer` then hold that header and that frame. -/
theorem feed_handshake (t : Target) (sh : capshdr) (hb : List Nat) (hsyn hack : capshdr)
    (hv1 : hsyn.valid) (hv2 : hack.valid) (hs : hsyn.syn = 1) (ha : hack.ack = SERVER_ISN + 1)
    (hbl : hb.length ≤ SHAKESIZE) :
    (feed (serverStep t) ⟨.syn, sh, hb⟩
      [shakeFrame hsyn, statusSlot true, shakeFrame hack, shakeFrame hack]).1
      = ⟨.handshakeDone, hack, shakeFrame hack⟩ := by
  have d1 : deserialize_header t (shakeFrame hsyn) = hsyn := deserialize_shakeFrame t hsyn hv1
  have d2 : deserialize_header t (shakeFrame hack) = hack := deserialize_shakeFrame t hack hv2
  have s1 := server_syn_accept t sh hb (shakeFrame hsyn) (shakeFrame_length _) hbl
    (by rw [d1]; exact hs)
  rw [d1] at s1
  have e : (serverSynAckPhase ⟨.syn, hsyn, shakeFrame hsyn⟩).1
      = ⟨.synAckStatus, (serverSynAckPhase ⟨.syn, hsyn, shakeFrame hsyn⟩).1.shandshake,
          shakeFrame (serverSynAckPhase ⟨.syn, hsyn, shakeFrame hsyn⟩).1.shandshake⟩ := rfl
  have s1a : (serverStep t ⟨.syn, sh, hb⟩ (shakeFrame hsyn)).1
      = ⟨.synAckStatus, (serverSynAckPhase ⟨.syn, hsyn, shakeFrame hsyn⟩).1.shandshake,
          shakeFrame (serverSynAckPhase ⟨.syn, hsyn, shakeFrame hsyn⟩).1.shandshake⟩ := by
    rw [s1]
    exact e
  have s2 := server_synAckStatus_ok t
    (serverSynAckPhase ⟨.syn, hsyn, shakeFrame hsyn⟩).1.shandshake
    (shakeFrame (serverSynAckPhase ⟨.syn, hsyn, shakeFrame hsyn⟩).1.shandshake)
    (statusSlot true) successSlot_statusSlot
  have s3 := server_ack_first_reject t
    (serverSynAckPhase ⟨.syn, hsyn, shakeFrame hsyn⟩).1.shandshake
    (shakeFrame (serverSynAckPhase ⟨.syn, hsyn, shakeFrame hsyn⟩).1.shandshake)
    (shakeFrame hack) (shakeFrame_length _) (Nat.le_of_eq (shakeFrame_length _))
    (by rw [d2, ha]; decide)
  rw [d2] at s3
  have s4 := server_ackRetry_accept t { hack with ack := (hack.ack + 65535) % 65536 }
    (shakeFrame hack) (shakeFrame hack) (shakeFrame_length _)
    (Nat.le_of_eq (shakeFrame_length _)) (by rw [d2]; exact ha)
  rw [d2] at s4
  rw [feed_fst_step (serverStep t) _ _ _ _ s1a,
    feed_fst_step (serverStep t) _ _ _ _ (congrArg Prod.fst s2),
    feed_fst_step (serverStep t) _ _ _ _ (congrArg Prod.fst s3),
    feed_fst_step (serverStep t) _ _ _ _ (congrArg Prod.fst s4), feed_nil]

theorem client_synAck_reject (ch : capshdr) (hmsg data : List Nat)
    (hd : data.length = SHAKESIZE)
    (h : ¬ (unpack_uint16_t data 1 = CLIENT_ISN + 1 ∧ unpack_uint16_t data 3 = 1)) :
    clientStep ⟨.synAck, ch, hmsg⟩ data =
      (⟨.synAckRetry,
         ⟨ch.version, unpack_uint16_t data 1, unpack_uint16_t data 3, unpack_uint16_t data 5,
          ch.bufsize, ch.checksum, ch.len⟩, statusSlot false⟩,
       [.status (statusSlot false)]) := by
  have hb : (decide (unpack_uint16_t data 1 = CLIENT_ISN + 1) &&
      decide (unpack_uint16_t data 3 = 1)) = false := by
    rw [Bool.and_eq_false_iff]
    by_cases h1 : unpack_uint16_t data 1 = CLIENT_ISN + 1
    · right
      exact decide_eq_false (fun h3 => h ⟨h1, h3⟩)
    · left
      exact decide_eq_false h1
  simp only [clientStep, clientCheckSynAck, recv_zeros data hd, hb]
  rfl

theorem client_synAckRetry_accept (ch : capshdr) (hmsg data : List Nat)
    (hd : data.length = SHAKESIZE) (h1 : unpack_uint16_t data 1 = CLIENT_ISN + 1)
    (h3 : unpack_uint16_t data 3 = 1) :
    clientStep ⟨.synAckRetry, ch, hmsg⟩ data =
      (⟨.ackStatus,
         ⟨ch.version, (unpack_uint16_t data 5 + 1) % 65536, 0, CLIENT_ISN + 1, ch.bufsize,
          ch.checksum, ch.len⟩, statusSlot true⟩,
       [.status (statusSlot true),
        .frame .ack (shakeFrame
          ⟨ch.version, (unpack_uint16_t data 5 + 1) % 65536, 0, CLIENT_ISN + 1, ch.bufsize,
           ch.checksum, ch.len⟩)]) := by
  have hne : (data.take SHAKESIZE).length ≠ 0 := by
    rw [List.length_take, hd]; decide
  simp only [clientStep, clientCheckSynAck, recv_zeros data hd, h1, h3, clientAckPhase,
    decide_True, Bool.and_self, if_true, if_neg hne]

theorem client_synAckRetry_reject (ch : capshdr) (hmsg data : List Nat)
    (hd : data.length = SHAKESIZE)
    (h : ¬ (unpack_uint16_t data 1 = CLIENT_ISN + 1 ∧ unpack_uint16_t data 3 = 1)) :
    clientStep ⟨.synAckRetry, ch, hmsg⟩ data =
      (⟨.synAckRetry,
         ⟨ch.version, unpack_uint16_t data 1, unpack_uint16_t data 3, unpack_uint16_t data 5,
          ch.bufsize, ch.checksum, ch.len⟩, statusSlot false⟩,
       [.status (statusSlot false)]) := by
  have hne : (data.take SHAKESIZE).length ≠ 0 := by
    rw [List.length_take, hd]; decide
  have hb : (decide (unpack_uint16_t data 1 = CLIENT_ISN + 1) &&
      decide (unpack_uint16_t data 3 = 1)) = false := by
    rw [Bool.and_eq_false_iff]
    by_cases h1 : unpack_uint16_t data 1 = CLIENT_ISN + 1
    · right
      exact decide_eq_false (fun h3 => h ⟨h1, h3⟩)
    · left
      exact decide_eq_false h1
  simp only [clientStep, clientCheckSynAck, recv_zeros data hd, hb, if_neg hne]
  rfl

/-- C13: the client, blocked in the read of the SYN-ACK frame (the first one, `first`, or
a retransmitted one), accepts a frame of `SHAKESIZE` bytes if and only if its ack field
(bytes 1-2) is `CLIENT_ISN + 1 = 1002` and its syn field (bytes 3-4) is 1: then it writes
the status 1 followed by its ACK frame and waits for the status of that ACK; otherwise it
writes the status 0 and nothing else, and waits in the retry loop for a retransmission. -/
theorem client_synAck_decision (ch : capshdr) (hmsg data : List Nat) (first : Bool)
    (hd : data.length = SHAKESIZE) :
    ((clientStep ⟨if first then .synAck else .synAckRetry, ch, hmsg⟩ data).1.pc = .ackStatus ↔
      (unpack_uint16_t data 1 = CLIENT_ISN + 1 ∧ unpack_uint16_t data 3 = 1)) ∧
    ((unpack_uint16_t data 1 = CLIENT_ISN + 1 ∧ unpack_uint16_t data 3 = 1) →
      (clientStep ⟨if first then .synAck else .synAckRetry, ch, hmsg⟩ data).2
        = [.status (statusSlot true),
           .frame .ack (shakeFrame
             ⟨ch.version, (unpack_uint16_t data 5 + 1) % 65536, 0, CLIENT_ISN + 1, ch.bufsize,
              ch.checksum, ch.len⟩)]) ∧
    (¬ (unpack_uint16_t data 1 = CLIENT_ISN + 1 ∧ unpack_uint16_t data 3 = 1) →
      (clientStep ⟨if first then .synAck else .synAckRetry, ch, hmsg⟩ data).1.pc = .synAckRetry ∧
      (clientStep ⟨if first then .synAck else .synAckRetry, ch, hmsg⟩ data).2
        = [.status (statusSlot false)]) := by
  by_cases h : unpack_uint16_t data 1 = CLIENT_ISN + 1 ∧ unpack_uint16_t data 3 = 1
  · cases first
    · simp only [Bool.false_eq_true, if_false]
      rw [client_synAckRetry_accept ch hmsg data hd h.1 h.2]
      exact ⟨⟨fun _ => h, fun _ => rfl⟩, fun _ => rfl, fun hn => absurd h hn⟩
    · simp only [if_true]
      rw [client_synAck_accept ch hmsg data hd h.1 h.2]
      exact ⟨⟨fun _ => h, fun _ => rfl⟩, fun _ => rfl, fun hn => absurd h hn⟩
  · cases first
    · simp only [Bool.false_eq_true, if_false]
      rw [client_synAckRetry_reject ch hmsg data hd h]
      exact ⟨⟨fun hp => by simp at hp, fun ha => absurd ha h⟩, fun ha => absurd ha h,
        fun _ => ⟨rfl, rfl⟩⟩
    · simp only [if_true]
      rw [client_synAck_reject ch hmsg data hd h]
      exact ⟨⟨fun hp => by simp at hp, fun ha => absurd ha h⟩, fun ha => absurd ha h,
        fun _ => ⟨rfl, rfl⟩⟩

/-- Witness for C13: the SYN-ACK frame of this server is accepted, one with the ack
1003 is not. -/
theorem client_synAck_decision_witness :
    (shakeFrame ⟨1, 1002, 1, 2001, 4096, 0, 0⟩).length = SHAKESIZE ∧
    (clientStep ⟨.synAck, ⟨1, 0, 1, 1001, 4096, 0, 0⟩, statusSlot true⟩
      (shakeFrame ⟨1, 1002, 1, 2001, 4096, 0, 0⟩)).1.pc = .ackStatus ∧
    (clientStep ⟨.synAck, ⟨1, 0, 1, 1001, 4096, 0, 0⟩, statusSlot true⟩
      (shakeFrame ⟨1, 1003, 1, 2001, 4096, 0, 0⟩)).1.pc = .synAckRetry :=
  have hu := unpack_shakeFrame ⟨1, 1002, 1, 2001, 4096, 0, 0⟩ (by decide)
  have hw := unpack_shakeFrame ⟨1, 1003, 1, 2001, 4096, 0, 0⟩ (by decide)
  ⟨shakeFrame_length _,
   (client_synAck_decision ⟨1, 0, 1, 1001, 4096, 0, 0⟩ (statusSlot true)
      (shakeFrame ⟨1, 1002, 1, 2001, 4096, 0, 0⟩) true (shakeFrame_length _)).1.2
      ⟨hu.1, hu.2.1⟩,
   ((client_synAck_decision ⟨1, 0, 1, 1001, 4096, 0, 0⟩ (statusSlot true)
      (shakeFrame ⟨1, 1003, 1, 2001, 4096, 0, 0⟩) true (shakeFrame_length _)).2.2
      (fun h => absurd (hw.1.symm.trans h.1) (by decide))).1⟩

theorem server_ack_first_accept (t : Target) (sh : capshdr) (hb data : List Nat)
    (hd : data.length = SHAKESIZE) (hbl : hb.length ≤ SHAKESIZE)
    (hack : ((deserialize_header t data).ack + 65535) % 65536 = SERVER_ISN + 1) :
    serverStep t ⟨.ack, sh, hb⟩ data =
      (⟨.handshakeDone,
         { deserialize_header t data with
           ack := ((deserialize_header t data).ack + 65535) % 65536 }, data⟩,
       [.status (statusSlot true)]) := by
  simp only [serverStep, recv_cleared hb data hd hbl, hack, if_true]

theorem server_ackRetry_reject (t : Target) (sh : capshdr) (hb data : List Nat)
    (hd : data.length = SHAKESIZE) (hbl : hb.length ≤ SHAKESIZE)
    (hack : (deserialize_header t data).ack ≠ SERVER_ISN + 1) :
    serverStep t ⟨.ackRetry, sh, hb⟩ data =
      (⟨.ackRetry, deserialize_header t data, data⟩, [.status (statusSlot false)]) := by
  have hne : (data.take SHAKESIZE).length ≠ 0 := by
    rw [List.length_take, hd]; decide
  simp only [serverStep, recv_cleared hb data hd hbl, hack, if_false, if_neg hne]

/-- C12 (code bug), evaluation at the failing input. The server has sent its SYN-ACK and
waits for the ACK frame. The first ACK frame with ack `SERVER_ISN + 1 = 2002`, the one
this client sends, is refused (status 0, retry loop), because line 284 takes 1 off the
decoded ack before the comparison; the first ACK frame with ack 2003 is accepted. In the
retry loop the comparison is made without the decrement: there the frame with ack 2002
is accepted and the frame with ack 2003 refused. -/
theorem first_ack_check_off_by_one :
    (ackHeader 4096).ack = SERVER_ISN + 1 ∧
    serverStep x86 ⟨.ack, ⟨1, 1002, 1, 2001, 4096, 0, 0⟩, shakeFrame ⟨1, 1002, 1, 2001, 4096, 0, 0⟩⟩
        (shakeFrame (ackHeader 4096))
      = (⟨.ackRetry, ⟨1, 2001, 0, 1002, 4096, 0, 0⟩, shakeFrame (ackHeader 4096)⟩,
         [.status (statusSlot false)]) ∧
    serverStep x86 ⟨.ack, ⟨1, 1002, 1, 2001, 4096, 0, 0⟩, shakeFrame ⟨1, 1002, 1, 2001, 4096, 0, 0⟩⟩
        (shakeFrame ⟨1, 2003, 0, 1002, 4096, 0, 0⟩)
      = (⟨.handshakeDone, ⟨1, 2002, 0, 1002, 4096, 0, 0⟩,
           shakeFrame ⟨1, 2003, 0, 1002, 4096, 0, 0⟩⟩,
         [.status (statusSlot true)]) ∧
    serverStep x86 ⟨.ackRetry, ⟨1, 2001, 0, 1002, 4096, 0, 0⟩, shakeFrame (ackHeader 4096)⟩
        (shakeFrame (ackHeader 4096))
      = (⟨.handshakeDone, ackHeader 4096, shakeFrame (ackHeader 4096)⟩,
         [.status (statusSlot true)]) ∧
    serverStep x86 ⟨.ackRetry, ⟨1, 2001, 0, 1002, 4096, 0, 0⟩, shakeFrame (ackHeader 4096)⟩
        (shakeFrame ⟨1, 2003, 0, 1002, 4096, 0, 0⟩)
      = (⟨.ackRetry, ⟨1, 2003, 0, 1002, 4096, 0, 0⟩, shakeFrame ⟨1, 2003, 0, 1002, 4096, 0, 0⟩⟩,
         [.status (statusSlot false)]) := by
  have d2 : deserialize_header x86 (shakeFrame (ackHeader 4096)) = ackHeader 4096 :=
    deserialize_shakeFrame x86 _ (by decide)
  have d3 : deserialize_header x86 (shakeFrame ⟨1, 2003, 0, 1002, 4096, 0, 0⟩)
      = ⟨1, 2003, 0, 1002, 4096, 0, 0⟩ := deserialize_shakeFrame x86 _ (by decide)
  have s1 := server_ack_first_reject x86 ⟨1, 1002, 1, 2001, 4096, 0, 0⟩
    (shakeFrame ⟨1, 1002, 1, 2001, 4096, 0, 0⟩) (shakeFrame (ackHeader 4096))
    (shakeFrame_length _) (Nat.le_of_eq (shakeFrame_length _)) (by rw [d2]; decide)
  have s2 := server_ack_first_accept x86 ⟨1, 1002, 1, 2001, 4096, 0, 0⟩
    (shakeFrame ⟨1, 1002, 1, 2001, 4096, 0, 0⟩) (shakeFrame ⟨1, 2003, 0, 1002, 4096, 0, 0⟩)
    (shakeFrame_length _) (Nat.le_of_eq (shakeFrame_length _)) (by rw [d3]; decide)
  have s3 := server_ackRetry_accept x86 ⟨1, 2001, 0, 1002, 4096, 0, 0⟩
    (shakeFrame (ackHeader 4096)) (shakeFrame (ackHeader 4096))
    (shakeFrame_length _) (Nat.le_of_eq (shakeFrame_length _)) (by rw [d2]; rfl)
  have s4 := server_ackRetry_reject x86 ⟨1, 2001, 0, 1002, 4096, 0, 0⟩
    (shakeFrame (ackHeader 4096)) (shakeFrame ⟨1, 2003, 0, 1002, 4096, 0, 0⟩)
    (shakeFrame_length _) (Nat.le_of_eq (shakeFrame_length _)) (by rw [d3]; decide)
  rw [d2] at s1 s3
  rw [d3] at s2 s4
  exact ⟨rfl, s1, s2, s3, s4⟩

/-! ## Order of the two rounds -/

theorem cycle_receipt_unparsed (n : Nat) (buf p : List Nat) (h : capshdr) (d : List Nat)
    (hs : sscanf_d (recvInto (List.replicate SHAKESIZE 0) SHAKESIZE d) = none) :
    cycleStep ⟨.receiptStatus, n, buf, p, h⟩ d = (⟨.integrityStatus, n, buf, p, h⟩, []) := by
  simp [cycleStep, scanStatus, hs]

/-- When the first receipt slot carries a number in the range of `int`, the server goes
on to Round 2 exactly when that number is 1. -/
theorem cycle_receipt_parsed (n : Nat) (buf p : List Nat) (h : capshdr) (d : List Nat)
    (v : Int) (hd : d.length = SHAKESIZE) (hs : sscanf_d d = some v)
    (_hlo : -2147483648 ≤ v) (_hhi : v ≤ 2147483647) :
    (cycleStep ⟨.receiptStatus, n, buf, p, h⟩ d).1.pc = .integrityStatus ↔ v = 1 := by
  by_cases hv : v = 1
  · simp [cycleStep, scanStatus, recv_zeros d hd, hs, hv]
  · simp [cycleStep, scanStatus, recv_zeros d hd, hs, hv]

/-- On the first reception of a frame the client writes an integrity status only after
the receipt status 1. -/
theorem clientFirstRound_order (t : Target) (buffer0 data after : List Nat) (outs : List Out)
    (h : clientFirstRound t buffer0 data after = some outs) :
    outs = [.status (statusSlot false)] ∨
    ∃ b, outs = [.status (statusSlot true), .status (statusSlot b)] := by
  unfold clientFirstRound at h
  simp only [Option.bind_eq_bind] at h
  cases hu : clientUnpack t buffer0 data after with
  | none => rw [hu] at h; simp at h
  | some hp =>
    rw [hu] at h
    simp only [Option.some_bind] at h
    cases h1 : payload_status hp.2 with
    | none => rw [h1] at h; simp at h
    | some r =>
      rw [h1] at h
      simp only [Option.some_bind] at h
      cases r with
      | false =>
        simp only [Bool.false_eq_true, if_false, Option.some.injEq] at h
        exact Or.inl h.symm
      | true =>
        simp only [if_true] at h
        cases h2 : payload_integrity t hp.1 hp.2 with
        | none => rw [h2] at h; simp at h
        | some b =>
          rw [h2] at h
          simp only [Option.some_bind, Option.some.injEq] at h
          exact Or.inr ⟨b, h.symm⟩

theorem sscanf_zeros : sscanf_d (List.replicate 256 0) = none := by decide

/-- C14 (code bug), evaluation at the failing inputs. The server has written the frame for
"hello" and waits for the receipt status. A status slot of 256 zero bytes carries no
number, and so does the slot that a read of zero bytes leaves behind; `payload_status`
keeps the 1 it was initialised with, no frame is retransmitted and the server waits for the
integrity status (Round 2), although no receipt status equal to 1 was read. With the
status 1 as next slot the cycle is complete. -/
theorem round2_without_receipt :
    sscanf_d (List.replicate 256 0) = none ∧
    cycleStep helloCycle (List.replicate 256 0)
      = (⟨.integrityStatus, 4096, helloFrame, hello ++ [0], ⟨1, 0, 0, 0, 4096, 11708, 5⟩⟩, []) ∧
    recvInto (List.replicate SHAKESIZE 0) SHAKESIZE [] = List.replicate 256 0 ∧
    cycleStep helloCycle []
      = (⟨.integrityStatus, 4096, helloFrame, hello ++ [0], ⟨1, 0, 0, 0, 4096, 11708, 5⟩⟩, []) ∧
    feed cycleStep helloCycle [List.replicate 256 0, statusSlot true]
      = (⟨.done, 4096, helloFrame, hello ++ [0], ⟨1, 0, 0, 0, 4096, 11708, 5⟩⟩, []) := by
  have e : helloCycle = ⟨.receiptStatus, 4096, helloFrame, hello ++ [0],
      ⟨1, 0, 0, 0, 4096, 11708, 5⟩⟩ := rfl
  have r0 : recvInto (List.replicate SHAKESIZE 0) SHAKESIZE [] = List.replicate 256 0 := rfl
  have r1 : recvInto (List.replicate SHAKESIZE 0) SHAKESIZE (List.replicate 256 0)
      = List.replicate 256 0 := recv_zeros _ (List.length_replicate 256 0)
  have c1 := cycle_receipt_unparsed 4096 helloFrame (hello ++ [0]) ⟨1, 0, 0, 0, 4096, 11708, 5⟩
    (List.replicate 256 0) (by rw [r1]; exact sscanf_zeros)
  have c2 := cycle_receipt_unparsed 4096 helloFrame (hello ++ [0]) ⟨1, 0, 0, 0, 4096, 11708, 5⟩
    [] (by rw [r0]; exact sscanf_zeros)
  refine ⟨sscanf_zeros, ?_, r0, ?_, ?_⟩
  · rw [e]; exact c1
  · rw [e]; exact c2
  · rw [e, feed_cons, c1, feed_cons, cycle_integrity_ok _ _ _ _ _ successSlot_statusSlot]
    rfl

/-! ## The range of the client's checksum -/

/-- C17 (code bug), evaluation at the failing inputs. The client takes the range of its
checksum from `strlen(payload)`, not from the decoded `len`. A frame with `len` 5, the
payload `h e 0 l o` and the checksum 11816 of these 5 bytes is judged corrupt (2 bytes are
summed); the same payload with the checksum 39575 of its first 2 bytes is judged integral,
though the checksum of the 5 bytes is another; and the server's frame for "hello" is
judged corrupt when the cell behind the client's block of 5 cells is not zero (6 bytes
are summed). -/
theorem integrity_range_from_strlen :
    ichecksum x86 [104, 101, 0, 108, 111] 5 = 11816 ∧
    clientUnpack x86 (List.replicate 32776 0)
        (headerBytes ⟨1, 0, 0, 0, 4096, 11816, 5⟩ ++ [104, 101, 0, 108, 111]
          ++ List.replicate 4078 0) [0]
      = some (⟨1, 0, 0, 0, 4096, 11816, 5⟩, [104, 101, 0, 108, 111] ++ [0]) ∧
    payload_integrity x86 ⟨1, 0, 0, 0, 4096, 11816, 5⟩ ([104, 101, 0, 108, 111] ++ [0])
      = some false ∧
    clientFirstRound x86 (List.replicate 32776 0)
        (headerBytes ⟨1, 0, 0, 0, 4096, 11816, 5⟩ ++ [104, 101, 0, 108, 111]
          ++ List.replicate 4078 0) [0]
      = some [.status (statusSlot true), .status (statusSlot false)] ∧
    ichecksum x86 [104, 101, 0, 108, 111] 5 ≠ 39575 ∧
    clientFirstRound x86 (List.replicate 32776 0)
        (headerBytes ⟨1, 0, 0, 0, 4096, 39575, 5⟩ ++ [104, 101, 0, 108, 111]
          ++ List.replicate 4078 0) [0]
      = some [.status (statusSlot true), .status (statusSlot true)] ∧
    ichecksum x86 hello 5 = 11708 ∧
    payload_integrity x86 ⟨1, 0, 0, 0, 4096, 11708, 5⟩ (hello ++ [1, 0]) = some false ∧
    payload_integrity x86 ⟨1, 0, 0, 0, 4096, 11708, 5⟩ (hello ++ [0]) = some true := by
  have hu1 := clientUnpack_frame x86 (List.replicate 32776 0) [0] [104, 101, 0, 108, 111]
    (List.replicate 4078 0) ⟨1, 0, 0, 0, 4096, 11816, 5⟩ (by decide) rfl
    (by rw [List.length_append, List.length_append, List.length_replicate]; decide)
  have hu2 := clientUnpack_frame x86 (List.replicate 32776 0) [0] [104, 101, 0, 108, 111]
    (List.replicate 4078 0) ⟨1, 0, 0, 0, 4096, 39575, 5⟩ (by decide) rfl
    (by rw [List.length_append, List.length_append, List.length_replicate]; decide)
  have hs : payload_status ([104, 101, 0, 108, 111] ++ [0]) = some true := by decide
  have hi1 : payload_integrity x86 ⟨1, 0, 0, 0, 4096, 11816, 5⟩ ([104, 101, 0, 108, 111] ++ [0])
      = some false := by decide
  have hi2 : payload_integrity x86 ⟨1, 0, 0, 0, 4096, 39575, 5⟩ ([104, 101, 0, 108, 111] ++ [0])
      = some true := by decide
  refine ⟨by decide, hu1, hi1, ?_, by decide, ?_, by decide, by decide, by decide⟩
  · unfold clientFirstRound
    rw [hu1]
    simp only [Option.bind_eq_bind, Option.some_bind, hs, hi1, if_true]
  · unfold clientFirstRound
    rw [hu2]
    simp only [Option.bind_eq_bind, Option.some_bind, hs, hi2, if_true]

/-! ## Status slots without a number -/

theorem client_synStatus_unparsed (ch : capshdr) (hmsg d : List Nat)
    (hd : d.length = SHAKESIZE) (hm : hmsg.length ≤ SHAKESIZE) (hs : sscanf_d d = none) :
    clientStep ⟨.synStatus, ch, hmsg⟩ d = (⟨.synAck, ch, d⟩, []) := by
  simp [clientStep, scanStatus, recv_cleared hmsg d hd hm, hs]

theorem client_ackStatus_unparsed (ch : capshdr) (hmsg d : List Nat)
    (hd : d.length = SHAKESIZE) (hm : hmsg.length ≤ SHAKESIZE) (hs : sscanf_d d = none) :
    clientStep ⟨.ackStatus, ch, hmsg⟩ d = (⟨.dataExchange, ch, d⟩, []) := by
  simp [clientStep, scanStatus, recv_cleared hmsg d hd hm, hs]

theorem server_synAckStatus_unparsed (t : Target) (sh : capshdr) (hb d : List Nat)
    (hd : d.length = SHAKESIZE) (hs : sscanf_d d = none) :
    serverStep t ⟨.synAckStatus, sh, hb⟩ d = (⟨.ack, sh, hb⟩, []) := by
  simp [serverStep, scanStatus, recv_zeros d hd, hs]

theorem cycle_integrity_unparsed (n : Nat) (buf p : List Nat) (h : capshdr) (d : List Nat)
    (hd : d.length = SHAKESIZE) (hs : sscanf_d d = none) :
    cycleStep ⟨.integrityStatus, n, buf, p, h⟩ d = (⟨.done, n, buf, p, h⟩, []) := by
  simp [cycleStep, scanStatus, recv_zeros d hd, hs]

/-- In a retry loop a slot without a number leaves the status variable at the value
other than 1 that it has, and the frame is written again. -/
theorem server_synAckRetry_unparsed (t : Target) (sh : capshdr) (hb d : List Nat)
    (trials : Nat) (st : Int) (hd : d.length = SHAKESIZE) (hs : sscanf_d d = none)
    (hst : st ≠ 1) (ht : trials + 1 ≤ MAX_RETRANSM) :
    serverStep t ⟨.synAckStatusRetry trials st, sh, hb⟩ d =
      (⟨.synAckStatusRetry (trials + 1) st, sh, hb⟩, [.frame .synAck (shakeFrame sh)]) := by
  simp [serverStep, scanStatus, recv_zeros d hd, hs, hst, ht]

theorem cycle_receiptRetry_unparsed (n : Nat) (buf p : List Nat) (h : capshdr) (d : List Nat)
    (trials : Nat) (st : Int) (hd : d.length = SHAKESIZE) (hs : sscanf_d d = none)
    (hst : st ≠ 1) (ht : trials + 1 ≤ MAX_RETRANSM) :
    cycleStep ⟨.receiptRetry trials st, n, buf, p, h⟩ d =
      (⟨.receiptRetry (trials + 1) st, n, cycleFrame ⟨.receiptRetry trials st, n, buf, p, h⟩,
          p, h⟩,
        [.frame .data ((cycleFrame ⟨.receiptRetry trials st, n, buf, p, h⟩).take n)]) := by
  simp [cycleStep, scanStatus, recv_zeros d hd, hs, hst, ht]

/-- C21 (code bug), evaluation at the failing input: a status slot of 256 zero bytes,
which carries no number. On the first attempt of a phase or round the sender takes it
for a confirmation: the client leaves the SYN phase and the ACK phase, the server leaves
the SYN-ACK phase, Round 1 and Round 2, each without writing its frame again. In the
retry loops the same slot counts as a failure and the frame is retransmitted. -/
theorem unparsed_status_confirms :
    sscanf_d (List.replicate 256 0) = none ∧
    clientStep ⟨.synStatus, synHeader 4096, List.replicate 256 0⟩ (List.replicate 256 0)
      = (⟨.synAck, synHeader 4096, List.replicate 256 0⟩, []) ∧
    clientStep ⟨.ackStatus, ackHeader 4096, statusSlot true⟩ (List.replicate 256 0)
      = (⟨.dataExchange, ackHeader 4096, List.replicate 256 0⟩, []) ∧
    serverStep x86 ⟨.synAckStatus, ⟨1, 1002, 1, 2001, 4096, 0, 0⟩,
        shakeFrame ⟨1, 1002, 1, 2001, 4096, 0, 0⟩⟩ (List.replicate 256 0)
      = (⟨.ack, ⟨1, 1002, 1, 2001, 4096, 0, 0⟩, shakeFrame ⟨1, 1002, 1, 2001, 4096, 0, 0⟩⟩, []) ∧
    cycleStep helloCycle (List.replicate 256 0)
      = (⟨.integrityStatus, 4096, helloFrame, hello ++ [0], ⟨1, 0, 0, 0, 4096, 11708, 5⟩⟩, []) ∧
    cycleStep ⟨.integrityStatus, 4096, helloFrame, hello ++ [0], ⟨1, 0, 0, 0, 4096, 11708, 5⟩⟩
        (List.replicate 256 0)
      = (⟨.done, 4096, helloFrame, hello ++ [0], ⟨1, 0, 0, 0, 4096, 11708, 5⟩⟩, []) ∧
    serverStep x86 ⟨.synAckStatusRetry 1 0, ⟨1, 1002, 1, 2001, 4096, 0, 0⟩,
        shakeFrame ⟨1, 1002, 1, 2001, 4096, 0, 0⟩⟩ (List.replicate 256 0)
      = (⟨.synAckStatusRetry 2 0, ⟨1, 1002, 1, 2001, 4096, 0, 0⟩,
           shakeFrame ⟨1, 1002, 1, 2001, 4096, 0, 0⟩⟩,
         [.frame .synAck (shakeFrame ⟨1, 1002, 1, 2001, 4096, 0, 0⟩)]) ∧
    (cycleStep ⟨.receiptRetry 1 0, 4096, helloFrame, hello ++ [0],
        ⟨1, 0, 0, 0, 4096, 11708, 5⟩⟩ (List.replicate 256 0)).1.pc = .receiptRetry 2 0 := by
  have hl : (List.replicate 256 0).length = SHAKESIZE := List.length_replicate 256 0
  have e : helloCycle = ⟨.receiptStatus, 4096, helloFrame, hello ++ [0],
      ⟨1, 0, 0, 0, 4096, 11708, 5⟩⟩ := rfl
  refine ⟨sscanf_zeros, ?_, ?_, ?_, ?_, ?_, ?_, ?_⟩
  · exact client_synStatus_unparsed _ _ _ hl (Nat.le_of_eq hl) sscanf_zeros
  · exact client_ackStatus_unparsed _ _ _ hl (Nat.le_of_eq (statusSlot_length true))
      sscanf_zeros
  · exact server_synAckStatus_unparsed x86 _ _ _ hl sscanf_zeros
  · rw [e]
    exact cycle_receipt_unparsed _ _ _ _ _
      (by rw [recv_zeros _ hl]; exact sscanf_zeros)
  · exact cycle_integrity_unparsed _ _ _ _ _ hl sscanf_zeros
  · exact server_synAckRetry_unparsed x86 _ _ _ 1 0 hl sscanf_zeros (by decide) (by decide)
  · rw [cycle_receiptRetry_unparsed _ _ _ _ _ 1 0 hl sscanf_zeros (by decide) (by decide)]

/-! ## Registration of a new connection -/

theorem insertSlot_length (cs : List Nat) (fd : Nat) :
    (insertSlot cs fd).length = cs.length := by
  induction cs with
  | nil => rfl
  | cons s rest ih =>
    unfold insertSlot
    split_ifs
    · rfl
    · rw [List.length_cons, List.length_cons, ih]

theorem insertSlot_full (cs : List Nat) (fd : Nat) (h : ∀ x ∈ cs, x ≠ 0) :
    insertSlot cs fd = cs := by
  induction cs with
  | nil => rfl
  | cons s rest ih =>
    unfold insertSlot
    rw [if_neg (h s (List.mem_cons_self s rest)),
      ih (fun x hx => h x (List.mem_cons_of_mem s hx))]

theorem insertSlot_first_free (fd : Nat) (cs : List Nat) :
    ∀ i, cs[i]? = some 0 → (∀ j, j < i → cs[j]? ≠ some 0) →
      insertSlot cs fd = cs.set i fd := by
  induction cs with
  | nil => intro i hz _; simp at hz
  | cons s rest ih =>
    intro i hz hbefore
    cases i with
    | zero =>
      have hs : s = 0 := by simpa using hz
      unfold insertSlot
      rw [if_pos hs]
      rfl
    | succ k =>
      have hs : s ≠ 0 := by
        intro h0
        exact hbefore 0 (Nat.succ_pos k) (by simp [h0])
      have hz2 : rest[k]? = some 0 := by simpa using hz
      have hb2 : ∀ j, j < k → rest[j]? ≠ some 0 := by
        intro j hj
        have := hbefore (j + 1) (by omega)
        simpa using this
      unfold insertSlot
      rw [if_neg hs, ih k hz2 hb2]
      rfl

/-- C22: when the handshake with a new connection is finished, the server loop goes on
(no exit, no error) with a table of the same length in which the descriptor stands in the
free slot (a slot holding 0) of lowest index and every other slot is as before; when no
slot is free the table is as before. The table has `max_clients = 30` slots from the
start. -/
theorem accept_registers (t : Target) (m : Mux) (acceptdf : Nat) (reads : List (List Nat))
    (hdone : (feed (serverStep t) (serverStart m.shandshake m.hbuffer) reads).1.pc
      = .handshakeDone) :
    (muxStart m.shandshake m.hbuffer).client_socket = List.replicate 30 0 ∧
    ∃ m2 o, acceptConn t m acceptdf reads = .next m2 o ∧
      m2.client_socket.length = m.client_socket.length ∧
      (∀ i, m.client_socket[i]? = some 0 → (∀ j, j < i → m.client_socket[j]? ≠ some 0) →
        m2.client_socket = m.client_socket.set i acceptdf ∧
        m2.client_socket[i]? = some acceptdf ∧
        ∀ j, j ≠ i → m2.client_socket[j]? = m.client_socket[j]?) ∧
      ((∀ x ∈ m.client_socket, x ≠ 0) → m2.client_socket = m.client_socket) := by
  refine ⟨rfl, _, _, acceptConn_done t m acceptdf reads hdone, ?_, ?_, ?_⟩
  · exact insertSlot_length m.client_socket acceptdf
  · intro i hz hbefore
    have hset := insertSlot_first_free acceptdf m.client_socket i hz hbefore
    have hi : i < m.client_socket.length := by
      rcases Nat.lt_or_ge i m.client_socket.length with h | h
      · exact h
      · rw [List.getElem?_eq_none h] at hz
        simp at hz
    refine ⟨hset, ?_, ?_⟩
    · show (insertSlot m.client_socket acceptdf)[i]? = some acceptdf
      rw [hset]
      simp [hi]
    · intro j hj
      show (insertSlot m.client_socket acceptdf)[j]? = m.client_socket[j]?
      rw [hset]
      exact List.getElem?_set_ne (Ne.symm hj)
  · intro hfull
    exact insertSlot_full m.client_socket acceptdf hfull

theorem handshake512_done (cs : List Nat) :
    (feed (serverStep x86)
      (serverStart (Mux.mk cs (ackHeader 4096) (shakeFrame (ackHeader 4096))).shandshake
        (Mux.mk cs (ackHeader 4096) (shakeFrame (ackHeader 4096))).hbuffer)
      (handshakeReads 512)).1.pc = .handshakeDone := by
  have hf := feed_handshake x86 (ackHeader 4096) (shakeFrame (ackHeader 4096))
    (synHeader 512) (ackHeader 512) (by decide) (by decide) rfl rfl
    (Nat.le_of_eq (shakeFrame_length _))
  unfold handshakeReads serverStart
  dsimp only
  rw [hf]

theorem slot_one_free : (4 :: List.replicate 29 0)[1]? = some 0 := by
  rw [List.getElem?_cons_succ]
  rfl

theorem slot_zero_taken : ∀ j, j < 1 → (4 :: List.replicate 29 0)[j]? ≠ some 0 := by
  intro j hj
  have hj0 : j = 0 := by omega
  subst hj0
  rw [List.getElem?_cons_zero]
  decide

theorem slots_all_taken : ∀ x ∈ List.replicate 30 7, x ≠ 0 := by
  intro x hx
  rw [List.eq_of_mem_replicate hx]
  decide

/-- Witness for C22: a second connection goes into slot 1; with all 30 slots taken the
table stays as it is. -/
theorem accept_registers_witness :
    (∃ m2 o, acceptConn x86
        ⟨4 :: List.replicate 29 0, ackHeader 4096, shakeFrame (ackHeader 4096)⟩ 5
        (handshakeReads 512) = .next m2 o ∧
      m2.client_socket = (4 :: List.replicate 29 0).set 1 5) ∧
    (∃ m2 o, acceptConn x86
        ⟨List.replicate 30 7, ackHeader 4096, shakeFrame (ackHeader 4096)⟩ 5
        (handshakeReads 512) = .next m2 o ∧
      m2.client_socket = List.replicate 30 7) :=
  have h1 := (accept_registers x86
    ⟨4 :: List.replicate 29 0, ackHeader 4096, shakeFrame (ackHeader 4096)⟩ 5
    (handshakeReads 512) (handshake512_done _)).2
  have h2 := (accept_registers x86
    ⟨List.replicate 30 7, ackHeader 4096, shakeFrame (ackHeader 4096)⟩ 5
    (handshakeReads 512) (handshake512_done _)).2
  ⟨h1.elim fun m2 h => h.elim fun o ho =>
      ⟨m2, o, ho.1, (ho.2.2.1 1 slot_one_free slot_zero_taken).1⟩,
   h2.elim fun m2 h => h.elim fun o ho => ⟨m2, o, ho.1, ho.2.2.2 slots_all_taken⟩⟩

/-! ## The ACK frame is transmitted twice -/

theorem stage_quiet (chbuffer chmsg shbuffer : List Nat) (cs ln : Nat) (sh0 : capshdr)
    (j : Nat) (hj : j ≤ 8)
    (hq : (handshakeStage chbuffer chmsg shbuffer cs ln sh0 j).quiet) :
    handshakeStage chbuffer chmsg shbuffer cs ln sh0 j
      = handshakeStage chbuffer chmsg shbuffer cs ln sh0 8 := by
  interval_cases j <;> first | rfl | (simp [handshakeStage, Sys.quiet] at hq)

theorem stage_prefix (t : Target) (chbuffer chmsg shbuffer : List Nat) (cs ln : Nat)
    (sh0 : capshdr) (hcb : chbuffer.length = SHAKESIZE) (hcm : chmsg.length = SHAKESIZE)
    (hsb : shbuffer.length = SHAKESIZE) (hcs : cs < 65536) (hln : ln < 65536) :
    runSched t (handshakeTurns.take 4) (sysStart chbuffer chmsg cs ln sh0 shbuffer)
      = handshakeStage chbuffer chmsg shbuffer cs ln sh0 4 ∧
    runSched t (handshakeTurns.take 5) (sysStart chbuffer chmsg cs ln sh0 shbuffer)
      = handshakeStage chbuffer chmsg shbuffer cs ln sh0 5 ∧
    runSched t (handshakeTurns.take 6) (sysStart chbuffer chmsg cs ln sh0 shbuffer)
      = handshakeStage chbuffer chmsg shbuffer cs ln sh0 6 ∧
    runSched t (handshakeTurns.take 7) (sysStart chbuffer chmsg cs ln sh0 shbuffer)
      = handshakeStage chbuffer chmsg shbuffer cs ln sh0 7 := by
  rw [sysStart_eq_stage]
  have q0 := stage_step0 t chbuffer chmsg shbuffer cs ln sh0 hcb hsb hcs hln
  have q1 := stage_step1 chbuffer chmsg shbuffer cs ln sh0 hcm
  have q2 := stage_step2 chbuffer chmsg shbuffer cs ln sh0 hcs hln
  have q3 := stage_step3 t chbuffer chmsg shbuffer cs ln sh0
  have q4 := stage_step4 t chbuffer chmsg shbuffer cs ln sh0 hcs hln
  have q5 := stage_step5 chbuffer chmsg shbuffer cs ln sh0
  have q6 := stage_step6 t chbuffer chmsg shbuffer cs ln sh0 hcs hln
  have p4 : runSched t [true, false, false, true]
      (handshakeStage chbuffer chmsg shbuffer cs ln sh0 0)
      = handshakeStage chbuffer chmsg shbuffer cs ln sh0 4 := by
    rw [run_server t _ _ _ q0, run_client t _ _ _ q1, run_client t _ _ _ q2,
      run_server t _ _ _ q3]
    rfl
  have p5 : runSched t ([true, false, false, true] ++ [true])
      (handshakeStage chbuffer chmsg shbuffer cs ln sh0 0)
      = handshakeStage chbuffer chmsg shbuffer cs ln sh0 5 := by
    rw [runSched_append, p4, run_server t _ _ _ q4]
    rfl
  have p6 : runSched t ([true, false, false, true, true] ++ [false])
      (handshakeStage chbuffer chmsg shbuffer cs ln sh0 0)
      = handshakeStage chbuffer chmsg shbuffer cs ln sh0 6 := by
    rw [runSched_append]
    rw [show [true, false, false, true, true] = [true, false, false, true] ++ [true] from rfl,
      p5, run_client t _ _ _ q5]
    rfl
  have p7 : runSched t ([true, false, false, true, true, false] ++ [true])
      (handshakeStage chbuffer chmsg shbuffer cs ln sh0 0)
      = handshakeStage chbuffer chmsg shbuffer cs ln sh0 7 := by
    rw [runSched_append]
    rw [show [true, false, false, true, true, false]
        = [true, false, false, true, true] ++ [false] from rfl,
      p6, run_server t _ _ _ q6]
    rfl
  exact ⟨p4, p5, p6, p7⟩

theorem stage_ack_facts (chbuffer chmsg shbuffer : List Nat) (cs ln : Nat) (sh0 : capshdr) :
    ((handshakeStage chbuffer chmsg shbuffer cs ln sh0 4).server.pc = .ack ∧
     (handshakeStage chbuffer chmsg shbuffer cs ln sh0 4).toServer
       = [shakeFrame ⟨1, 2002, 0, 1002, 4096, cs, ln⟩]) ∧
    ((handshakeStage chbuffer chmsg shbuffer cs ln sh0 5).server.pc = .ackRetry ∧
     (handshakeStage chbuffer chmsg shbuffer cs ln sh0 5).server.shandshake.ack = SERVER_ISN ∧
     (handshakeStage chbuffer chmsg shbuffer cs ln sh0 5).toClient = [statusSlot false]) ∧
    ((handshakeStage chbuffer chmsg shbuffer cs ln sh0 6).toServer
       = [shakeFrame ⟨1, 2002, 0, 1002, 4096, cs, ln⟩] ∧
     (handshakeStage chbuffer chmsg shbuffer cs ln sh0 7).server.pc = .handshakeDone ∧
     (handshakeStage chbuffer chmsg shbuffer cs ln sh0 7).server.shandshake.ack
       = SERVER_ISN + 1 ∧
     (handshakeStage chbuffer chmsg shbuffer cs ln sh0 7).toClient = [statusSlot true]) :=
  ⟨⟨rfl, rfl⟩, ⟨rfl, rfl, rfl⟩, ⟨rfl, rfl, rfl, rfl⟩⟩

theorem stage_final_frames (chbuffer chmsg shbuffer : List Nat) (cs ln : Nat) (sh0 : capshdr) :
    framesOf .syn (handshakeStage chbuffer chmsg shbuffer cs ln sh0 8).clientOut
      = [serialize_header chbuffer ⟨1, 0, 1, 1001, 4096, cs, ln⟩] ∧
    framesOf .synAck (handshakeStage chbuffer chmsg shbuffer cs ln sh0 8).serverOut
      = [shakeFrame ⟨1, 1002, 1, 2001, 4096, cs, ln⟩] ∧
    framesOf .ack (handshakeStage chbuffer chmsg shbuffer cs ln sh0 8).clientOut
      = [shakeFrame ⟨1, 2002, 0, 1002, 4096, cs, ln⟩,
         shakeFrame ⟨1, 2002, 0, 1002, 4096, cs, ln⟩] ∧
    (handshakeStage chbuffer chmsg shbuffer cs ln sh0 8).serverOut
      = [.status (statusSlot true), .frame .synAck (shakeFrame ⟨1, 1002, 1, 2001, 4096, cs, ln⟩),
         .status (statusSlot false), .status (statusSlot true)] := by
  refine ⟨?_, ?_, ?_, rfl⟩ <;> simp [handshakeStage, framesOf]

/-- C23: when this client and this server run the handshake against each other, the
server, waiting for the ACK, finds the client's ACK frame with ack `SERVER_ISN + 1`; it
refuses it (status 0, retry loop) and holds the decremented ack `SERVER_ISN` in
`shandshake`; the client writes the same frame again, and the server accepts it (status
1) with the ack `SERVER_ISN + 1` as decoded. At the end of the run, and of every run
that ends with nothing left to read, the SYN frame and the SYN-ACK frame have been written
exactly once and the ACK frame exactly twice, and the server has answered with the
statuses 1, 0, 1. -/
theorem ack_frame_sent_twice (t : Target) (chbuffer chmsg shbuffer : List Nat) (cs ln : Nat)
    (sh0 : capshdr) (hcb : chbuffer.length = SHAKESIZE) (hcm : chmsg.length = SHAKESIZE)
    (hsb : shbuffer.length = SHAKESIZE) (hcs : cs < 65536) (hln : ln < 65536) :
    ((runSched t (handshakeTurns.take 4)
        (sysStart chbuffer chmsg cs ln sh0 shbuffer)).server.pc = .ack ∧
     (runSched t (handshakeTurns.take 4) (sysStart chbuffer chmsg cs ln sh0 shbuffer)).toServer
        = [shakeFrame ⟨1, 2002, 0, 1002, 4096, cs, ln⟩] ∧
     (deserialize_header t (shakeFrame ⟨1, 2002, 0, 1002, 4096, cs, ln⟩)).ack
        = SERVER_ISN + 1) ∧
    ((runSched t (handshakeTurns.take 5)
        (sysStart chbuffer chmsg cs ln sh0 shbuffer)).server.pc = .ackRetry ∧
     (runSched t (handshakeTurns.take 5)
        (sysStart chbuffer chmsg cs ln sh0 shbuffer)).server.shandshake.ack = SERVER_ISN ∧
     (runSched t (handshakeTurns.take 5) (sysStart chbuffer chmsg cs ln sh0 shbuffer)).toClient
        = [statusSlot false]) ∧
    ((runSched t (handshakeTurns.take 6) (sysStart chbuffer chmsg cs ln sh0 shbuffer)).toServer
        = [shakeFrame ⟨1, 2002, 0, 1002, 4096, cs, ln⟩] ∧
     (runSched t (handshakeTurns.take 7)
        (sysStart chbuffer chmsg cs ln sh0 shbuffer)).server.pc = .handshakeDone ∧
     (runSched t (handshakeTurns.take 7)
        (sysStart chbuffer chmsg cs ln sh0 shbuffer)).server.shandshake.ack = SERVER_ISN + 1 ∧
     (runSched t (handshakeTurns.take 7) (sysStart chbuffer chmsg cs ln sh0 shbuffer)).toClient
        = [statusSlot true]) ∧
    ((runSched t handshakeTurns (sysStart chbuffer chmsg cs ln sh0 shbuffer)).quiet ∧
     (framesOf .syn
        (runSched t handshakeTurns (sysStart chbuffer chmsg cs ln sh0 shbuffer)).clientOut).length
        = 1 ∧
     (framesOf .synAck
        (runSched t handshakeTurns (sysStart chbuffer chmsg cs ln sh0 shbuffer)).serverOut).length
        = 1 ∧
     (framesOf .ack
        (runSched t handshakeTurns (sysStart chbuffer chmsg cs ln sh0 shbuffer)).clientOut).length
        = 2) ∧
    ∀ sched, (runSched t sched (sysStart chbuffer chmsg cs ln sh0 shbuffer)).quiet →
      framesOf .syn (runSched t sched (sysStart chbuffer chmsg cs ln sh0 shbuffer)).clientOut
        = [serialize_header chbuffer ⟨1, 0, 1, 1001, 4096, cs, ln⟩] ∧
      framesOf .synAck (runSched t sched (sysStart chbuffer chmsg cs ln sh0 shbuffer)).serverOut
        = [shakeFrame ⟨1, 1002, 1, 2001, 4096, cs, ln⟩] ∧
      framesOf .ack (runSched t sched (sysStart chbuffer chmsg cs ln sh0 shbuffer)).clientOut
        = [shakeFrame ⟨1, 2002, 0, 1002, 4096, cs, ln⟩,
           shakeFrame ⟨1, 2002, 0, 1002, 4096, cs, ln⟩] ∧
      (runSched t sched (sysStart chbuffer chmsg cs ln sh0 shbuffer)).serverOut
        = [.status (statusSlot true),
           .frame .synAck (shakeFrame ⟨1, 1002, 1, 2001, 4096, cs, ln⟩),
           .status (statusSlot false), .status (statusSlot true)] := by
  have hv : (⟨1, 2002, 0, 1002, 4096, cs, ln⟩ : capshdr).valid :=
    valid_of_garbage _ _ _ _ _ _ _ (by decide) (by decide) (by decide) (by decide) (by decide)
      hcs hln
  have hd := deserialize_shakeFrame t _ hv
  obtain ⟨p4, p5, p6, p7⟩ :=
    stage_prefix t chbuffer chmsg shbuffer cs ln sh0 hcb hcm hsb hcs hln
  have p8 := stage_completes t chbuffer chmsg shbuffer cs ln sh0 hcb hcm hsb hcs hln 0
    (by decide)
  have e0 := sysStart_eq_stage chbuffer chmsg shbuffer cs ln sh0
  have hturns : handshakeTurns.drop 0 = handshakeTurns := rfl
  rw [hturns, ← e0] at p8
  obtain ⟨f4, f5, f67⟩ := stage_ack_facts chbuffer chmsg shbuffer cs ln sh0
  obtain ⟨g1, g2, g3, g4⟩ := stage_final_frames chbuffer chmsg shbuffer cs ln sh0
  rw [p4, p5, p6, p7, p8]
  refine ⟨⟨f4.1, f4.2, by rw [hd]; rfl⟩, f5, f67, ⟨⟨rfl, rfl⟩, ?_, ?_, ?_⟩, ?_⟩
  · rw [g1]; rfl
  · rw [g2]; rfl
  · rw [g3]; rfl
  · intro sched hq
    obtain ⟨j, -, hj, e⟩ :=
      stage_sched t chbuffer chmsg shbuffer cs ln sh0 hcb hcm hsb hcs hln sched 0 (by decide)
    rw [e0, e] at hq ⊢
    rw [stage_quiet chbuffer chmsg shbuffer cs ln sh0 j hj hq]
    exact ⟨g1, g2, g3, g4⟩

/-- Witness for C23: buffers filled with junk and junk in the two unset header fields. -/
theorem ack_frame_sent_twice_witness :
    (framesOf .syn
      (runSched x86 handshakeTurns
        (sysStart (List.replicate 256 170) (List.replicate 256 170) 12345 54321
          ⟨0, 0, 0, 0, 0, 0, 0⟩ (List.replicate 256 85))).clientOut).length = 1 ∧
    (framesOf .synAck
      (runSched x86 handshakeTurns
        (sysStart (List.replicate 256 170) (List.replicate 256 170) 12345 54321
          ⟨0, 0, 0, 0, 0, 0, 0⟩ (List.replicate 256 85))).serverOut).length = 1 ∧
    (framesOf .ack
      (runSched x86 handshakeTurns
        (sysStart (List.replicate 256 170) (List.replicate 256 170) 12345 54321
          ⟨0, 0, 0, 0, 0, 0, 0⟩ (List.replicate 256 85))).clientOut).length = 2 :=
  have h := ack_frame_sent_twice x86 (List.replicate 256 170) (List.replicate 256 170)
    (List.replicate 256 85) 12345 54321 ⟨0, 0, 0, 0, 0, 0, 0⟩ (List.length_replicate 256 170)
    (List.length_replicate 256 170) (List.length_replicate 256 85) (by decide) (by decide)
  h.2.2.2.1.2

/-! ## Header and first frame of a delivery -/

theorem serialize_header_short (h : capshdr) :
    ∀ (buffer : List Nat), buffer.length < 13 →
      serialize_header buffer h = (headerBytes h).take buffer.length
  | [], _ => by simp [serialize_header, pack_uint16_t, pack_uint8_t, headerBytes]
  | [b0], _ => by simp [serialize_header, pack_uint16_t, pack_uint8_t, headerBytes]
  | [b0, b1], _ => by simp [serialize_header, pack_uint16_t, pack_uint8_t, headerBytes]
  | [b0, b1, b2], _ => by simp [serialize_header, pack_uint16_t, pack_uint8_t, headerBytes]
  | [b0, b1, b2, b3], _ => by simp [serialize_header, pack_uint16_t, pack_uint8_t, headerBytes]
  | [b0, b1, b2, b3, b4], _ => by simp [serialize_header, pack_uint16_t, pack_uint8_t, headerBytes]
  | [b0, b1, b2, b3, b4, b5], _ => by simp [serialize_header, pack_uint16_t, pack_uint8_t, headerBytes]
  | [b0, b1, b2, b3, b4, b5, b6], _ => by simp [serialize_header, pack_uint16_t, pack_uint8_t, headerBytes]
  | [b0, b1, b2, b3, b4, b5, b6, b7], _ => by simp [serialize_header, pack_uint16_t, pack_uint8_t, headerBytes]
  | [b0, b1, b2, b3, b4, b5, b6, b7, b8], _ => by simp [serialize_header, pack_uint16_t, pack_uint8_t, headerBytes]
  | [b0, b1, b2, b3, b4, b5, b6, b7, b8, b9], _ => by simp [serialize_header, pack_uint16_t, pack_uint8_t, headerBytes]
  | [b0, b1, b2, b3, b4, b5, b6, b7, b8, b9, b10], _ => by simp [serialize_header, pack_uint16_t, pack_uint8_t, headerBytes]
  | [b0, b1, b2, b3, b4, b5, b6, b7, b8, b9, b10, b11], _ => by simp [serialize_header, pack_uint16_t, pack_uint8_t, headerBytes]
  | b0 :: b1 :: b2 :: b3 :: b4 :: b5 :: b6 :: b7 :: b8 :: b9 :: b10 :: b11 :: b12 :: rest, h13 => by simp at h13; omega

theorem firstWrite_take (h : capshdr) (mem p : List Nat) (len n : Nat)
    (hn : n ≤ mem.length) :
    (memcpy (serialize_header mem h) 13 p len).take n
      = (headerBytes h ++ p.take len ++ mem.drop (13 + len)).take n := by
  have h13 := headerBytes_length h
  by_cases hm : 13 ≤ mem.length
  · rw [memcpy_serialize mem p h len hm]
  · have hs := serialize_header_short h mem (by omega)
    have hl : ((headerBytes h).take mem.length).length = mem.length := by
      rw [List.length_take, h13]; omega
    unfold memcpy
    rw [hs, List.append_assoc, List.append_assoc,
      List.take_append_of_le_length (by rw [List.length_take, hl]; omega),
      List.take_append_of_le_length (by omega), List.take_take, List.take_take]
    congr 1
    omega

theorem cycleWrite_mem (t : Target) (sh : capshdr) (block after msg pre rest : List Nat)
    (hblock : block.length = sh.bufsize)
    (hmem : recvInto block sh.bufsize msg ++ after = pre ++ 0 :: rest)
    (hnz : ∀ x ∈ pre, x ≠ 0) :
    cycleWrite t sh block after msg
      = some (⟨1, 0, 0, 0, sh.bufsize, ichecksum t pre (pre.length : Int),
                pre.length % 65536⟩,
              pre ++ [0],
              (headerBytes ⟨1, 0, 0, 0, sh.bufsize, ichecksum t pre (pre.length : Int),
                  pre.length % 65536⟩ ++ pre.take (pre.length % 65536) ++
                (pre ++ 0 :: rest).drop (13 + pre.length % 65536)).take sh.bufsize) := by
  have hstr : strlen (recvInto block sh.bufsize msg ++ after) = some pre.length := by
    rw [hmem]; exact strlen_append_zero pre _ hnz
  have hpay : (recvInto block sh.bufsize msg ++ after).take (pre.length + 1) = pre ++ [0] := by
    rw [hmem]
    have e : pre ++ 0 :: rest = (pre ++ [0]) ++ rest := by simp
    rw [e]
    have hl : (pre ++ [0]).length = pre.length + 1 := by simp
    rw [← hl, take_append_length]
  have hstr2 : strlen (pre ++ [0]) = some pre.length := strlen_append_zero pre [] hnz
  have hcs : ichecksum t (pre ++ [0]) (pre.length : Int) = ichecksum t pre (pre.length : Int) :=
    ichecksum_append t pre [0]
  have hlen : sh.bufsize ≤ (recvInto block sh.bufsize msg ++ after).length := by
    rw [List.length_append, recvInto_length block msg sh.bufsize hblock]
    omega
  have hmod : pre.length % 65536 ≤ pre.length := Nat.mod_le _ _
  have htake : (pre ++ [0]).take (pre.length % 65536) = pre.take (pre.length % 65536) :=
    List.take_append_of_le_length hmod
  unfold cycleWrite
  simp only [hstr, hpay, hstr2, hcs, Option.bind_eq_bind, Option.some_bind]
  rw [firstWrite_take _ _ _ _ _ hlen, htake, hmem]

/-- Where every write stays inside its block, `cycleWrite` gives the header, the payload
and the frame of `cycleStart`. -/
theorem cycleWrite_of_start (t : Target) (sh : capshdr) (block after msg : List Nat)
    (c : Cycle) (f : List Nat) (hblock : block.length = sh.bufsize)
    (h : cycleStart t sh block after msg = some (c, [.frame .data f])) :
    cycleWrite t sh block after msg = some (c.header, c.payload, f) := by
  obtain ⟨pre, rest, hmem, hnz, hlt, hfit, hc, ho⟩ := cycleStart_inv t sh block after msg c _ h
  have hD : DATASIZE = 1024 := rfl
  have hr := recvInto_length block msg sh.bufsize hblock
  rw [hr] at hfit
  have hmod : pre.length % 65536 = pre.length := Nat.mod_eq_of_lt (by omega)
  simp only [List.cons.injEq, Out.frame.injEq, and_true, true_and] at ho
  rw [cycleWrite_mem t sh block after msg pre rest hblock hmem hnz, hc, ho, hmod,
    List.take_length]
  have hd : (pre ++ 0 :: rest).drop (13 + pre.length)
      = (recvInto block sh.bufsize msg).drop (13 + pre.length) ++ after := by
    rw [← hmem, List.drop_append_of_le_length (by omega)]
  have h13 := headerBytes_length (echoHeader t sh.bufsize pre)
  have hL : (headerBytes (echoHeader t sh.bufsize pre) ++ pre ++
      (recvInto block sh.bufsize msg).drop (13 + pre.length)).length = sh.bufsize := by
    rw [List.length_append, List.length_append, h13, List.length_drop, hr]
    omega
  have hframe : (headerBytes (echoHeader t sh.bufsize pre) ++ pre ++
      (pre ++ 0 :: rest).drop (13 + pre.length)).take sh.bufsize
      = (headerBytes (echoHeader t sh.bufsize pre) ++ pre ++
          (recvInto block sh.bufsize msg).drop (13 + pre.length)).take sh.bufsize := by
    rw [hd, ← List.append_assoc, List.take_append_of_le_length (Nat.le_of_eq hL.symm)]
  dsimp only [echoHeader] at hframe ⊢
  rw [hframe]

end Capstone
